import Mathlib

/-!
DAW prototype: mixer, transport, pan law and MIDI sequencer

A shallow embedding of the mixing and transport core and of the MIDI sequencer
of the DAW prototype (`Mixer.cpp`, `AudioEngine.cpp`, `AudioUtils.cpp`,
`MIDISequencer.cpp`) together with theorems about it.

Conventions of the embedding

* `float` and `double` values are rationals (`ℚ`): every finite floating
  point value is a rational. Where a result depends on the rounding of the
  arithmetic, in the quantisation and the MIDI clock of the sequencer, every
  operation returns the nearest `double` (`roundToDouble`, `Double.add` and so
  on); elsewhere the arithmetic is exact and the theorems concern the control
  structure of the code. A `float` argument of a setter that limits it
  (`jlimit`) is a `CFloat`, which also has NaN and the infinities. Overflow to
  an infinity and division by zero are outside the embedding.
* `int` indices are `Int`; the `int` counter of the engine that is only ever
  incremented (`xruns`) is taken in 32 bits with wrap-around (`wrapInt32`).
  Container sizes are `Nat`.
* A pointer to a heap object is the identity of the object; a pointer that
  leads to no live object is undefined behaviour in the source and `none`
  here.
* A loop that the source leaves open-ended carries a step budget; the theorems
  about it show that a sufficient budget gives the result.
* The JUCE classes (`MidiMessage`, `MidiBuffer`, `MidiMessageSequence`,
  `BigInteger`, `AudioBuffer`, `ValueTree`) are modelled from the library.
* A write or read past the end of a `std::vector` is undefined behaviour in
  the source; the embedding makes it explicit as `none`.
* `sendChangeMessage()` is recorded by a counter of the notifications sent.
-/

set_option autoImplicit false

/-! ## Library containers -/

/-- Semantics of `std::vector::resize(n)`: keep the first `n` elements and
pad with value-initialised elements `d` up to length `n`. -/
def vectorResize {α : Type} (xs : List α) (n : Nat) (d : α) : List α :=
  xs.take n ++ List.replicate (n - xs.length) d

/-- A `float` or `double` value as an argument of a public setter: NaN, an
infinity, or a finite value, which is a rational number. -/
inductive CFloat where
  | nan
  | negInf
  | num (value : ℚ)
  | posInf
deriving DecidableEq, Repr

namespace CFloat

/-- The comparison `a < b` of two floats (IEEE 754): false as soon as one side
is NaN. -/
def lt : CFloat → CFloat → Bool
  | nan, _ => false
  | _, nan => false
  | negInf, negInf => false
  | negInf, _ => true
  | _, negInf => false
  | posInf, _ => false
  | num _, posInf => true
  | num a, num b => decide (a < b)

/-- The comparison `a <= b` of two floats (IEEE 754): false as soon as one side
is NaN. -/
def le : CFloat → CFloat → Bool
  | nan, _ => false
  | _, nan => false
  | negInf, _ => true
  | _, posInf => true
  | posInf, _ => false
  | num _, negInf => false
  | num a, num b => decide (a ≤ b)

instance : LT CFloat := ⟨fun a b => CFloat.lt a b = true⟩

instance : LE CFloat := ⟨fun a b => CFloat.le a b = true⟩

instance (a b : CFloat) : Decidable (a < b) :=
  inferInstanceAs (Decidable (CFloat.lt a b = true))

instance (a b : CFloat) : Decidable (a ≤ b) :=
  inferInstanceAs (Decidable (CFloat.le a b = true))

end CFloat

/-- JUCE `jlimit(lowerLimit, upperLimit, valueToConstrain)`, a template over the
type of the three values: two comparisons with `<` and a selection. On floats
the comparisons are those of `CFloat`, and a NaN passes through both. -/
def jlimit {α : Type} [LT α] [∀ a b : α, Decidable (a < b)]
    (lowerLimit upperLimit valueToConstrain : α) : α :=
  if valueToConstrain < lowerLimit then lowerLimit
  else if upperLimit < valueToConstrain then upperLimit
  else valueToConstrain

/-- Model of `juce::AudioBuffer<float>` (JUCE library): a channel count, a
sample count, the samples, and the `isClear` flag the class keeps. Samples
outside `numChannels × size` carry no meaning. -/
structure AudioBuffer where
  numChannels : Nat := 0
  size : Nat := 0
  data : Nat → Nat → ℚ := fun _ _ => 0
  isClear : Bool := false

namespace AudioBuffer

/-- The class invariant of `juce::AudioBuffer`: a buffer flagged as cleared
holds only zeros. Every operation of the class keeps it. -/
def FlagSound (b : AudioBuffer) : Prop :=
  b.isClear = true → ∀ c n, c < b.numChannels → n < b.size → b.data c n = 0

/-- The accessor `AudioBuffer::getNumChannels`. -/
def getNumChannels (b : AudioBuffer) : Nat := b.numChannels

/-- The accessor `AudioBuffer::getNumSamples`. -/
def getNumSamples (b : AudioBuffer) : Nat := b.size

/-- The accessor `AudioBuffer::hasBeenCleared`: it reports the flag, it does not
inspect the samples. -/
def hasBeenCleared (b : AudioBuffer) : Bool := b.isClear

/-- The accessor `AudioBuffer::getSample`. -/
def getSample (b : AudioBuffer) (channel index : Nat) : ℚ := b.data channel index

/-- JUCE `AudioBuffer::clear()`: zero every sample and set the flag; a buffer
already flagged is left alone. -/
def clear (b : AudioBuffer) : AudioBuffer :=
  if b.isClear then b
  else { b with
    data := fun c n => if c < b.numChannels ∧ n < b.size then 0 else b.data c n
    isClear := true }

/-- JUCE `AudioBuffer::setSize(newNumChannels, newNumSamples)` with the default
flags: when the shape changes the storage is reallocated; it is zeroed when
the buffer was flagged as cleared and holds unspecified values otherwise (the
embedding keeps the old sample function for them). -/
def setSize (b : AudioBuffer) (newNumChannels newNumSamples : Nat) : AudioBuffer :=
  if newNumSamples ≠ b.size ∨ newNumChannels ≠ b.numChannels then
    { b with
      numChannels := newNumChannels
      size := newNumSamples
      data := if b.isClear then fun _ _ => 0 else b.data }
  else b

/-- JUCE `AudioBuffer::applyGain(channel, startSample, numSamples, gain)`:
nothing happens for gain 1 or a buffer flagged as cleared; gain 0 zeroes the
region, any other gain multiplies it. -/
def applyGainRegion (b : AudioBuffer) (channel startSample numSamples : Nat) (gain : ℚ) :
    AudioBuffer :=
  if gain ≠ 1 ∧ b.isClear = false then
    { b with
      data := fun c n =>
        if c = channel ∧ startSample ≤ n ∧ n < startSample + numSamples then
          (if gain = 0 then 0 else b.data c n * gain)
        else b.data c n }
  else b

/-- JUCE `AudioBuffer::applyGain(gain)`: the region form applied to every
channel over the whole length. -/
def applyGain (b : AudioBuffer) (gain : ℚ) : AudioBuffer :=
  (List.range b.numChannels).foldl (fun acc c => acc.applyGainRegion c 0 b.size gain) b

/-- JUCE `AudioBuffer::addFrom(destChannel, destStartSample, source,
sourceChannel, sourceStartSample, numSamples, gain)`: nothing happens for gain
0, an empty region or a source flagged as cleared; a destination flagged as
cleared is overwritten with the scaled source and loses its flag; otherwise
the scaled source is added. -/
def addFrom (dest : AudioBuffer) (destChannel destStartSample : Nat) (source : AudioBuffer)
    (sourceChannel sourceStartSample numSamples : Nat) (gain : ℚ) : AudioBuffer :=
  if gain ≠ 0 ∧ 0 < numSamples ∧ source.isClear = false then
    if dest.isClear then
      { dest with
        isClear := false
        data := fun c n =>
          if c = destChannel ∧ destStartSample ≤ n ∧ n < destStartSample + numSamples then
            (if gain ≠ 1 then
              source.data sourceChannel (n - destStartSample + sourceStartSample) * gain
            else source.data sourceChannel (n - destStartSample + sourceStartSample))
          else dest.data c n }
    else
      { dest with
        data := fun c n =>
          if c = destChannel ∧ destStartSample ≤ n ∧ n < destStartSample + numSamples then
            (if gain ≠ 1 then
              dest.data c n
                + source.data sourceChannel (n - destStartSample + sourceStartSample) * gain
            else dest.data c n
                + source.data sourceChannel (n - destStartSample + sourceStartSample))
          else dest.data c n }
  else dest

end AudioBuffer

/-! ## Mixer data model (`Mixer.h`) -/

/-- A hosted plugin (`std::unique_ptr<Plugin>`): the mixer only forwards
calls to it, so the embedding keeps its identity and its bypass switch. -/
structure Plugin where
  id : Nat
  bypassed : Bool := false
deriving DecidableEq, Repr

/-- The struct `Mixer::Channel`, with the defaults of its member initialisers. -/
structure Channel where
  volume : ℚ := 1
  pan : ℚ := 0
  mute : Bool := false
  solo : Bool := false
  bypass : Bool := false
  peakLevel : ℚ := 0
  rmsLevel : ℚ := 0
  sends : List (Int × ℚ) := []
  plugins : List Plugin := []
deriving DecidableEq, Repr

/-- The enum class `Mixer::BusType`, an enumeration over `int`:
`Aux = 0`, `Group = 1`, `Master = 2`. -/
structure BusType where
  val : Int
deriving DecidableEq, Repr

namespace BusType
/-- Enumerator `BusType::Aux`. -/
def Aux : BusType := ⟨0⟩
/-- Enumerator `BusType::Group`. -/
def Group : BusType := ⟨1⟩
/-- Enumerator `BusType::Master`. -/
def Master : BusType := ⟨2⟩
end BusType

/-- The struct `Mixer::Bus`. A default-constructed bus has an indeterminate
`type`; the embedding uses `Aux`. -/
structure Bus where
  type : BusType := BusType.Aux
  name : String := ""
  channel : Channel := {}
  sources : List Int := []
  outputBus : Int := -1
deriving DecidableEq, Repr

/-- A `Project*` as the mixer sees it: the identity of the object and the
size of `getTracks()`. -/
structure Project where
  addr : Nat
  numTracks : Nat
deriving DecidableEq, Repr

/-- The state of a `Mixer` object. -/
structure Mixer where
  currentProject : Option Project := none
  channels : List Channel := []
  buses : List Bus := []
  masterChannel : Channel := {}
  channelBuffers : List AudioBuffer := []
  busBuffers : List AudioBuffer := []
  masterBuffer : AudioBuffer := {}
  currentSampleRate : ℚ := 44100
  currentBlockSize : Nat := 512
  processingPrepared : Bool := false
  soloActive : Bool := false
  channelSoloBuffer : List Bool := []
  changeMessages : Nat := 0

namespace Mixer

/-- The constructor `Mixer::Mixer()`. -/
def init : Mixer := { masterChannel := { volume := 1 } }

/-- The call `sendChangeMessage()` of `juce::ChangeBroadcaster`. -/
def sendChangeMessage (m : Mixer) : Mixer :=
  { m with changeMessages := m.changeMessages + 1 }

/-- Function `Mixer::releaseResources`: the plugins are told to release (an effect outside
the mixer state) and the prepared flag is dropped. -/
def releaseResources (m : Mixer) : Mixer :=
  { m with processingPrepared := false }

/-- Function `Mixer::updateProcessingBuffers`: one stereo buffer of the current block
size per channel and per bus, and the master buffer. -/
def updateProcessingBuffers (m : Mixer) : Mixer :=
  { m with
    channelBuffers :=
      (vectorResize m.channelBuffers m.channels.length {}).map
        (fun b => b.setSize 2 m.currentBlockSize)
    busBuffers :=
      (vectorResize m.busBuffers m.buses.length {}).map
        (fun b => b.setSize 2 m.currentBlockSize)
    masterBuffer := m.masterBuffer.setSize 2 m.currentBlockSize }

/-- The second loop of `Mixer::updateSoloStates`, from index `i` on:
`channelSoloBuffer[i] = !soloActive || channels[i].solo`. A write past the end
of the vector is undefined behaviour (`none`). -/
def writeSoloBuffer (soloActive : Bool) : List Channel → Nat → List Bool → Option (List Bool)
  | [], _, buf => some buf
  | c :: cs, i, buf =>
    if i < buf.length then
      writeSoloBuffer soloActive cs (i + 1) (buf.set i (!soloActive || c.solo))
    else none

/-- The first loop of `Mixer::updateSoloStates`: stop at the first soloed channel. -/
def findSolo : List Channel → Bool
  | [] => false
  | c :: cs => if c.solo then true else findSolo cs

/-- Function `Mixer::updateSoloStates`. -/
def updateSoloStates (m : Mixer) : Option Mixer :=
  let soloActive := findSolo m.channels
  match writeSoloBuffer soloActive m.channels 0 m.channelSoloBuffer with
  | some buf => some { m with soloActive := soloActive, channelSoloBuffer := buf }
  | none => none

/-- Function `Mixer::setProject`. -/
def setProject (m : Mixer) (project : Option Project) : Mixer :=
  if m.currentProject.map Project.addr = project.map Project.addr then m
  else
    let m1 := { m.releaseResources with currentProject := project }
    match project with
    | some p =>
      sendChangeMessage
        (updateProcessingBuffers
          { m1 with
            channels := vectorResize m1.channels p.numTracks {}
            channelSoloBuffer := vectorResize m1.channelSoloBuffer p.numTracks false })
    | none =>
      sendChangeMessage { m1 with channels := [], channelSoloBuffer := [], buses := [] }

/-- Function `Mixer::setChannelMute`. -/
def setChannelMute (m : Mixer) (index : Int) (mute : Bool) : Mixer :=
  if 0 ≤ index ∧ index < m.channels.length then
    sendChangeMessage
      { m with channels := m.channels.modify (fun c => { c with mute := mute }) index.toNat }
  else m

/-- Function `Mixer::setChannelSolo`. -/
def setChannelSolo (m : Mixer) (index : Int) (solo : Bool) : Option Mixer :=
  if 0 ≤ index ∧ index < m.channels.length then
    (updateSoloStates
      { m with channels := m.channels.modify (fun c => { c with solo := solo }) index.toNat }).map
      sendChangeMessage
  else some m

/-- Function `Mixer::isChannelActive`. Reading `channelSoloBuffer[index]` past the end of
the vector is undefined behaviour (`none`). -/
def isChannelActive (m : Mixer) (index : Int) : Option Bool :=
  if 0 ≤ index ∧ index < m.channels.length then
    match m.channels[index.toNat]?, m.channelSoloBuffer[index.toNat]? with
    | some c, some s => some (!c.mute && s)
    | _, _ => none
  else some false

/-- Function `Mixer::setChannelVolume`. The argument is any `float`. The fields
of a channel hold finite values: the result is `none` when the value that the
code stores, `jlimit(0.0f, 2.0f, volume)`, is not one (it is then NaN). -/
def setChannelVolume (m : Mixer) (index : Int) (volume : CFloat) : Option Mixer :=
  if 0 ≤ index ∧ index < m.channels.length then
    match jlimit (CFloat.num 0) (CFloat.num 2) volume with
    | .num limited =>
      some (sendChangeMessage
        { m with
          channels := m.channels.modify (fun c => { c with volume := limited }) index.toNat })
    | _ => none
  else some m

/-- Function `Mixer::setChannelPan`. The argument is any `float`; the result is
`none` when the value that the code stores, `jlimit(-1.0f, 1.0f, pan)`, is not
finite (it is then NaN). -/
def setChannelPan (m : Mixer) (index : Int) (pan : CFloat) : Option Mixer :=
  if 0 ≤ index ∧ index < m.channels.length then
    match jlimit (CFloat.num (-1)) (CFloat.num 1) pan with
    | .num limited =>
      some (sendChangeMessage
        { m with
          channels := m.channels.modify (fun c => { c with pan := limited }) index.toNat })
    | _ => none
  else some m

/-- Function `Mixer::addSend`: the level is stored as given. -/
def addSend (m : Mixer) (channelIndex busIndex : Int) (level : ℚ) : Mixer :=
  if 0 ≤ channelIndex ∧ channelIndex < m.channels.length ∧
      0 ≤ busIndex ∧ busIndex < m.buses.length then
    sendChangeMessage
      { m with
        channels :=
          m.channels.modify (fun c => { c with sends := c.sends ++ [(busIndex, level)] })
            channelIndex.toNat }
  else m

/-- Function `Mixer::removeSend`: erase-remove of every send to `busIndex`. -/
def removeSend (m : Mixer) (channelIndex busIndex : Int) : Mixer :=
  if 0 ≤ channelIndex ∧ channelIndex < m.channels.length then
    sendChangeMessage
      { m with
        channels :=
          m.channels.modify
            (fun c => { c with sends := c.sends.filter (fun send => !decide (send.1 = busIndex)) })
            channelIndex.toNat }
  else m

/-- The loop of `Mixer::setSendLevel` over the sends of one channel: the first
send to `busIndex` gets the limited level and the loop breaks; `none` when no
send matches. -/
def setFirstSendLevel (busIndex : Int) (level : ℚ) : List (Int × ℚ) → Option (List (Int × ℚ))
  | [] => none
  | send :: rest =>
    if send.1 = busIndex then some ((send.1, jlimit 0 1 level) :: rest)
    else (setFirstSendLevel busIndex level rest).map (fun r => send :: r)

/-- Function `Mixer::setSendLevel`. -/
def setSendLevel (m : Mixer) (channelIndex busIndex : Int) (level : ℚ) : Mixer :=
  if 0 ≤ channelIndex ∧ channelIndex < m.channels.length then
    match m.channels[channelIndex.toNat]? with
    | some c =>
      match setFirstSendLevel busIndex level c.sends with
      | some sends =>
        sendChangeMessage
          { m with channels := m.channels.set channelIndex.toNat { c with sends := sends } }
      | none => m
    | none => m
  else m

/-- Function `Mixer::addBus`, with the index it returns. -/
def addBus (m : Mixer) (type : BusType) (name : String) : Mixer × Int :=
  let bus : Bus := { type := type, name := name, outputBus := -1 }
  let m1 := sendChangeMessage (updateProcessingBuffers { m with buses := m.buses ++ [bus] })
  (m1, (m1.buses.length : Int) - 1)

/-- Function `Mixer::removeBus`: the sends to the bus are removed channel by
channel, then the bus is erased; no other index is touched. -/
def removeBus (m : Mixer) (index : Int) : Mixer :=
  if 0 ≤ index ∧ index < m.buses.length then
    -- Remove sends to this bus
    let m1 := (List.range m.channels.length).foldl
      (fun (acc : Mixer) (i : Nat) => acc.removeSend (i : Int) index) m
    -- Remove bus
    sendChangeMessage (updateProcessingBuffers { m1 with buses := m1.buses.eraseIdx index.toNat })
  else m

/-- Function `Mixer::setBusOutput`: the output is stored as given. -/
def setBusOutput (m : Mixer) (index : Int) (outputBus : Int) : Mixer :=
  if 0 ≤ index ∧ index < m.buses.length then
    sendChangeMessage
      { m with buses := m.buses.modify (fun b => { b with outputBus := outputBus }) index.toNat }
  else m

end Mixer

/-- A call of one of the two setters the solo logic depends on. -/
inductive SoloMuteCall where
  | solo (index : Int) (value : Bool)
  | mute (index : Int) (value : Bool)
deriving DecidableEq, Repr

namespace Mixer

/-- Perform one setter call. -/
def applyCall (m : Mixer) : SoloMuteCall → Option Mixer
  | .solo i v => m.setChannelSolo i v
  | .mute i v => some (m.setChannelMute i v)

/-- Perform a sequence of setter calls, first to last. -/
def applyCalls (m : Mixer) : List SoloMuteCall → Option Mixer
  | [] => some m
  | c :: cs => (m.applyCall c).bind (fun m1 => m1.applyCalls cs)

end Mixer

/-- A call of `setChannelVolume` or `setChannelPan`. -/
inductive VolumePanCall where
  | volume (index : Int) (volume : CFloat)
  | pan (index : Int) (pan : CFloat)
deriving DecidableEq, Repr

/-- The float that a call passes. -/
def VolumePanCall.value : VolumePanCall → CFloat
  | .volume _ v => v
  | .pan _ p => p

namespace Mixer

/-- Perform one volume or pan call. -/
def applyVolumePan (m : Mixer) : VolumePanCall → Option Mixer
  | .volume i v => m.setChannelVolume i v
  | .pan i p => m.setChannelPan i p

/-- Perform a sequence of volume and pan calls, first to last. -/
def applyVolumePanCalls (m : Mixer) : List VolumePanCall → Option Mixer
  | [] => some m
  | c :: cs => (m.applyVolumePan c).bind (fun m1 => m1.applyVolumePanCalls cs)

end Mixer

/-! ## Pan law (`Mixer.cpp`, `AudioUtils.cpp`) -/

/-- The math library the pan code calls: `std::cos`, `std::sin` and the
constant `juce::MathConstants<float>::halfPi`. -/
structure CMath (α : Type) where
  cos : α → α
  sin : α → α
  halfPi : α

/-- Function `Mixer::calculatePanGain`. -/
def Mixer.calculatePanGain {α : Type} [Mul α] (lib : CMath α) (pan : α) (leftChannel : Bool) : α :=
  if leftChannel then lib.cos (pan * lib.halfPi) else lib.sin (pan * lib.halfPi)

/-- Function `MixerUtils::panToGain`. -/
def MixerUtils.panToGain {α : Type} [Mul α] (lib : CMath α) (pan : α) (leftChannel : Bool) : α :=
  if leftChannel then lib.cos (pan * lib.halfPi) else lib.sin (pan * lib.halfPi)

/-- The constant `AudioUtils::HALF_PI = PI * 0.5f`, over the value `PI` of
`AudioUtils::PI`. -/
def AudioUtils.HALF_PI {α : Type} [Field α] (PI : α) : α := PI * (1 / 2)

/-- Function `AudioUtils::panToGain` ("constant power panning"), over the value `PI` of
the constant `AudioUtils::PI` and the library cosine. -/
def AudioUtils.panToGain {α : Type} [Field α] (cos : α → α) (PI : α) (pan : α)
    (leftChannel : Bool) : α :=
  let angle := (if leftChannel then 1 - pan else 1 + pan) * AudioUtils.HALF_PI PI * (1 / 2)
  cos angle

/-! ## Buffer mixing and channel settings -/

/-- Function `MixerUtils::mixBuffers`; `source` is a `const&` and is only read. -/
def MixerUtils.mixBuffers (source destination : AudioBuffer) (gain : ℚ := 1) : AudioBuffer :=
  let numChannels := min source.getNumChannels destination.getNumChannels
  let numSamples := min source.getNumSamples destination.getNumSamples
  (List.range numChannels).foldl
    (fun dest channel => dest.addFrom channel 0 source channel 0 numSamples gain) destination

/-- Function `AudioUtils::mixBuffers`; `source` is a `const&` and is only read. -/
def AudioUtils.mixBuffers (source destination : AudioBuffer) (gain : ℚ) : AudioBuffer :=
  let numChannels := min source.getNumChannels destination.getNumChannels
  let numSamples := min source.getNumSamples destination.getNumSamples
  (List.range numChannels).foldl
    (fun dest channel => dest.addFrom channel 0 source channel 0 numSamples gain) destination

/-- Function `Mixer::applyChannelSettings`. -/
def Mixer.applyChannelSettings (lib : CMath ℚ) (buffer : AudioBuffer) (channel : Channel) :
    AudioBuffer :=
  if channel.mute = true ∨ buffer.hasBeenCleared = false then buffer.clear
  else
    let b1 := if channel.volume ≠ 1 then buffer.applyGain channel.volume else buffer
    if channel.pan ≠ 0 ∧ b1.getNumChannels = 2 then
      let leftGain := Mixer.calculatePanGain lib channel.pan true
      let rightGain := Mixer.calculatePanGain lib channel.pan false
      (b1.applyGainRegion 0 0 b1.getNumSamples leftGain).applyGainRegion 1 0 b1.getNumSamples
        rightGain
    else b1

/-! ## Numeric conversions and MIDI containers (C++ and JUCE library) -/

/-- The value of an `int` computation whose mathematical result is `x`: the
result taken in 32 bits, two's complement. The language leaves signed overflow
undefined; the generated code of the build targets wraps around. -/
def wrapInt32 (x : Int) : Int := (x + 2147483648) % 4294967296 - 2147483648

/-- The C++ conversion `static_cast<int>(double)`: truncation towards zero. -/
def truncToInt (x : ℚ) : Int := Int.tdiv x.num x.den

/-- The C++ function `std::round`: the nearest integer, halves away from zero. -/
def stdRound (x : ℚ) : Int := if 0 ≤ x then ⌊x + 1 / 2⌋ else -⌊-x + 1 / 2⌋

/-- JUCE `roundToInt`: the nearest integer, halves to the even neighbour. -/
def roundToInt (x : ℚ) : Int :=
  if x - ⌊x⌋ = 1 / 2 then (if ⌊x⌋ % 2 = 0 then ⌊x⌋ else ⌊x⌋ + 1) else ⌊x + 1 / 2⌋

/-- Rounding to the nearest integer, halves to the even neighbour: the rounding
of IEEE 754 arithmetic in its default mode. -/
def nearestEven (x : ℚ) : Int :=
  if x - ⌊x⌋ = 1 / 2 then (if ⌊x⌋ % 2 = 0 then ⌊x⌋ else ⌊x⌋ + 1) else ⌊x + 1 / 2⌋

/-- The spacing of the `double` values around `x` (IEEE 754 binary64, 53
significant bits): `2 ^ (e - 52)` for `2 ^ e ≤ |x| < 2 ^ (e + 1)`, and the
spacing `2 ^ (-1074)` of the subnormal values below `2 ^ (-1022)`. -/
def doubleSpacing (x : ℚ) : ℚ := (2 : ℚ) ^ (max (Int.log 2 |x|) (-1022) - 52)

/-- The `double` nearest to the real number `x`, halves to the even
significand: the value that an arithmetic operation on `double` returns when
its exact result is `x`. Results beyond the largest finite `double`, which
become an infinity, are outside the embedding. -/
def roundToDouble (x : ℚ) : ℚ := (nearestEven (x / doubleSpacing x) : ℚ) * doubleSpacing x

namespace Double

/-- The C++ sum `a + b` of two `double` values. -/
def add (a b : ℚ) : ℚ := roundToDouble (a + b)

/-- The C++ difference `a - b` of two `double` values. -/
def sub (a b : ℚ) : ℚ := roundToDouble (a - b)

/-- The C++ product `a * b` of two `double` values. -/
def mul (a b : ℚ) : ℚ := roundToDouble (a * b)

/-- The C++ quotient `a / b` of two `double` values, `b` not zero. -/
def div (a b : ℚ) : ℚ := roundToDouble (a / b)

end Double

/-- JUCE `jlimit(lower, upper, value)` on integers. -/
def jlimitInt (lower upper value : Int) : Int :=
  if value < lower then lower else if upper < value then upper else value

/-- Model of `juce::MidiMessage` (JUCE library): the raw bytes and the time
stamp. The predicates read the status byte as the library does. -/
structure MidiMessage where
  data : List Nat
  timeStamp : ℚ := 0
deriving DecidableEq, Repr

namespace MidiMessage

/-- Byte `i` of the raw data (0 when the message is shorter). -/
def byte (m : MidiMessage) (i : Nat) : Nat := m.data.getD i 0

/-- JUCE `isNoteOn()`: status `0x9n` with a velocity that is not 0. -/
def isNoteOn (m : MidiMessage) : Bool := (m.byte 0 &&& 0xf0) == 0x90 && m.byte 2 != 0

/-- JUCE `isNoteOff()`: status `0x8n`, or a note-on with velocity 0. -/
def isNoteOff (m : MidiMessage) : Bool :=
  (m.byte 0 &&& 0xf0) == 0x80 || (m.byte 2 == 0 && (m.byte 0 &&& 0xf0) == 0x90)

/-- JUCE `isNoteOnOrOff()`. -/
def isNoteOnOrOff (m : MidiMessage) : Bool :=
  (m.byte 0 &&& 0xf0) == 0x90 || (m.byte 0 &&& 0xf0) == 0x80

/-- JUCE `isController()`. -/
def isController (m : MidiMessage) : Bool := (m.byte 0 &&& 0xf0) == 0xb0

/-- JUCE `isProgramChange()`. -/
def isProgramChange (m : MidiMessage) : Bool := (m.byte 0 &&& 0xf0) == 0xc0

/-- JUCE `isPitchWheel()`. -/
def isPitchWheel (m : MidiMessage) : Bool := (m.byte 0 &&& 0xf0) == 0xe0

/-- JUCE `getChannel()`: 1 to 16 for a channel message, 0 otherwise. -/
def getChannel (m : MidiMessage) : Int :=
  if (m.byte 0 &&& 0xf0) ≠ 0xf0 then ((m.byte 0 &&& 0xf) + 1 : Nat) else 0

/-- JUCE `getNoteNumber()`: the second byte. -/
def getNoteNumber (m : MidiMessage) : Int := (m.byte 1 : Nat)

/-- JUCE `getVelocity()`: the third byte of a note message, 0 to 127. -/
def getVelocity (m : MidiMessage) : Int := if m.isNoteOnOrOff then (m.byte 2 : Nat) else 0

/-- JUCE `floatValueToMidiByte(v)`: the argument is a level between 0 and 1; it
is scaled by 127, rounded and limited to 0..127. -/
def floatValueToMidiByte (v : ℚ) : Nat := (jlimitInt 0 127 (roundToInt (v * 127))).toNat

/-- JUCE `setVelocity(float newVelocity)`: on a note message the third byte
becomes `floatValueToMidiByte(newVelocity)`; the argument is a level between 0
and 1, not a MIDI velocity. -/
def setVelocity (m : MidiMessage) (newVelocity : ℚ) : MidiMessage :=
  if m.isNoteOnOrOff then { m with data := m.data.set 2 (floatValueToMidiByte newVelocity) }
  else m

/-- JUCE `getTimeStamp()`. -/
def getTimeStamp (m : MidiMessage) : ℚ := m.timeStamp

/-- JUCE `setTimeStamp(newTimestamp)`. -/
def setTimeStamp (m : MidiMessage) (newTimestamp : ℚ) : MidiMessage :=
  { m with timeStamp := newTimestamp }

/-- JUCE `MidiMessage::midiClock()`: the single byte `0xf8`. -/
def midiClock : MidiMessage := { data := [0xf8] }

/-- JUCE `MidiMessage::noteOff(channel, noteNumber)`. -/
def noteOff (channel noteNumber : Int) : MidiMessage :=
  { data := [0x80 ||| (jlimitInt 0 15 (channel - 1)).toNat, noteNumber.toNat &&& 127, 0] }

/-- JUCE `MidiMessage::noteOn(channel, noteNumber, (uint8) velocity)`. -/
def noteOn (channel noteNumber velocity : Int) : MidiMessage :=
  { data := [0x90 ||| (jlimitInt 0 15 (channel - 1)).toNat, noteNumber.toNat &&& 127,
      (jlimitInt 0 127 velocity).toNat] }

end MidiMessage

/-- One event of a `juce::MidiBuffer`: the bytes and the sample position. -/
structure MidiBufferEvent where
  samplePosition : Int
  data : List Nat
deriving DecidableEq, Repr

/-- Model of `juce::MidiBuffer` (JUCE library): the events in the order the
buffer keeps them, by sample position. -/
abbrev MidiBuffer := List MidiBufferEvent

namespace MidiBuffer

/-- The insertion of `MidiBuffer::addEvent`: before the first event with a
larger sample position. -/
def insertEvent (ev : MidiBufferEvent) : List MidiBufferEvent → List MidiBufferEvent
  | [] => [ev]
  | x :: xs =>
    if ev.samplePosition < x.samplePosition then ev :: x :: xs else x :: insertEvent ev xs

/-- JUCE `MidiBuffer::addEvent(message, sampleNumber)`: a message without bytes
is ignored; any sample number is accepted, a negative one too. -/
def addEvent (b : MidiBuffer) (m : MidiMessage) (sampleNumber : Int) : MidiBuffer :=
  if m.data = [] then b else insertEvent { samplePosition := sampleNumber, data := m.data } b

end MidiBuffer

/-! ## Transport (`AudioEngine.h`, `AudioEngine.cpp`) -/

/-- The struct `AudioEngine::Settings`. -/
structure Settings where
  sampleRate : ℚ := 44100
  bufferSize : Int := 512
  inputChannels : Int := 2
  outputChannels : Int := 2
  inputDevice : String := ""
  outputDevice : String := ""
  useAsioDriver : Bool := false
deriving DecidableEq, Repr

/-- The struct `juce::AudioPlayHead::TimeSignature`. -/
structure TimeSignature where
  numerator : Int := 4
  denominator : Int := 4
deriving DecidableEq, Repr

/-- The struct `AudioEngine::TransportState`. -/
structure TransportState where
  isPlaying : Bool := false
  isRecording : Bool := false
  isLooping : Bool := false
  bpm : ℚ := 120
  position : ℚ := 0
  loopStart : ℚ := 0
  loopEnd : ℚ := 0
  timeSignature : TimeSignature := {}
deriving DecidableEq, Repr

/-- The struct `AudioEngine::CPUInfo`. -/
structure CPUInfo where
  averageLoad : ℚ := 0
  peakLoad : ℚ := 0
  currentLoad : ℚ := 0
  xruns : Int := 0
deriving DecidableEq, Repr

/-- The audio device the `juce::AudioDeviceManager` currently holds, as the
engine reads it: `getCurrentSampleRate()` and `getCurrentBufferSizeSamples()`. -/
structure AudioDevice where
  sampleRate : ℚ
  bufferSize : Int
deriving DecidableEq, Repr

/-- The settings of a `Project` that the engine and the sequencer read through
`getSettings()`. -/
structure ProjectSettings where
  tempo : ℚ := 120
  timeSignature : TimeSignature := {}
deriving DecidableEq, Repr

/-- The state of the `AudioEngine` object. `nextPosition` is the atomic
pending-seek slot; a negative value means that no seek is pending. `device` is
the current device of the device manager (`none` for a null pointer) and
`callbackRegistered` tells whether the engine is among its callbacks. -/
structure AudioEngine where
  settings : Settings := {}
  initialized : Bool := false
  currentProject : Option Project := none
  transport : TransportState := {}
  nextPosition : ℚ := 0
  cpuInfo : CPUInfo := {}
  changeMessages : Nat := 0
  inputBuffer : AudioBuffer := {}
  outputBuffer : AudioBuffer := {}
  midiBuffer : MidiBuffer := []
  incomingMidi : MidiBuffer := []
  device : Option AudioDevice := none
  callbackRegistered : Bool := false

namespace AudioEngine

/-- The call `sendChangeMessage()` of `juce::ChangeBroadcaster`. -/
def sendChangeMessage (e : AudioEngine) : AudioEngine :=
  { e with changeMessages := e.changeMessages + 1 }

/-- Function `AudioEngine::setPosition`: the seek is only stored in the pending slot. -/
def setPosition (e : AudioEngine) (timeInSeconds : ℚ) : AudioEngine :=
  sendChangeMessage { e with nextPosition := timeInSeconds }

/-- Function `AudioEngine::updateTransportPosition`. -/
def updateTransportPosition (e : AudioEngine) (numSamples : Int) : AudioEngine :=
  if e.transport.isPlaying = false then e
  else
    -- Handle position changes
    let e1 :=
      if 0 ≤ e.nextPosition then
        { e with
          transport := { e.transport with position := e.nextPosition }
          nextPosition := -1 }
      else e
    -- Update position
    let timeIncrement : ℚ := (numSamples : ℚ) / e1.settings.sampleRate
    let e2 :=
      { e1 with transport := { e1.transport with position := e1.transport.position + timeIncrement } }
    -- Handle looping
    if e2.transport.isLooping = true ∧ e2.transport.loopEnd ≤ e2.transport.position then
      { e2 with transport := { e2.transport with position := e2.transport.loopStart } }
    else e2

/-- Function `AudioEngine::handleXRun` (the warning goes to the logger). The
counter is an `int`: the increment `xruns++` is taken in 32 bits. -/
def handleXRun (e : AudioEngine) : AudioEngine :=
  { e with cpuInfo := { e.cpuInfo with xruns := wrapInt32 (e.cpuInfo.xruns + 1) } }

/-- Function `AudioEngine::updateCPUInfo`. -/
def updateCPUInfo (e : AudioEngine) (processingTimeMs : ℚ) : AudioEngine :=
  let bufferTimeMs : ℚ := ((e.settings.bufferSize : ℚ) / e.settings.sampleRate) * 1000
  let load : ℚ := processingTimeMs / bufferTimeMs
  let e1 :=
    { e with
      cpuInfo :=
        { e.cpuInfo with
          currentLoad := load
          averageLoad := e.cpuInfo.averageLoad * (9 / 10) + load * (1 / 10)
          peakLoad := max (e.cpuInfo.peakLoad * (99 / 100)) load } }
  if bufferTimeMs < processingTimeMs then e1.handleXRun else e1

/-- Function `AudioEngine::clearBuffers`. -/
def clearBuffers (e : AudioEngine) : AudioEngine :=
  { e with
    inputBuffer := e.inputBuffer.clear
    outputBuffer := e.outputBuffer.clear
    midiBuffer := []
    incomingMidi := [] }

/-- Function `AudioEngine::initializeBuffers`. -/
def initializeBuffers (e : AudioEngine) : AudioEngine :=
  let numChannels := max e.settings.inputChannels e.settings.outputChannels
  clearBuffers
    { e with
      inputBuffer := e.inputBuffer.setSize numChannels.toNat e.settings.bufferSize.toNat
      outputBuffer := e.outputBuffer.setSize numChannels.toNat e.settings.bufferSize.toNat }

/-- Function `AudioEngine::audioDeviceAboutToStart`, the callback of a device that
starts. -/
def audioDeviceAboutToStart (e : AudioEngine) (device : AudioDevice) : AudioEngine :=
  initializeBuffers
    { e with
      settings :=
        { e.settings with sampleRate := device.sampleRate, bufferSize := device.bufferSize } }

/-- Function `AudioEngine::audioDeviceStopped`. -/
def audioDeviceStopped (e : AudioEngine) : AudioEngine := e.clearBuffers

/-- Function `AudioEngine::setupAudioDevice`, with its result. What the device
manager does with the requested setup is an input: `opened` is the device it
runs afterwards, `none` when it reports an error. A device that opens runs at
the sample rate and buffer size it reports, which need not be the requested
ones, and starts the registered callback (`audioDeviceAboutToStart`), which
stores them; after a failed open the manager holds no device. -/
def setupAudioDevice (e : AudioEngine) (opened : Option AudioDevice) : AudioEngine × Bool :=
  if e.device.isSome = true ∧
      e.device.map AudioDevice.sampleRate = some e.settings.sampleRate ∧
      e.device.map AudioDevice.bufferSize = some e.settings.bufferSize then
    (e, true)
  else
    match opened with
    | some device =>
      (audioDeviceAboutToStart { e with device := some device, callbackRegistered := true }
        device, true)
    | none => ({ e with device := none }, false)

/-- Function `AudioEngine::cleanupAudioDevice`. -/
def cleanupAudioDevice (e : AudioEngine) : AudioEngine :=
  { e with callbackRegistered := false, device := none }

/-- Function `AudioEngine::play`. -/
def play (e : AudioEngine) : AudioEngine :=
  if e.initialized = false ∨ e.transport.isPlaying = true then e
  else sendChangeMessage { e with transport := { e.transport with isPlaying := true } }

/-- Function `AudioEngine::stop`. -/
def stop (e : AudioEngine) : AudioEngine :=
  if e.initialized = false ∨ e.transport.isPlaying = false then e
  else
    sendChangeMessage
      { e with transport := { e.transport with isPlaying := false, isRecording := false } }

/-- Function `AudioEngine::record`. -/
def record (e : AudioEngine) : AudioEngine :=
  if e.initialized = false then e
  else
    let e1 :=
      { e with transport := { e.transport with isRecording := !e.transport.isRecording } }
    let e2 :=
      if e1.transport.isRecording = true ∧ e1.transport.isPlaying = false then e1.play else e1
    e2.sendChangeMessage

/-- Function `AudioEngine::initialize`, with its result (the source name is a
reserved word of Lean). -/
def initializeEngine (e : AudioEngine) (opened : Option AudioDevice) : AudioEngine × Bool :=
  if e.initialized = true then (e, true)
  else
    if (e.setupAudioDevice opened).2 = false then ((e.setupAudioDevice opened).1, false)
    else ({ (e.setupAudioDevice opened).1.initializeBuffers with initialized := true }, true)

/-- Function `AudioEngine::shutdown`. -/
def shutdown (e : AudioEngine) : AudioEngine :=
  if e.initialized = false then e
  else { e.stop.cleanupAudioDevice.clearBuffers with initialized := false }

/-- Function `AudioEngine::applySettings`, with its result. -/
def applySettings (e : AudioEngine) (newSettings : Settings) (opened : Option AudioDevice) :
    AudioEngine × Bool :=
  if newSettings.sampleRate = e.settings.sampleRate ∧
      newSettings.bufferSize = e.settings.bufferSize ∧
      newSettings.inputChannels = e.settings.inputChannels ∧
      newSettings.outputChannels = e.settings.outputChannels ∧
      newSettings.inputDevice = e.settings.inputDevice ∧
      newSettings.outputDevice = e.settings.outputDevice ∧
      newSettings.useAsioDriver = e.settings.useAsioDriver then
    (e, true)
  else
    let wasPlaying := e.transport.isPlaying
    let e1 := if wasPlaying = true then e.stop else e
    let e2 := { e1 with settings := newSettings }
    if (e2.setupAudioDevice opened).2 = false then
      ((e2.setupAudioDevice opened).1, false)
    else
      let e3 := (e2.setupAudioDevice opened).1.initializeBuffers
      let e4 := if wasPlaying = true then e3.play else e3
      (e4.sendChangeMessage, true)

/-- Function `AudioEngine::setProject`; `projectSettings` is what
`project->getSettings()` holds when the pointer is not null. -/
def setProject (e : AudioEngine) (project : Option Project) (projectSettings : ProjectSettings) :
    AudioEngine :=
  let wasPlaying := e.transport.isPlaying
  let e1 := if wasPlaying = true then e.stop else e
  let e2 := { e1 with currentProject := project }
  let e3 :=
    if project.isSome = true then
      { e2 with
        transport :=
          { e2.transport with
            bpm := projectSettings.tempo
            timeSignature :=
              { numerator := projectSettings.timeSignature.numerator
                denominator := projectSettings.timeSignature.denominator } } }
    else e2
  if wasPlaying = true then e3.play else e3

/-- Function `AudioEngine::setLoopPoints`. -/
def setLoopPoints (e : AudioEngine) (startTime endTime : ℚ) : AudioEngine :=
  sendChangeMessage
    { e with transport := { e.transport with loopStart := startTime, loopEnd := endTime } }

/-- Function `AudioEngine::setLooping`. -/
def setLooping (e : AudioEngine) (shouldLoop : Bool) : AudioEngine :=
  sendChangeMessage { e with transport := { e.transport with isLooping := shouldLoop } }

/-- Function `AudioEngine::setBpm`. -/
def setBpm (e : AudioEngine) (newBpm : ℚ) : AudioEngine :=
  sendChangeMessage { e with transport := { e.transport with bpm := newBpm } }

/-- Function `AudioEngine::setTimeSignature`. -/
def setTimeSignature (e : AudioEngine) (numerator denominator : Int) : AudioEngine :=
  sendChangeMessage
    { e with
      transport :=
        { e.transport with
          timeSignature := { numerator := numerator, denominator := denominator } } }

end AudioEngine

/-- A call on the engine from the control thread or from the device: the
lifecycle and transport operations, the transport setters, and the two
bookkeeping steps of the device callback. -/
inductive EngineCall where
  | initializeEngine (opened : Option AudioDevice)
  | shutdown
  | applySettings (newSettings : Settings) (opened : Option AudioDevice)
  | setProject (project : Option Project) (projectSettings : ProjectSettings)
  | play
  | stop
  | record
  | setPosition (timeInSeconds : ℚ)
  | setLoopPoints (startTime endTime : ℚ)
  | setLooping (shouldLoop : Bool)
  | setBpm (newBpm : ℚ)
  | setTimeSignature (numerator denominator : Int)
  | updateTransportPosition (numSamples : Int)
  | updateCPUInfo (processingTimeMs : ℚ)

namespace AudioEngine

/-- The engine after one call. -/
def call (e : AudioEngine) : EngineCall → AudioEngine
  | .initializeEngine opened => (e.initializeEngine opened).1
  | .shutdown => e.shutdown
  | .applySettings newSettings opened => (e.applySettings newSettings opened).1
  | .setProject project projectSettings => e.setProject project projectSettings
  | .play => e.play
  | .stop => e.stop
  | .record => e.record
  | .setPosition t => e.setPosition t
  | .setLoopPoints a b => e.setLoopPoints a b
  | .setLooping b => e.setLooping b
  | .setBpm b => e.setBpm b
  | .setTimeSignature n d => e.setTimeSignature n d
  | .updateTransportPosition n => e.updateTransportPosition n
  | .updateCPUInfo t => e.updateCPUInfo t

/-- The engine after a sequence of calls, first to last. -/
def calls (e : AudioEngine) (cs : List EngineCall) : AudioEngine := cs.foldl call e

/-- The engine states reached from the constructed engine by calls. -/
inductive Reachable : AudioEngine → Prop where
  | init : Reachable {}
  | step (e : AudioEngine) (c : EngineCall) : Reachable e → Reachable (e.call c)

end AudioEngine

/-! ## Persisted mixer state (`Mixer::saveState`, `Mixer::loadState`) -/

/-- Model of `juce::var` (JUCE library), the value of a tree property. A
`float` is stored as a `double`, which holds it exactly. -/
inductive Var where
  | void
  | int (i : Int)
  | bool (b : Bool)
  | double (d : ℚ)
  | string (s : String)
deriving DecidableEq, Repr

namespace Var

/-- Conversion `var → int`: numbers are truncated towards zero, a missing
value is 0. Text goes through the JUCE number reader, which the embedding
approximates by the reader of decimal integers. -/
def toInt : Var → Int
  | void => 0
  | int i => i
  | bool b => if b then 1 else 0
  | double d => Int.tdiv d.num d.den
  | string s => s.toInt?.getD 0

/-- Conversion `var → float`/`double`. Text is approximated as in `toInt`. -/
def toFloat : Var → ℚ
  | void => 0
  | int i => i
  | bool b => if b then 1 else 0
  | double d => d
  | string s => (s.toInt?.getD 0 : Int)

/-- Conversion `var → bool`: a number is true when it is not zero. Text is
approximated as in `toInt`. -/
def toBool : Var → Bool
  | void => false
  | int i => i != 0
  | bool b => b
  | double d => d != 0
  | string s => s.toInt?.getD 0 != 0

/-- Conversion `var → juce::String`. The text form of a `double` is not
modelled (the mixer never reads one back as text). -/
def toText : Var → String
  | void => ""
  | int i => toString i
  | bool b => if b then "1" else "0"
  | double _ => ""
  | string s => s

end Var

/-- Model of a valid `juce::ValueTree` (JUCE library): a type name, an
ordered list of named properties and an ordered list of children. -/
inductive ValueTree where
  | node (type : String) (properties : List (String × Var)) (children : List ValueTree)

namespace ValueTree

/-- The type name of a node (`getType`). -/
def type : ValueTree → String
  | node t _ _ => t

/-- The properties of a node. -/
def properties : ValueTree → List (String × Var)
  | node _ ps _ => ps

/-- The children of a node, in order (what the range-based `for` visits). -/
def children : ValueTree → List ValueTree
  | node _ _ cs => cs

/-- A fresh node of the given type. -/
def fresh (name : String) : ValueTree := node name [] []

/-- Write a property in a property list: replace the value of an existing
name in place, else append. -/
def setProp (name : String) (v : Var) : List (String × Var) → List (String × Var)
  | [] => [(name, v)]
  | kv :: rest => if kv.1 = name then (name, v) :: rest else kv :: setProp name v rest

/-- JUCE `ValueTree::setProperty(name, value, nullptr)`. -/
def setProperty (t : ValueTree) (name : String) (v : Var) : ValueTree :=
  node t.type (setProp name v t.properties) t.children

/-- JUCE `ValueTree::getProperty(name)`: a missing property reads as a void `var`. -/
def getProperty (t : ValueTree) (name : String) : Var :=
  (t.properties.lookup name).getD Var.void

/-- JUCE `ValueTree::getProperty(name, defaultReturnValue)`. -/
def getPropertyOr (t : ValueTree) (name : String) (defaultReturnValue : Var) : Var :=
  (t.properties.lookup name).getD defaultReturnValue

/-- JUCE `ValueTree::getChildWithName(name)`: the first child of that type, if
any (`none` stands for the invalid tree that fails the `if`). -/
def getChildWithName (t : ValueTree) (name : String) : Option ValueTree :=
  t.children.find? (fun c => c.type = name)

/-- JUCE `ValueTree::removeAllChildren(nullptr)`. -/
def removeAllChildren (t : ValueTree) : ValueTree := node t.type t.properties []

/-- The effect of `createChild(name)` followed by writes through the returned
handle: the finished child `c` is the new last child. -/
def createChild (t : ValueTree) (c : ValueTree) : ValueTree :=
  node t.type t.properties (t.children ++ [c])

/-- Update the first child of type `name` with `f`, or append `f` of a fresh
node of that type when there is none. -/
def updateOrAppend (name : String) (f : ValueTree → ValueTree) : List ValueTree → List ValueTree
  | [] => [f (fresh name)]
  | c :: cs => if c.type = name then f c :: cs else c :: updateOrAppend name f cs

/-- The effect of `getOrCreateChildWithName(name, nullptr)` followed by the
writes `f` through the returned handle: a `ValueTree` is a shared reference,
so the writes land in the child held by the parent. -/
def getOrCreateChildWithName (t : ValueTree) (name : String) (f : ValueTree → ValueTree) :
    ValueTree :=
  node t.type t.properties (updateOrAppend name f t.children)

end ValueTree

namespace Mixer

/-- The node written for one send in `Mixer::saveState`. -/
def saveSend (sendsNode : ValueTree) (send : Int × ℚ) : ValueTree :=
  sendsNode.createChild
    (((ValueTree.fresh "send").setProperty "bus" (.int send.1)).setProperty "level"
      (.double send.2))

/-- The body of the channel loop of `Mixer::saveState`. -/
def saveChannel (channelsNode : ValueTree) (channel : Channel) : ValueTree :=
  let channelNode := ValueTree.fresh "channel"
  let channelNode := channelNode.setProperty "volume" (.double channel.volume)
  let channelNode := channelNode.setProperty "pan" (.double channel.pan)
  let channelNode := channelNode.setProperty "mute" (.bool channel.mute)
  let channelNode := channelNode.setProperty "solo" (.bool channel.solo)
  let channelNode := channelNode.setProperty "bypass" (.bool channel.bypass)
  -- Save sends
  let channelNode := channelNode.getOrCreateChildWithName "sends"
    (fun sendsNode => channel.sends.foldl saveSend sendsNode)
  channelsNode.createChild channelNode

/-- The node written for one bus source in `Mixer::saveState`. -/
def saveSource (sourcesNode : ValueTree) (source : Int) : ValueTree :=
  sourcesNode.createChild ((ValueTree.fresh "source").setProperty "index" (.int source))

/-- The body of the bus loop of `Mixer::saveState`. -/
def saveBus (busesNode : ValueTree) (bus : Bus) : ValueTree :=
  let busNode := ValueTree.fresh "bus"
  let busNode := busNode.setProperty "type" (.int bus.type.val)
  let busNode := busNode.setProperty "name" (.string bus.name)
  let busNode := busNode.setProperty "output" (.int bus.outputBus)
  -- Save sources
  let busNode := busNode.getOrCreateChildWithName "sources"
    (fun sourcesNode => bus.sources.foldl saveSource sourcesNode)
  -- Save channel settings
  let busNode := busNode.getOrCreateChildWithName "channel" (fun channelNode =>
    (((channelNode.setProperty "volume" (.double bus.channel.volume)).setProperty "pan"
      (.double bus.channel.pan)).setProperty "mute" (.bool bus.channel.mute)).setProperty
      "bypass" (.bool bus.channel.bypass))
  busesNode.createChild busNode

/-- Function `Mixer::saveState`: the tree `state` after the call. -/
def saveState (m : Mixer) (state : ValueTree) : ValueTree :=
  -- Save channels
  let state := state.getOrCreateChildWithName "channels"
    (fun channelsNode => m.channels.foldl saveChannel channelsNode.removeAllChildren)
  -- Save buses
  let state := state.getOrCreateChildWithName "buses"
    (fun busesNode => m.buses.foldl saveBus busesNode.removeAllChildren)
  -- Save master channel
  state.getOrCreateChildWithName "master" (fun masterNode =>
    (((masterNode.setProperty "volume" (.double m.masterChannel.volume)).setProperty "pan"
      (.double m.masterChannel.pan)).setProperty "mute" (.bool m.masterChannel.mute)).setProperty
      "bypass" (.bool m.masterChannel.bypass))

/-- The body of the channel loop of `Mixer::loadState`. -/
def loadChannel (channelNode : ValueTree) : Channel :=
  let channel : Channel := {}
  { channel with
    volume := (channelNode.getPropertyOr "volume" (.double 1)).toFloat
    pan := (channelNode.getPropertyOr "pan" (.double 0)).toFloat
    mute := (channelNode.getPropertyOr "mute" (.bool false)).toBool
    solo := (channelNode.getPropertyOr "solo" (.bool false)).toBool
    bypass := (channelNode.getPropertyOr "bypass" (.bool false)).toBool
    sends :=
      match channelNode.getChildWithName "sends" with
      | some sendsNode =>
        channel.sends ++ sendsNode.children.map (fun sendNode =>
          ((sendNode.getProperty "bus").toInt, (sendNode.getProperty "level").toFloat))
      | none => channel.sends }

/-- The body of the bus loop of `Mixer::loadState`. -/
def loadBus (busNode : ValueTree) : Bus :=
  let bus : Bus := {}
  { bus with
    type := ⟨(busNode.getProperty "type").toInt⟩
    name := (busNode.getProperty "name").toText
    outputBus := (busNode.getProperty "output").toInt
    sources :=
      match busNode.getChildWithName "sources" with
      | some sourcesNode =>
        bus.sources ++ sourcesNode.children.map (fun sourceNode =>
          (sourceNode.getProperty "index").toInt)
      | none => bus.sources
    channel :=
      match busNode.getChildWithName "channel" with
      | some channelNode =>
        { bus.channel with
          volume := (channelNode.getPropertyOr "volume" (.double 1)).toFloat
          pan := (channelNode.getPropertyOr "pan" (.double 0)).toFloat
          mute := (channelNode.getPropertyOr "mute" (.bool false)).toBool
          bypass := (channelNode.getPropertyOr "bypass" (.bool false)).toBool }
      | none => bus.channel }

/-- Function `Mixer::loadState`. The closing `updateSoloStates` writes
`channelSoloBuffer[i]` for every loaded channel without resizing the vector,
so the call is undefined (`none`) when the vector is too short. -/
def loadState (m : Mixer) (state : ValueTree) : Option Mixer :=
  -- Load channels
  let m1 :=
    match state.getChildWithName "channels" with
    | some channelsNode => { m with channels := channelsNode.children.map loadChannel }
    | none => m
  -- Load buses
  let m2 :=
    match state.getChildWithName "buses" with
    | some busesNode => { m1 with buses := busesNode.children.map loadBus }
    | none => m1
  -- Load master channel
  let m3 :=
    match state.getChildWithName "master" with
    | some masterNode =>
      { m2 with
        masterChannel :=
          { m2.masterChannel with
            volume := (masterNode.getPropertyOr "volume" (.double 1)).toFloat
            pan := (masterNode.getPropertyOr "pan" (.double 0)).toFloat
            mute := (masterNode.getPropertyOr "mute" (.bool false)).toBool
            bypass := (masterNode.getPropertyOr "bypass" (.bool false)).toBool } }
    | none => m2
  (updateSoloStates (updateProcessingBuffers m3)).map sendChangeMessage

end Mixer

/-! ## MIDI sequences (JUCE library) -/

/-- Model of `juce::MidiMessageSequence::MidiEventHolder`: a heap object with
its identity `id`, the message, and the pointer `noteOffObject` to the holder
of the matching note-off (`none` for a null pointer). -/
structure MidiEventHolder where
  id : Nat
  message : MidiMessage
  noteOffObject : Option Nat := none
deriving DecidableEq, Repr

/-- Model of `juce::MidiMessageSequence`: the holders in list order; `nextId`
is the identity the next allocated holder gets. -/
structure MidiMessageSequence where
  list : List MidiEventHolder := []
  nextId : Nat := 0
deriving DecidableEq, Repr

namespace MidiMessageSequence

/-- JUCE `getNumEvents()`. -/
def getNumEvents (s : MidiMessageSequence) : Nat := s.list.length

/-- JUCE `clear()`. -/
def clear (s : MidiMessageSequence) : MidiMessageSequence := { s with list := [] }

/-- A write through a holder pointer: the message of the holder with identity
`id` becomes `f` of it. -/
def updateById (id : Nat) (f : MidiMessage → MidiMessage) (l : List MidiEventHolder) :
    List MidiEventHolder :=
  l.map (fun h => if h.id = id then { h with message := f h.message } else h)

/-- JUCE `addEvent(message)`: a new holder is inserted after the last event whose
time stamp is not later than the new one. -/
def addEvent (s : MidiMessageSequence) (m : MidiMessage) : MidiMessageSequence :=
  let k := (s.list.reverse.dropWhile (fun h => !decide (h.message.timeStamp ≤ m.timeStamp))).length
  { list := s.list.take k ++ [{ id := s.nextId, message := m }] ++ s.list.drop k
    nextId := s.nextId + 1 }

/-- The inner loop of JUCE `updateMatchedPairs()` for a note-on with the given
note and channel, over the events after it: the first later event with the same
note and channel decides. A note-off becomes the match; a note-on gets a new
note-off holder (identity `newId`, time stamp of that note-on) inserted before
it, which becomes the match. The result is the pointer, the events after the
note-on, and whether a holder was inserted. -/
def findNoteOff (note chan : Int) (newId : Nat) :
    List MidiEventHolder → Option Nat × List MidiEventHolder × Bool
  | [] => (none, [], false)
  | m :: rest =>
    if m.message.getNoteNumber = note ∧ m.message.getChannel = chan ∧
        m.message.isNoteOff = true then
      (some m.id, m :: rest, false)
    else if m.message.getNoteNumber = note ∧ m.message.getChannel = chan ∧
        m.message.isNoteOn = true then
      (some newId,
        { id := newId, message := (MidiMessage.noteOff chan note).setTimeStamp m.message.getTimeStamp }
          :: m :: rest, true)
    else
      ((findNoteOff note chan newId rest).1, m :: (findNoteOff note chan newId rest).2.1,
        (findNoteOff note chan newId rest).2.2)

/-- The outer loop of JUCE `updateMatchedPairs()` over the events still to visit;
the list can grow while it runs, so the recursion carries a step budget. -/
def updateMatchedPairsFrom : Nat → List MidiEventHolder → Nat → List MidiEventHolder × Nat
  | 0, todo, nextId => (todo, nextId)
  | _ + 1, [], nextId => ([], nextId)
  | fuel + 1, meh :: rest, nextId =>
    if meh.message.isNoteOn = true then
      let r := findNoteOff meh.message.getNoteNumber meh.message.getChannel nextId rest
      let out := updateMatchedPairsFrom fuel r.2.1 (if r.2.2 = true then nextId + 1 else nextId)
      ({ meh with noteOffObject := r.1 } :: out.1, out.2)
    else
      (meh :: (updateMatchedPairsFrom fuel rest nextId).1,
        (updateMatchedPairsFrom fuel rest nextId).2)

/-- JUCE `updateMatchedPairs()`. Every note-on inserts at most one holder, so
twice the length is a sufficient step budget. -/
def updateMatchedPairs (s : MidiMessageSequence) : MidiMessageSequence :=
  { list := (updateMatchedPairsFrom (2 * s.list.length) s.list s.nextId).1
    nextId := (updateMatchedPairsFrom (2 * s.list.length) s.list s.nextId).2 }

end MidiMessageSequence

namespace MidiBuffer

/-- JUCE `MidiBuffer::addEvents(otherBuffer, startSample, numSamples,
sampleDeltaToAdd)`: the events of the other buffer from `startSample` on (earlier
ones are skipped), up to `startSample + numSamples` unless `numSamples` is
negative, are added with the delta. -/
def addEvents (b : MidiBuffer) (otherBuffer : MidiBuffer) (startSample numSamples
    sampleDeltaToAdd : Int) : MidiBuffer :=
  ((otherBuffer.dropWhile (fun ev => decide (ev.samplePosition < startSample))).takeWhile
      (fun ev => decide (ev.samplePosition < startSample + numSamples ∨ numSamples < 0))).foldl
    (fun acc ev => insertEvent { ev with samplePosition := ev.samplePosition + sampleDeltaToAdd } acc)
    b

end MidiBuffer

/-! ## MIDI sequencer (`MIDISequencer.h`, `MIDISequencer.cpp`) -/

/-- Model of `juce::BigInteger` as far as the sequencer uses it: the set of
bits of a natural number. -/
structure BigInteger where
  value : Nat := 0
deriving DecidableEq, Repr

/-- JUCE `BigInteger::operator[](int bit)`: false for a negative index. -/
def BigInteger.getBit (b : BigInteger) (bit : Int) : Bool :=
  decide (0 ≤ bit) && b.value.testBit bit.toNat

/-- The struct `MIDISequencer::RecordingSettings`, with the defaults the
constructor leaves (all 16 channels and all 128 notes active). -/
structure RecordingSettings where
  quantizeInput : Bool := false
  quantizeGrid : ℚ := 1 / 4
  autoQuantize : Bool := false
  replaceMode : Bool := false
  overdubMode : Bool := false
  velocityMode : Int := 0
  velocityValue : ℚ := 100
  velocityScale : ℚ := 1
  filterChannels : Bool := false
  activeChannels : BigInteger := { value := 2 ^ 16 - 1 }
  filterNotes : Bool := false
  activeNotes : BigInteger := { value := 2 ^ 128 - 1 }
deriving DecidableEq, Repr

/-- The struct `MIDISequencer::PlaybackSettings`. -/
structure PlaybackSettings where
  midiThru : Bool := true
  sendClock : Bool := false
  sendMTC : Bool := false
  mtcFormat : Int := 0
  sendMMC : Bool := false
  sendProgramChanges : Bool := true
  sendControlChanges : Bool := true
  sendSysEx : Bool := true
deriving DecidableEq, Repr

/-- The enum class `Track::Type`. -/
inductive TrackType where
  | Audio
  | MIDI
  | Bus
  | Master
deriving DecidableEq, Repr

/-- A `Track*` as the sequencer sees it: the identity of the object and
`getType()`. -/
structure Track where
  addr : Nat
  type : TrackType
deriving DecidableEq, Repr

/-- A `Project*` as the sequencer reads it: the project, its `getSettings()` and
its `getTransportPosition()`. -/
structure ProjectView where
  project : Project
  settings : ProjectSettings := {}
  transportPosition : ℚ := 0
deriving DecidableEq, Repr

/-- The state of a `MIDISequencer` object. -/
structure MIDISequencer where
  currentProject : Option ProjectView := none
  recordSettings : RecordingSettings := {}
  playbackSettings : PlaybackSettings := {}
  recording : Bool := false
  recordingTrack : Option Track := none
  recordingSequence : MidiMessageSequence := {}
  recordingStartTime : ℚ := 0
  inputBuffer : MidiBuffer := []
  outputBuffer : MidiBuffer := []
  lastClockTime : ℚ := 0
  lastMTCTime : ℚ := 0
  mtcFrameCount : Int := 0
  changeMessages : Nat := 0
deriving DecidableEq, Repr

namespace MIDISequencer

/-- Function `MIDISequencer::quantizeTime`, in `double` arithmetic: the quotient
is rounded to a `double` before `std::round`, and the product after it. -/
def quantizeTime (s : MIDISequencer) (time : ℚ) : ℚ :=
  Double.mul (stdRound (Double.div time s.recordSettings.quantizeGrid) : ℚ)
    s.recordSettings.quantizeGrid

/-- Function `MIDISequencer::processVelocity`. -/
def processVelocity (s : MIDISequencer) (velocity : Int) : Int :=
  if s.recordSettings.velocityMode = 0 then velocity  -- As played
  else if s.recordSettings.velocityMode = 1 then truncToInt s.recordSettings.velocityValue
  else if s.recordSettings.velocityMode = 2 then
    truncToInt ((velocity : ℚ) * s.recordSettings.velocityScale)
  else velocity

/-- Function `MIDISequencer::shouldProcessMessage`. -/
def shouldProcessMessage (s : MIDISequencer) (message : MidiMessage) : Bool :=
  if message.isNoteOnOrOff = false ∧ message.isController = false ∧
      message.isProgramChange = false ∧ message.isPitchWheel = false then
    false
  else if s.recordSettings.filterChannels = true ∧
      s.recordSettings.activeChannels.getBit (message.getChannel - 1) = false then
    false
  else if s.recordSettings.filterNotes = true ∧ message.isNoteOnOrOff = true ∧
      s.recordSettings.activeNotes.getBit message.getNoteNumber = false then
    false
  else true

/-- The local `recordedMessage` of `MIDISequencer::processRecordedMessage` when it
is added to the sequence: the velocity of a note-on goes through
`processVelocity` and `setVelocity`, the time stamp through the input
quantisation. -/
def recordedMessage (s : MIDISequencer) (message : MidiMessage) (time : ℚ) : MidiMessage :=
  let recorded :=
    if message.isNoteOn = true then
      message.setVelocity (s.processVelocity message.getVelocity : Int)
    else message
  let messageTime := if s.recordSettings.quantizeInput = true then s.quantizeTime time else time
  recorded.setTimeStamp messageTime

/-- Function `MIDISequencer::processRecordedMessage`. -/
def processRecordedMessage (s : MIDISequencer) (message : MidiMessage) (time : ℚ) :
    MIDISequencer :=
  if message.isNoteOnOrOff = false ∧ message.isController = false ∧
      message.isProgramChange = false ∧ message.isPitchWheel = false then s
  else
    { s with
      recordingSequence :=
        (s.recordingSequence.addEvent (s.recordedMessage message time)).updateMatchedPairs }

/-- Function `MIDISequencer::handleIncomingMidiMessage`. -/
def handleIncomingMidiMessage (s : MIDISequencer) (message : MidiMessage) : MIDISequencer :=
  if s.shouldProcessMessage message = false then s
  else
    -- Handle MIDI thru
    let s1 :=
      if s.playbackSettings.midiThru = true then
        { s with inputBuffer := MidiBuffer.addEvent s.inputBuffer message 0 }
      else s
    -- Handle recording
    if s1.recording = true ∧ s1.recordingTrack.isSome = true then
      s1.processRecordedMessage message (message.getTimeStamp - s1.recordingStartTime)
    else s1

/-- The loop of `MIDISequencer::quantizeEvents` from index `i` with `k` rounds to
go, the time stamps computed in `double` arithmetic. A `noteOffObject` that
points to no holder of the sequence is a dangling pointer (`none`). -/
def quantizeEventsFrom (grid : ℚ) : Nat → Nat → List MidiEventHolder →
    Option (List MidiEventHolder)
  | 0, _, l => some l
  | k + 1, i, l =>
    match l[i]? with
    | none => some l
    | some event =>
      if event.message.isNoteOn = true then
        let quantizedTime : ℚ :=
          Double.mul (stdRound (Double.div event.message.getTimeStamp grid) : ℚ) grid
        let timeDiff : ℚ := Double.sub quantizedTime event.message.getTimeStamp
        let l1 :=
          MidiMessageSequence.updateById event.id (fun m => m.setTimeStamp quantizedTime) l
        -- Move corresponding note-off
        match event.noteOffObject with
        | none => quantizeEventsFrom grid k (i + 1) l1
        | some p =>
          if l1.any (fun h => decide (h.id = p)) = true then
            quantizeEventsFrom grid k (i + 1)
              (MidiMessageSequence.updateById p
                (fun m => m.setTimeStamp (Double.add m.getTimeStamp timeDiff)) l1)
          else none
      else quantizeEventsFrom grid k (i + 1) l

/-- Function `MIDISequencer::quantizeEvents`. -/
def quantizeEvents (sequence : MidiMessageSequence) (grid : ℚ) : Option MidiMessageSequence :=
  (quantizeEventsFrom grid sequence.getNumEvents 0 sequence.list).map
    (fun l => MidiMessageSequence.updateMatchedPairs { sequence with list := l })

/-- The loop of `MIDISequencer::sendMidiClock`, with a step budget; `none` when
the budget does not suffice. The offset and the next clock time are computed
in `double` arithmetic: `lastClockTime += clockInterval` rounds each sum. -/
def sendMidiClockLoop (clockInterval position : ℚ) : Nat → MIDISequencer → Option MIDISequencer
  | 0, s => if s.lastClockTime ≤ position then none else some s
  | fuel + 1, s =>
    if s.lastClockTime ≤ position then
      sendMidiClockLoop clockInterval position fuel
        { s with
          outputBuffer :=
            MidiBuffer.addEvent s.outputBuffer MidiMessage.midiClock
              (truncToInt (Double.mul (Double.sub s.lastClockTime position) 44100))
          lastClockTime := Double.add s.lastClockTime clockInterval }
    else some s

/-- Function `MIDISequencer::sendMidiClock`. The project pointer is dereferenced
without a check (`none` when it is null). -/
def sendMidiClock (fuel : Nat) (s : MIDISequencer) (position : ℚ) : Option MIDISequencer :=
  match s.currentProject with
  | none => none
  | some p =>
    sendMidiClockLoop (Double.div 60 (Double.mul p.settings.tempo 24)) position fuel s

/-- Function `MIDISequencer::getMTCFrameRate`. -/
def getMTCFrameRate (format : Int) : Int :=
  if format = 0 then 24
  else if format = 1 then 25
  else if format = 2 then 30
  else if format = 3 then 30
  else 25

/-- The loop of `MIDISequencer::sendMidiTimeCode`, with a step budget. No
message is generated in the source (the body ends in a TODO). -/
def sendMidiTimeCodeLoop (frameRate : Int) (position : ℚ) : Nat → MIDISequencer →
    Option MIDISequencer
  | 0, s => if s.lastMTCTime ≤ position then none else some s
  | fuel + 1, s =>
    if s.lastMTCTime ≤ position then
      let totalFrames := truncToInt (s.lastMTCTime * frameRate)
      sendMidiTimeCodeLoop frameRate position fuel
        { s with
          mtcFrameCount := if totalFrames ≠ s.mtcFrameCount then totalFrames else s.mtcFrameCount
          lastMTCTime := s.lastMTCTime + 1 / (frameRate : ℚ) }
    else some s

/-- Function `MIDISequencer::sendMidiTimeCode`. -/
def sendMidiTimeCode (fuel : Nat) (s : MIDISequencer) (position : ℚ) : Option MIDISequencer :=
  sendMidiTimeCodeLoop (getMTCFrameRate s.playbackSettings.mtcFormat) position fuel s

/-- Function `MIDISequencer::processOutputBuffer`: the sequencer and the caller's
buffer after the call. -/
def processOutputBuffer (fuel : Nat) (s : MIDISequencer) (buffer : MidiBuffer) (position : ℚ) :
    Option (MIDISequencer × MidiBuffer) :=
  if s.currentProject.isNone = true then some (s, buffer)
  else
    -- Send MIDI clock
    (if s.playbackSettings.sendClock = true then sendMidiClock fuel s position else some s).bind
      (fun s1 =>
        -- Send MTC
        (if s1.playbackSettings.sendMTC = true then sendMidiTimeCode fuel s1 position
          else some s1).bind
          (fun s2 =>
            some ({ s2 with outputBuffer := [] },
              MidiBuffer.addEvents buffer s2.outputBuffer 0 (-1) 0)))

/-- Function `MIDISequencer::finalizeRecording`. -/
def finalizeRecording (s : MIDISequencer) : Option MIDISequencer :=
  if s.recordingTrack.isNone = true ∨ s.recordingSequence.getNumEvents = 0 then some s
  else if s.recordSettings.autoQuantize = true then
    (quantizeEvents s.recordingSequence s.recordSettings.quantizeGrid).map
      (fun q => { s with recordingSequence := q })
  else some s

/-- Function `MIDISequencer::clearRecordingState`. -/
def clearRecordingState (s : MIDISequencer) : MIDISequencer :=
  { s with
    recording := false
    recordingTrack := none
    recordingSequence := s.recordingSequence.clear
    recordingStartTime := 0 }

/-- Function `MIDISequencer::stopRecording`. -/
def stopRecording (s : MIDISequencer) : Option MIDISequencer :=
  if s.recording = false then some s
  else s.finalizeRecording.map clearRecordingState

/-- Function `MIDISequencer::startRecording`. -/
def startRecording (s : MIDISequencer) (track : Option Track) : Option MIDISequencer :=
  match track with
  | none => some s
  | some t =>
    if t.type ≠ TrackType.MIDI then some s
    else
      s.stopRecording.map (fun s1 =>
        { s1 with
          recordingTrack := some t
          recordingStartTime :=
            match s1.currentProject with
            | some p => p.transportPosition
            | none => 0
          recordingSequence := s1.recordingSequence.clear
          recording := true })

/-- The call `sendChangeMessage()` of `juce::ChangeBroadcaster`. -/
def sendChangeMessage (s : MIDISequencer) : MIDISequencer :=
  { s with changeMessages := s.changeMessages + 1 }

/-- Function `MIDISequencer::setProject`. -/
def setProject (s : MIDISequencer) (project : Option ProjectView) : Option MIDISequencer :=
  (if s.recording = true then s.stopRecording else some s).map
    (fun s1 => sendChangeMessage { s1 with currentProject := project })

/-- Function `MIDISequencer::setRecordingSettings`. -/
def setRecordingSettings (s : MIDISequencer) (settings : RecordingSettings) : MIDISequencer :=
  sendChangeMessage { s with recordSettings := settings }

/-- Function `MIDISequencer::setPlaybackSettings`. -/
def setPlaybackSettings (s : MIDISequencer) (settings : PlaybackSettings) : MIDISequencer :=
  sendChangeMessage { s with playbackSettings := settings }

/-- Function `MIDISequencer::processInputBuffer`: the sequencer and the caller's
buffer after the call. -/
def processInputBuffer (s : MIDISequencer) (buffer : MidiBuffer) : MIDISequencer × MidiBuffer :=
  if s.inputBuffer ≠ [] then
    ({ s with inputBuffer := [] }, MidiBuffer.addEvents buffer s.inputBuffer 0 (-1) 0)
  else (s, buffer)

end MIDISequencer

/-- A call on the sequencer through its public interface. The single-field
setters (`setQuantizeGrid`, `setMidiThru`, ...) either do nothing or act as
`setRecordingSettings` or `setPlaybackSettings` with one field changed, and
`loadState` as the two in a row, so these two stand for them.
`projectAdvanced` is the bound project changing its settings or its transport
position between two calls. -/
inductive SequencerCall where
  | setProject (project : Option ProjectView)
  | setRecordingSettings (settings : RecordingSettings)
  | setPlaybackSettings (settings : PlaybackSettings)
  | startRecording (track : Option Track)
  | stopRecording
  | handleIncomingMidiMessage (message : MidiMessage)
  | processInputBuffer (buffer : MidiBuffer)
  | processOutputBuffer (fuel : Nat) (buffer : MidiBuffer) (position : ℚ)
  | projectAdvanced (settings : ProjectSettings) (transportPosition : ℚ)

namespace MIDISequencer

/-- The sequencer after one call (`none` when the call is undefined or its step
budget does not suffice). -/
def call (s : MIDISequencer) : SequencerCall → Option MIDISequencer
  | .setProject project => s.setProject project
  | .setRecordingSettings settings => some (s.setRecordingSettings settings)
  | .setPlaybackSettings settings => some (s.setPlaybackSettings settings)
  | .startRecording track => s.startRecording track
  | .stopRecording => s.stopRecording
  | .handleIncomingMidiMessage message => some (s.handleIncomingMidiMessage message)
  | .processInputBuffer buffer => some (s.processInputBuffer buffer).1
  | .processOutputBuffer fuel buffer position =>
    (s.processOutputBuffer fuel buffer position).map (fun r => r.1)
  | .projectAdvanced settings transportPosition =>
    some { s with
      currentProject := s.currentProject.map (fun p =>
        { p with settings := settings, transportPosition := transportPosition }) }

/-- The sequencer states reached from the constructed sequencer by calls. -/
inductive Reachable : MIDISequencer → Prop where
  | init : Reachable {}
  | step (s s1 : MIDISequencer) (c : SequencerCall) :
    Reachable s → s.call c = some s1 → Reachable s1

/-- The sequencer after a sequence of calls, first to last. -/
def calls (s : MIDISequencer) : List SequencerCall → Option MIDISequencer
  | [] => some s
  | c :: cs => (s.call c).bind (fun s1 => s1.calls cs)

end MIDISequencer

/-! ## The device callback (`AudioEngine.cpp`) -/

/-- JUCE `AudioBuffer::copyFrom(destChannel, destStartSample, source,
numSamples)` from a raw array: nothing is touched when `numSamples` is not
positive; otherwise the region is overwritten and the flag dropped. A region
outside the buffer or a source that is too short is an access out of bounds
(`none`). -/
def AudioBuffer.copyFromArray (b : AudioBuffer) (destChannel destStartSample : Int)
    (source : List ℚ) (numSamples : Int) : Option AudioBuffer :=
  if numSamples ≤ 0 then some b
  else if 0 ≤ destChannel ∧ destChannel < b.numChannels ∧ 0 ≤ destStartSample ∧
      destStartSample + numSamples ≤ b.size ∧ numSamples ≤ source.length then
    some { b with
      isClear := false
      data := fun c n =>
        if c = destChannel.toNat ∧ destStartSample.toNat ≤ n ∧
            n < (destStartSample + numSamples).toNat then
          source.getD (n - destStartSample.toNat) 0
        else b.data c n }
  else none

/-- JUCE `FloatVectorOperations::clear(dest, num)` on an array of `dest.length`
floats: the first `num` values become 0. An array shorter than `num` is written
past its end (`none`). -/
def floatVectorClear (dest : List ℚ) (num : Int) : Option (List ℚ) :=
  if num ≤ 0 then some dest
  else if dest.length < num.toNat then none
  else some (List.replicate num.toNat 0 ++ dest.drop num.toNat)

/-- JUCE `FloatVectorOperations::copy(dest, src, num)` where `src` is a channel
of `srcSize` samples: the first `num` values of `dest` become those of `src`.
Either array being shorter than `num` is an access out of bounds (`none`). -/
def floatVectorCopy (dest : List ℚ) (src : Nat → ℚ) (srcSize : Nat) (num : Int) :
    Option (List ℚ) :=
  if num ≤ 0 then some dest
  else if dest.length < num.toNat ∨ srcSize < num.toNat then none
  else some ((List.range num.toNat).map src ++ dest.drop num.toNat)

namespace AudioEngine

/-- The first loop of `AudioEngine::processAudioBlock`, from `channel` on with
`k` rounds to go: `FloatVectorOperations::clear(outputChannelData[channel],
numSamples)`. A channel index past the pointer array is an access out of bounds
(`none`). -/
def clearOutputFrom (numSamples : Int) : Nat → Nat → List (List ℚ) → Option (List (List ℚ))
  | 0, _, outputChannelData => some outputChannelData
  | k + 1, channel, outputChannelData =>
    match outputChannelData[channel]? with
    | none => none
    | some dest =>
      (floatVectorClear dest numSamples).bind (fun cleared =>
        clearOutputFrom numSamples k (channel + 1) (outputChannelData.set channel cleared))

/-- The loop "Copy input" of `AudioEngine::processAudioBlock`:
`inputBuffer.copyFrom(channel, 0, inputChannelData[channel], numSamples)`. -/
def copyInputFrom (inputChannelData : List (List ℚ)) (numSamples : Int) :
    Nat → Nat → AudioBuffer → Option AudioBuffer
  | 0, _, inputBuffer => some inputBuffer
  | k + 1, channel, inputBuffer =>
    match inputChannelData[channel]? with
    | none => none
    | some source =>
      (inputBuffer.copyFromArray (channel : Int) 0 source numSamples).bind (fun b =>
        copyInputFrom inputChannelData numSamples k (channel + 1) b)

/-- The loop "Copy to output" of `AudioEngine::processAudioBlock`:
`FloatVectorOperations::copy(outputChannelData[channel],
outputBuffer.getReadPointer(channel), numSamples)`. A channel the output buffer
does not have is an access out of bounds (`none`). -/
def copyOutputFrom (outputBuffer : AudioBuffer) (numSamples : Int) :
    Nat → Nat → List (List ℚ) → Option (List (List ℚ))
  | 0, _, outputChannelData => some outputChannelData
  | k + 1, channel, outputChannelData =>
    match outputChannelData[channel]? with
    | none => none
    | some dest =>
      if channel < outputBuffer.numChannels then
        (floatVectorCopy dest (outputBuffer.data channel) outputBuffer.size numSamples).bind
          (fun copied =>
            copyOutputFrom outputBuffer numSamples k (channel + 1)
              (outputChannelData.set channel copied))
      else none

/-- Function `AudioEngine::processAudioBlock`: the engine and the output channel
arrays after the call. -/
def processAudioBlock (e : AudioEngine) (inputChannelData : List (List ℚ))
    (numInputChannels : Int) (outputChannelData : List (List ℚ))
    (numOutputChannels numSamples : Int) : Option (AudioEngine × List (List ℚ)) :=
  -- Clear output
  (clearOutputFrom numSamples numOutputChannels.toNat 0 outputChannelData).bind (fun cleared =>
    if e.transport.isPlaying = false ∨ e.currentProject.isNone = true then some (e, cleared)
    else
      -- Copy input
      (copyInputFrom inputChannelData numSamples numInputChannels.toNat 0 e.inputBuffer).bind
        (fun inputBuffer =>
          -- Copy to output
          (copyOutputFrom e.outputBuffer numSamples numOutputChannels.toNat 0 cleared).map
            (fun out => ({ e with inputBuffer := inputBuffer }, out))))

/-- Function `AudioEngine::processMidiBlock`. -/
def processMidiBlock (e : AudioEngine) (numSamples : Int) : AudioEngine :=
  if e.transport.isPlaying = false then e
  else
    -- Add incoming MIDI
    let e1 :=
      if e.incomingMidi ≠ [] then
        { e with
          midiBuffer := MidiBuffer.addEvents e.midiBuffer e.incomingMidi 0 numSamples 0
          incomingMidi := [] }
      else e
    { e1 with midiBuffer := [] }

/-- Function `AudioEngine::audioDeviceIOCallback`: the engine and the output
channel arrays after the callback. The time the block took, which the source
reads from the clock, is the input `processTimeMs`. -/
def audioDeviceIOCallback (e : AudioEngine) (inputChannelData : List (List ℚ))
    (numInputChannels : Int) (outputChannelData : List (List ℚ))
    (numOutputChannels numSamples : Int) (processTimeMs : ℚ) :
    Option (AudioEngine × List (List ℚ)) :=
  (e.processAudioBlock inputChannelData numInputChannels outputChannelData numOutputChannels
    numSamples).map (fun r =>
      (((r.1.processMidiBlock numSamples).updateTransportPosition numSamples).updateCPUInfo
        processTimeMs, r.2))

end AudioEngine

/-! ## Predicates used by the proofs -/

namespace Mixer

/-- The solo bookkeeping agrees with the solo flags: `soloActive` is the result
of the search loop, and `channelSoloBuffer` has one entry per channel holding
`!soloActive || solo`. -/
def Synced (m : Mixer) : Prop :=
  m.channelSoloBuffer.length = m.channels.length ∧
  m.soloActive = findSolo m.channels ∧
  ∀ (j : Nat) (c : Channel), m.channels[j]? = some c →
    m.channelSoloBuffer[j]? = some (!findSolo m.channels || c.solo)

end Mixer

/-- The call is a `setChannelSolo` whose index is valid for `n` channels. -/
def SoloMuteCall.IsValidSolo (n : Nat) : SoloMuteCall → Prop
  | .solo i _ => 0 ≤ i ∧ i < n
  | .mute _ _ => False

/-- What `saveState` keeps of a channel strip: everything except the meters and
the plugin chain. -/
def Channel.persisted (c : Channel) : Channel :=
  { c with peakLevel := 0, rmsLevel := 0, plugins := [] }

/-- What `saveState` keeps of a bus: type, name, output, sources and the
volume, pan, mute and bypass of its strip. -/
def Bus.persisted (b : Bus) : Bus :=
  { b with
    channel :=
      { volume := b.channel.volume, pan := b.channel.pan, mute := b.channel.mute,
        bypass := b.channel.bypass } }

/-- The round-trip example: three channels, one aux bus, one send and master
volume 0.8. -/
def exampleMixer : Mixer :=
  { channels := [{ volume := 1 / 2, sends := [(0, 1 / 4)] }, { pan := -1 }, { mute := true }]
    buses := [{ type := BusType.Aux, name := "Reverb", sources := [1] }]
    masterChannel := { volume := 4 / 5 }
    channelSoloBuffer := [true, true, true] }

namespace MidiMessageSequence

/-- The holders of `l`, each with the time stamp that `T` gives its identity. -/
def retime (T : Nat → ℚ) (l : List MidiEventHolder) : List MidiEventHolder :=
  l.map (fun h => { h with message := h.message.setTimeStamp (T h.id) })

/-- The time stamp of the holder with identity `id` (0 when there is none). -/
def timeOf (l : List MidiEventHolder) (id : Nat) : ℚ :=
  match l.find? (fun h => decide (h.id = id)) with
  | some h => h.message.getTimeStamp
  | none => 0

/-- The pairing invariant of a sequence whose pointers were set by
`updateMatchedPairs()`: holders are distinct objects allocated before `nextId`,
the `noteOffObject` of a note-on points to a holder of the sequence that is not
a note-on, and no two note-ons point to the same holder. -/
def WellPaired (s : MidiMessageSequence) : Prop :=
  (s.list.map (fun h => h.id)).Nodup ∧
  (∀ h ∈ s.list, h.id < s.nextId) ∧
  (∀ h ∈ s.list, h.message.isNoteOn = true → ∀ p ∈ h.noteOffObject,
    ∃ o ∈ s.list, o.id = p ∧ o.message.isNoteOn = false) ∧
  (∀ h1 ∈ s.list, ∀ h2 ∈ s.list, h1.message.isNoteOn = true → h2.message.isNoteOn = true →
    ∀ p ∈ h1.noteOffObject, p ∈ h2.noteOffObject → h1.id = h2.id)

/-- The holder with identity `p` is the first event of `rest` that closes a note
`note` on channel `chan`: it is not a note-on, it has that note and channel, and
no note-on before it has them. -/
def FirstMatch (note chan : Int) (p : Nat) (rest : List MidiEventHolder) : Prop :=
  ∃ mid o post, rest = mid ++ o :: post ∧ o.id = p ∧ o.message.isNoteOn = false ∧
    o.message.getNoteNumber = note ∧ o.message.getChannel = chan ∧
    ∀ y ∈ mid, y.message.isNoteOn = true →
      ¬ (y.message.getNoteNumber = note ∧ y.message.getChannel = chan)

/-- Every pointer of a note-on leads to the first event after it that closes its
note: the state in which `updateMatchedPairs()` leaves the list. -/
def PairedList : List MidiEventHolder → Prop
  | [] => True
  | h :: rest =>
    (h.message.isNoteOn = true → ∀ p ∈ h.noteOffObject,
      FirstMatch h.message.getNoteNumber h.message.getChannel p rest) ∧
    PairedList rest

/-- The note-ons of the list carry a MIDI note number, that is a data byte
below 128. -/
def ValidNotes (l : List MidiEventHolder) : Prop :=
  ∀ h ∈ l, h.message.isNoteOn = true → h.message.byte 1 < 128

instance (s : MidiMessageSequence) : Decidable s.WellPaired := by
  unfold WellPaired
  infer_instance

end MidiMessageSequence

/-- The time `round(t / grid) * grid` as `quantizeEvents` and `quantizeTime`
compute it in `double` arithmetic. -/
def MIDISequencer.gridTime (grid t : ℚ) : ℚ :=
  Double.mul (stdRound (Double.div t grid) : ℚ) grid

/-- One round of the loop of `MIDISequencer::quantizeEvents`, seen on the time
stamps by holder identity: a note-on `h` moves to its grid time, and the holder
its `noteOffObject` points to has the difference added. -/
def MIDISequencer.quantizeStep (grid : ℚ) (T : Nat → ℚ) (h : MidiEventHolder) : Nat → ℚ :=
  if h.message.isNoteOn = true then
    match h.noteOffObject with
    | none => Function.update T h.id (MIDISequencer.gridTime grid (T h.id))
    | some p =>
      Function.update (Function.update T h.id (MIDISequencer.gridTime grid (T h.id))) p
        (Double.add (Function.update T h.id (MIDISequencer.gridTime grid (T h.id)) p)
          (Double.sub (MIDISequencer.gridTime grid (T h.id)) (T h.id)))
  else T

/-- A sequence recorded the way `processRecordedMessage` does it, each message
added with `addEvent` followed by `updateMatchedPairs()`: a note-on for note 60
at time 3, its note-off at time 9, and a controller change at time 5. -/
def exampleRecordedSequence : MidiMessageSequence :=
  (((((({} : MidiMessageSequence).addEvent
    ((MidiMessage.noteOn 1 60 100).setTimeStamp 3)).updateMatchedPairs).addEvent
    ((MidiMessage.noteOff 1 60).setTimeStamp 9)).updateMatchedPairs).addEvent
    { data := [0xb0, 7, 100], timeStamp := 5 }).updateMatchedPairs

/-- A sequence with one note: the note-on at the `double` nearest 0.13 and its
matched note-off at the `double` nearest 0.23. -/
def exampleShortNoteSequence : MidiMessageSequence :=
  { list :=
      [{ id := 0
         message :=
          { data := [0x90, 60, 100], timeStamp := 1170935903116329 / 9007199254740992 }
         noteOffObject := some 1 },
        { id := 1
          message :=
            { data := [0x80, 60, 0], timeStamp := 8286623314361713 / 36028797018963968 } }]
    nextId := 2 }

/-- A sequencer attached to a project at the default tempo of 120 bpm, with MIDI
clock output enabled and no clock pulse sent yet. -/
def exampleClockSequencer : MIDISequencer :=
  { currentProject := some { project := { addr := 1, numTracks := 0 } }
    playbackSettings := { sendClock := true } }

/-- Every channel has a volume that is not negative and a pan between -1 and 1. -/
def Mixer.VolumePanInRange (m : Mixer) : Prop :=
  ∀ c ∈ m.channels, 0 ≤ c.volume ∧ -1 ≤ c.pan ∧ c.pan ≤ 1

/-- A mixer bound to a project with one track, after two `addBus` calls. -/
def exampleBusMixer : Mixer :=
  (((Mixer.init.setProject (some { addr := 1, numTracks := 1 })).addBus BusType.Aux "A").1.addBus
    BusType.Aux "B").1

/-- A persisted tree with one channel node and one bus node that carry no
properties and no children, and no master section. -/
def exampleSparseTree : ValueTree :=
  .node "mixer" [] [.node "channels" [] [.node "channel" [] []], .node "buses" [] [.node "bus" [] []]]

/-- Every `noteOffObject` of a note-on leads to a holder of the list. -/
def MidiMessageSequence.Resolved (l : List MidiEventHolder) : Prop :=
  ∀ h ∈ l, h.message.isNoteOn = true → ∀ p ∈ h.noteOffObject, ∃ o ∈ l, o.id = p

/-- The bookkeeping of the recorder: an idle sequencer has no recording track,
no pending events and start time 0, and the pending sequence consists of
distinct holders, allocated before `nextId`, whose pointers lead into it. -/
def MIDISequencer.RecorderSound (s : MIDISequencer) : Prop :=
  (s.recording = false →
    s.recordingTrack = none ∧ s.recordingSequence.list = [] ∧ s.recordingStartTime = 0) ∧
  (s.recordingSequence.list.map (fun h => h.id)).Nodup ∧
  (∀ h ∈ s.recordingSequence.list, h.id < s.recordingSequence.nextId) ∧
  MidiMessageSequence.Resolved s.recordingSequence.list

/-- The second sequencer has the recording fields of the first. -/
def MIDISequencer.SameRecorder (s s1 : MIDISequencer) : Prop :=
  s1.recording = s.recording ∧ s1.recordingTrack = s.recordingTrack ∧
  s1.recordingSequence = s.recordingSequence ∧ s1.recordingStartTime = s.recordingStartTime

/-- A recording session: a project at transport position 5 is bound,
auto-quantize is switched on, a recording starts on a MIDI track, and a
controller change and a note-off arrive. -/
def exampleRecordingCalls : List SequencerCall :=
  [.setProject (some { project := { addr := 1, numTracks := 1 }, transportPosition := 5 }),
    .setRecordingSettings { autoQuantize := true, quantizeGrid := 4 },
    .startRecording (some { addr := 7, type := TrackType.MIDI }),
    .handleIncomingMidiMessage { data := [0xb0, 7, 100], timeStamp := 8 },
    .handleIncomingMidiMessage ((MidiMessage.noteOff 1 60).setTimeStamp 14)]

/-- The sequencer after `exampleRecordingCalls`: recording on track 7 since
position 5, with the two events pending. -/
def exampleRecordingSequencer : MIDISequencer :=
  { currentProject := some { project := { addr := 1, numTracks := 1 }, transportPosition := 5 }
    recordSettings := { autoQuantize := true, quantizeGrid := 4 }
    recording := true
    recordingTrack := some { addr := 7, type := TrackType.MIDI }
    recordingSequence :=
      { list := [{ id := 0, message := { data := [0xb0, 7, 100], timeStamp := 3 } },
          { id := 1, message := { data := [0x80, 60, 0], timeStamp := 9 } }]
        nextId := 2 }
    recordingStartTime := 5
    inputBuffer := [{ samplePosition := 0, data := [0xb0, 7, 100] },
      { samplePosition := 0, data := [0x80, 60, 0] }]
    changeMessages := 2 }

/-- A device that runs at the default sample rate and buffer size of the engine. -/
def exampleDevice : AudioDevice := { sampleRate := 44100, bufferSize := 512 }

/-- The transport never records while it is stopped. -/
def AudioEngine.RecordingImpliesPlaying (e : AudioEngine) : Prop :=
  e.transport.isRecording = true → e.transport.isPlaying = true

instance (n : Nat) (c : SoloMuteCall) : Decidable (c.IsValidSolo n) := by
  cases c <;> unfold SoloMuteCall.IsValidSolo <;> infer_instance

/-! ## Theorems: solo and mute -/

theorem vectorResize_length {α : Type} (xs : List α) (n : Nat) (d : α) :
    (vectorResize xs n d).length = n := by
  simp only [vectorResize, List.length_append, List.length_take, List.length_replicate]
  omega

namespace Mixer

theorem findSolo_eq_any (cs : List Channel) : findSolo cs = cs.any (fun c => c.solo) := by
  induction cs with
  | nil => rfl
  | cons c cs ih =>
    simp only [findSolo, List.any_cons, ih]
    cases c.solo <;> simp

theorem findSolo_modify_mute (v : Bool) (cs : List Channel) (i : Nat) :
    findSolo (cs.modify (fun c => { c with mute := v }) i) = findSolo cs := by
  induction cs generalizing i with
  | nil => cases i <;> rfl
  | cons c cs ih =>
    cases i with
    | zero => simp [List.modify, findSolo]
    | succ k =>
      rw [List.modify_succ_cons]
      simp only [findSolo, ih k]

theorem writeSoloBuffer_spec (sa : Bool) (cs : List Channel) :
    ∀ (i : Nat) (buf : List Bool), i + cs.length ≤ buf.length →
      ∃ r, writeSoloBuffer sa cs i buf = some r ∧ r.length = buf.length ∧
        ∀ j, r[j]? =
          if i ≤ j ∧ j < i + cs.length then (cs[j - i]?).map (fun c => !sa || c.solo)
          else buf[j]? := by
  induction cs with
  | nil =>
    intro i buf _
    refine ⟨buf, rfl, rfl, ?_⟩
    intro j
    simp only [List.length_nil, Nat.add_zero]
    rw [if_neg (by omega)]
  | cons c cs ih =>
    intro i buf h
    simp only [List.length_cons] at h
    have hi : i < buf.length := by omega
    obtain ⟨r, hr, hlen, hget⟩ := ih (i + 1) (buf.set i (!sa || c.solo))
      (by simp only [List.length_set]; omega)
    refine ⟨r, ?_, ?_, ?_⟩
    · simp only [writeSoloBuffer, if_pos hi, hr]
    · simpa using hlen
    · intro j
      rw [hget j]
      simp only [List.length_cons]
      by_cases h1 : i + 1 ≤ j ∧ j < i + 1 + cs.length
      · rw [if_pos h1, if_pos (by omega)]
        have : j - i = (j - (i + 1)) + 1 := by omega
        rw [this, List.getElem?_cons_succ]
      · rw [if_neg h1]
        by_cases h2 : j = i
        · subst h2
          rw [if_pos (by omega)]
          simp [List.getElem?_set, hi]
        · rw [if_neg (by omega)]
          rw [List.getElem?_set]
          rw [if_neg (by omega)]

theorem updateSoloStates_synced (m : Mixer)
    (h : m.channelSoloBuffer.length = m.channels.length) :
    ∃ m1, m.updateSoloStates = some m1 ∧ m1.channels = m.channels ∧ m1.Synced := by
  obtain ⟨r, hr, hlen, hget⟩ :=
    writeSoloBuffer_spec (findSolo m.channels) m.channels 0 m.channelSoloBuffer (by omega)
  refine ⟨{ m with soloActive := findSolo m.channels, channelSoloBuffer := r }, ?_, rfl, ?_⟩
  · simp only [updateSoloStates, hr]
  · refine ⟨by simpa [h] using hlen, rfl, ?_⟩
    intro j c hc
    have hj : j < m.channels.length := by
      rcases Nat.lt_or_ge j m.channels.length with h1 | h1
      · exact h1
      · rw [List.getElem?_eq_none h1] at hc
        cases hc
    show r[j]? = _
    rw [hget j, if_pos (by omega)]
    simp only [Nat.sub_zero]
    rw [hc]
    rfl

theorem setChannelMute_synced (m : Mixer) (i : Int) (v : Bool) (h : m.Synced) :
    (m.setChannelMute i v).Synced ∧
      (m.setChannelMute i v).channels.length = m.channels.length := by
  unfold setChannelMute
  split
  · obtain ⟨h1, h2, h3⟩ := h
    refine ⟨⟨?_, ?_, ?_⟩, ?_⟩
    · simpa [sendChangeMessage] using h1
    · simpa [sendChangeMessage, findSolo_modify_mute] using h2
    · intro j c hc
      simp only [sendChangeMessage, findSolo_modify_mute] at hc ⊢
      rw [List.getElem?_modify] at hc
      cases hj : m.channels[j]? with
      | none => rw [hj] at hc; simp at hc
      | some c0 =>
        rw [hj] at hc
        have h4 := h3 j c0 hj
        rw [h4]
        simp only [Option.map_eq_map, Option.map_some', Option.some.injEq] at hc
        subst hc
        split <;> rfl
    · simp [sendChangeMessage]
  · exact ⟨h, rfl⟩

theorem setChannelMute_length (m : Mixer) (i : Int) (v : Bool) :
    (m.setChannelMute i v).channels.length = m.channels.length ∧
      (m.setChannelMute i v).channelSoloBuffer = m.channelSoloBuffer := by
  unfold setChannelMute
  split
  · simp [sendChangeMessage]
  · exact ⟨rfl, rfl⟩

theorem setChannelSolo_valid (m : Mixer) (i : Int) (v : Bool)
    (h : m.channelSoloBuffer.length = m.channels.length)
    (hi : 0 ≤ i ∧ i < m.channels.length) :
    ∃ m1, m.setChannelSolo i v = some m1 ∧ m1.Synced ∧
      m1.channels.length = m.channels.length := by
  obtain ⟨m1, h1, h2, h3⟩ := updateSoloStates_synced
    { m with channels := m.channels.modify (fun c => { c with solo := v }) i.toNat }
    (by simpa using h)
  refine ⟨sendChangeMessage m1, ?_, ?_, ?_⟩
  · simp only [setChannelSolo, if_pos hi, h1, Option.map_some']
  · exact h3
  · simp [sendChangeMessage, h2]

theorem applyCall_step (m : Mixer) (c : SoloMuteCall)
    (h : m.channelSoloBuffer.length = m.channels.length) :
    ∃ m1, m.applyCall c = some m1 ∧
      m1.channelSoloBuffer.length = m1.channels.length ∧
      m1.channels.length = m.channels.length ∧
      (m.Synced → m1.Synced) ∧
      (c.IsValidSolo m.channels.length → m1.Synced) := by
  cases c with
  | solo i v =>
    by_cases hi : 0 ≤ i ∧ i < m.channels.length
    · obtain ⟨m1, h1, h2, h3⟩ := setChannelSolo_valid m i v h hi
      exact ⟨m1, h1, h2.1, h3, fun _ => h2, fun _ => h2⟩
    · refine ⟨m, ?_, h, rfl, id, ?_⟩
      · simp only [applyCall, setChannelSolo, if_neg hi]
      · intro hv
        exact absurd hv hi
  | mute i v =>
    refine ⟨m.setChannelMute i v, rfl, ?_, (setChannelMute_length m i v).1, ?_, ?_⟩
    · rw [(setChannelMute_length m i v).1, (setChannelMute_length m i v).2, h]
    · intro hs
      exact (setChannelMute_synced m i v hs).1
    · intro hv
      exact hv.elim

theorem applyCalls_synced (cs : List SoloMuteCall) :
    ∀ m : Mixer, m.Synced →
      ∃ m1, m.applyCalls cs = some m1 ∧ m1.Synced ∧
        m1.channels.length = m.channels.length := by
  induction cs with
  | nil => intro m h; exact ⟨m, rfl, h, rfl⟩
  | cons c cs ih =>
    intro m h
    obtain ⟨m1, h1, _, h3, h4, _⟩ := applyCall_step m c h.1
    obtain ⟨m2, h6, h7, h8⟩ := ih m1 (h4 h)
    refine ⟨m2, ?_, h7, by rw [h8, h3]⟩
    simp only [applyCalls, h1, Option.some_bind, h6]

theorem applyCalls_reaches_synced (cs : List SoloMuteCall) :
    ∀ m : Mixer, m.channelSoloBuffer.length = m.channels.length →
      (∃ c, c ∈ cs ∧ c.IsValidSolo m.channels.length) →
      ∃ m1, m.applyCalls cs = some m1 ∧ m1.Synced ∧
        m1.channels.length = m.channels.length := by
  induction cs with
  | nil =>
    intro m _ h
    obtain ⟨c, hc, _⟩ := h
    cases hc
  | cons c cs ih =>
    intro m h hex
    obtain ⟨m1, h1, h2, h3, _, h5⟩ := applyCall_step m c h
    by_cases hv : c.IsValidSolo m.channels.length
    · obtain ⟨m2, h6, h7, h8⟩ := applyCalls_synced cs m1 (h5 hv)
      refine ⟨m2, ?_, h7, by rw [h8, h3]⟩
      simp only [applyCalls, h1, Option.some_bind, h6]
    · have hex1 : ∃ c1, c1 ∈ cs ∧ c1.IsValidSolo m1.channels.length := by
        obtain ⟨c1, hc1, hv1⟩ := hex
        rcases List.mem_cons.mp hc1 with e | e
        · subst e
          exact absurd hv1 hv
        · exact ⟨c1, e, by rw [h3]; exact hv1⟩
      obtain ⟨m2, h6, h7, h8⟩ := ih m1 h2 hex1
      refine ⟨m2, ?_, h7, by rw [h8, h3]⟩
      simp only [applyCalls, h1, Option.some_bind, h6]

theorem isChannelActive_of_synced (m : Mixer) (h : m.Synced) (i : Int)
    (hi : 0 ≤ i ∧ i < m.channels.length) :
    ∃ c, m.channels[i.toNat]? = some c ∧
      m.isChannelActive i =
        some (!c.mute && (!(m.channels.any (fun c => c.solo)) || c.solo)) := by
  have hlt : i.toNat < m.channels.length := by omega
  refine ⟨m.channels[i.toNat], List.getElem?_eq_getElem hlt, ?_⟩
  have h3 := h.2.2 i.toNat _ (List.getElem?_eq_getElem hlt)
  simp only [isChannelActive, if_pos hi, List.getElem?_eq_getElem hlt, h3, findSolo_eq_any]

theorem isChannelActive_outside (m : Mixer) (i : Int)
    (hi : i < 0 ∨ (m.channels.length : Int) ≤ i) : m.isChannelActive i = some false := by
  simp only [isChannelActive]
  rw [if_neg (by omega)]

theorem setProject_bind (m0 : Mixer) (p : Project)
    (hnew : m0.currentProject.map Project.addr ≠ some p.addr) :
    (m0.setProject (some p)).channels = vectorResize m0.channels p.numTracks {} ∧
    (m0.setProject (some p)).channelSoloBuffer
      = vectorResize m0.channelSoloBuffer p.numTracks false := by
  simp only [setProject, Option.map_some', if_neg hnew]
  exact ⟨rfl, rfl⟩

end Mixer

namespace Mixer

theorem bound_calls_reach_synced (m0 : Mixer) (p : Project) (calls : List SoloMuteCall)
    (hnew : m0.currentProject.map Project.addr ≠ some p.addr)
    (hsolo : ∃ c, c ∈ calls ∧ c.IsValidSolo p.numTracks) :
    ∃ m, (m0.setProject (some p)).applyCalls calls = some m ∧ m.Synced ∧
      m.channels.length = p.numTracks := by
  obtain ⟨hc, hb⟩ := setProject_bind m0 p hnew
  have hlen : (m0.setProject (some p)).channels.length = p.numTracks := by
    rw [hc, vectorResize_length]
  have hbuf : (m0.setProject (some p)).channelSoloBuffer.length
      = (m0.setProject (some p)).channels.length := by
    rw [hc, hb, vectorResize_length, vectorResize_length]
  obtain ⟨m, h1, h2, h3⟩ := applyCalls_reaches_synced calls (m0.setProject (some p)) hbuf
    (by rw [hlen]; exact hsolo)
  exact ⟨m, h1, h2, by rw [h3, hlen]⟩

end Mixer

/-- C1: bind any mixer to a project with `n` tracks and perform any sequence of
`setChannelSolo` and `setChannelMute` calls that contains a `setChannelSolo` with
a valid index. The sequence completes, the mixer has `n` channels, `soloActive`
is the OR of the solo flags, `isChannelActive(i)` is
`!mute[i] && (!soloActive || solo[i])` for every `i` in `[0, n)` and it is false
for every `i` outside `[0, n)`. -/
theorem isChannelActive_after_solo_call (m0 : Mixer) (p : Project)
    (calls : List SoloMuteCall)
    (hnew : m0.currentProject.map Project.addr ≠ some p.addr)
    (hsolo : ∃ c, c ∈ calls ∧ c.IsValidSolo p.numTracks) :
    ∃ m, (m0.setProject (some p)).applyCalls calls = some m ∧
      m.channels.length = p.numTracks ∧
      m.soloActive = m.channels.any (fun c => c.solo) ∧
      (∀ i : Int, 0 ≤ i → i < p.numTracks →
        ∃ c, m.channels[i.toNat]? = some c ∧
          m.isChannelActive i = some (!c.mute && (!m.soloActive || c.solo))) ∧
      (∀ i : Int, (i < 0 ∨ (p.numTracks : Int) ≤ i) → m.isChannelActive i = some false) := by
  obtain ⟨m, h1, h2, h3⟩ := Mixer.bound_calls_reach_synced m0 p calls hnew hsolo
  have hsa : m.soloActive = m.channels.any (fun c => c.solo) := by
    rw [h2.2.1, Mixer.findSolo_eq_any]
  refine ⟨m, h1, h3, hsa, ?_, ?_⟩
  · intro i hi0 hin
    obtain ⟨c, hc, hact⟩ := Mixer.isChannelActive_of_synced m h2 i ⟨hi0, by rw [h3]; exact hin⟩
    exact ⟨c, hc, by rw [hact, hsa]⟩
  · intro i hi
    exact Mixer.isChannelActive_outside m i (by rw [h3]; exact hi)

/-- C1, an instance: a fresh mixer bound to a project with two tracks, then
`setChannelSolo(0, true)` and `setChannelMute(1, true)`. -/
theorem isChannelActive_after_solo_call_witness :
    (Mixer.init.currentProject.map Project.addr ≠ some (Project.mk 1 2).addr) ∧
    (∃ c, c ∈ [SoloMuteCall.solo 0 true, SoloMuteCall.mute 1 true]
      ∧ c.IsValidSolo (Project.mk 1 2).numTracks) ∧
    ∃ m, (Mixer.init.setProject (some (Project.mk 1 2))).applyCalls
        [SoloMuteCall.solo 0 true, SoloMuteCall.mute 1 true] = some m ∧
      m.channels.length = (Project.mk 1 2).numTracks ∧
      m.soloActive = m.channels.any (fun c => c.solo) ∧
      (∀ i : Int, 0 ≤ i → i < (Project.mk 1 2).numTracks →
        ∃ c, m.channels[i.toNat]? = some c ∧
          m.isChannelActive i = some (!c.mute && (!m.soloActive || c.solo))) ∧
      (∀ i : Int, (i < 0 ∨ ((Project.mk 1 2).numTracks : Int) ≤ i) →
        m.isChannelActive i = some false) :=
  ⟨by decide, ⟨SoloMuteCall.solo 0 true, by decide, by decide⟩,
    isChannelActive_after_solo_call Mixer.init (Project.mk 1 2)
      [SoloMuteCall.solo 0 true, SoloMuteCall.mute 1 true] (by decide)
      ⟨SoloMuteCall.solo 0 true, by decide, by decide⟩⟩

/-- C2 (the code at the failing input): a fresh mixer is bound to a project with
two tracks. No channel is muted and none is soloed, yet `isChannelActive` is
false for both channels: `setProject` fills `channelSoloBuffer` with `false` and
does not run `updateSoloStates`. -/
theorem setProject_leaves_channels_inactive :
    ((Mixer.init.setProject (some (Project.mk 1 2))).channels.map
        (fun c => (c.mute, c.solo)) = [(false, false), (false, false)]) ∧
    (Mixer.init.setProject (some (Project.mk 1 2))).soloActive = false ∧
    (Mixer.init.setProject (some (Project.mk 1 2))).isChannelActive 0 = some false ∧
    (Mixer.init.setProject (some (Project.mk 1 2))).isChannelActive 1 = some false := by
  decide

/-- C3 (counterexample): after `setChannelSolo(0, true)` and
`setChannelMute(0, true)` on a mixer with two channels, a channel is soloed and
channel 0 has `solo = true`, but `isChannelActive(0)` is false: it is not equal
to `solo[0]`. -/
theorem muted_solo_channel_is_inactive :
    ((Mixer.init.setProject (some (Project.mk 1 2))).applyCalls
        [SoloMuteCall.solo 0 true, SoloMuteCall.mute 0 true]).map
      (fun m => (m.channels.any (fun c => c.solo), m.channels.map (fun c => c.solo),
        m.isChannelActive 0))
      = some (true, [true, false], some false) := by
  decide

/-- C3 (amended): in every state reached from a newly bound project through
`setChannelSolo` and `setChannelMute` calls with at least one valid
`setChannelSolo`: if some channel is soloed, `isChannelActive(i)` is
`solo[i] && !mute[i]` for every channel; otherwise it is `!mute[i]`. -/
theorem isChannelActive_solo_invariant (m0 : Mixer) (p : Project)
    (calls : List SoloMuteCall)
    (hnew : m0.currentProject.map Project.addr ≠ some p.addr)
    (hsolo : ∃ c, c ∈ calls ∧ c.IsValidSolo p.numTracks) :
    ∃ m, (m0.setProject (some p)).applyCalls calls = some m ∧
      m.channels.length = p.numTracks ∧
      (m.channels.any (fun c => c.solo) = true →
        ∀ i : Int, 0 ≤ i → i < p.numTracks →
          ∃ c, m.channels[i.toNat]? = some c ∧
            m.isChannelActive i = some (c.solo && !c.mute)) ∧
      (m.channels.any (fun c => c.solo) = false →
        ∀ i : Int, 0 ≤ i → i < p.numTracks →
          ∃ c, m.channels[i.toNat]? = some c ∧ m.isChannelActive i = some (!c.mute)) := by
  obtain ⟨m, h1, h2, h3⟩ := Mixer.bound_calls_reach_synced m0 p calls hnew hsolo
  refine ⟨m, h1, h3, ?_, ?_⟩
  · intro hany i hi0 hin
    obtain ⟨c, hc, hact⟩ := Mixer.isChannelActive_of_synced m h2 i ⟨hi0, by rw [h3]; exact hin⟩
    refine ⟨c, hc, ?_⟩
    rw [hact, hany]
    cases c.solo <;> cases c.mute <;> rfl
  · intro hany i hi0 hin
    obtain ⟨c, hc, hact⟩ := Mixer.isChannelActive_of_synced m h2 i ⟨hi0, by rw [h3]; exact hin⟩
    refine ⟨c, hc, ?_⟩
    rw [hact, hany]
    cases c.solo <;> cases c.mute <;> rfl

/-- C3 (amended), an instance: two channels, `setChannelSolo(0, true)` then
`setChannelMute(0, true)`. -/
theorem isChannelActive_solo_invariant_witness :
    (Mixer.init.currentProject.map Project.addr ≠ some (Project.mk 1 2).addr) ∧
    ∃ m, (Mixer.init.setProject (some (Project.mk 1 2))).applyCalls
        [SoloMuteCall.solo 0 true, SoloMuteCall.mute 0 true] = some m ∧
      m.channels.length = (Project.mk 1 2).numTracks ∧
      (m.channels.any (fun c => c.solo) = true →
        ∀ i : Int, 0 ≤ i → i < (Project.mk 1 2).numTracks →
          ∃ c, m.channels[i.toNat]? = some c ∧
            m.isChannelActive i = some (c.solo && !c.mute)) ∧
      (m.channels.any (fun c => c.solo) = false →
        ∀ i : Int, 0 ≤ i → i < (Project.mk 1 2).numTracks →
          ∃ c, m.channels[i.toNat]? = some c ∧ m.isChannelActive i = some (!c.mute)) :=
  ⟨by decide,
    isChannelActive_solo_invariant Mixer.init (Project.mk 1 2)
      [SoloMuteCall.solo 0 true, SoloMuteCall.mute 0 true] (by decide)
      ⟨SoloMuteCall.solo 0 true, by decide, by decide⟩⟩

/-! ## Theorems: transport -/

namespace AudioEngine

/-- The position a playing transport reaches in a block before the loop check:
the pending seek, if any, else the old position, plus the block length. -/
theorem updateTransportPosition_playing (e : AudioEngine) (numSamples : Int)
    (hplay : e.transport.isPlaying = true) :
    (e.updateTransportPosition numSamples).transport.position =
      (if e.transport.isLooping = true ∧
          e.transport.loopEnd ≤
            (if 0 ≤ e.nextPosition then e.nextPosition else e.transport.position)
              + (numSamples : ℚ) / e.settings.sampleRate
        then e.transport.loopStart
        else (if 0 ≤ e.nextPosition then e.nextPosition else e.transport.position)
              + (numSamples : ℚ) / e.settings.sampleRate) ∧
    (e.updateTransportPosition numSamples).nextPosition =
      (if 0 ≤ e.nextPosition then -1 else e.nextPosition) ∧
    (e.updateTransportPosition numSamples).transport.loopStart = e.transport.loopStart ∧
    (e.updateTransportPosition numSamples).transport.loopEnd = e.transport.loopEnd := by
  unfold updateTransportPosition
  rw [if_neg (by simp [hplay])]
  by_cases hp : 0 ≤ e.nextPosition
  · simp only [hp, if_true]
    split <;> exact ⟨rfl, rfl, rfl, rfl⟩
  · simp only [hp, if_false]
    split <;> exact ⟨rfl, rfl, rfl, rfl⟩

end AudioEngine

/-- C4 (counterexample): playing, not looping, a pending seek to 2 s and a
block of 512 samples at 44100 Hz. The seek is consumed (the slot holds -1), but
the position after the block is `2 + 512 / 44100`, not 2. -/
theorem seek_block_adds_increment :
    (AudioEngine.updateTransportPosition
        { transport := { isPlaying := true }, nextPosition := 2 } 512).transport.position
      = 2 + 512 / 44100 ∧
    (AudioEngine.updateTransportPosition
        { transport := { isPlaying := true }, nextPosition := 2 } 512).transport.position ≠ 2 ∧
    (AudioEngine.updateTransportPosition
        { transport := { isPlaying := true }, nextPosition := 2 } 512).nextPosition = -1 := by
  refine ⟨?_, ?_, ?_⟩ <;> norm_num [AudioEngine.updateTransportPosition]

/-- C4 (amended): while playing and not looping, a block that finds a pending
seek `t ≥ 0` ends at `t + numSamples / sampleRate` with the slot emptied (-1);
a block that finds none ends at the previous position
`+ numSamples / sampleRate` and leaves the slot as it was. -/
theorem updateTransportPosition_not_looping (e : AudioEngine) (numSamples : Int)
    (hplay : e.transport.isPlaying = true) (hloop : e.transport.isLooping = false) :
    (0 ≤ e.nextPosition →
      (e.updateTransportPosition numSamples).transport.position
        = e.nextPosition + (numSamples : ℚ) / e.settings.sampleRate ∧
      (e.updateTransportPosition numSamples).nextPosition = -1) ∧
    (e.nextPosition < 0 →
      (e.updateTransportPosition numSamples).transport.position
        = e.transport.position + (numSamples : ℚ) / e.settings.sampleRate ∧
      (e.updateTransportPosition numSamples).nextPosition = e.nextPosition) := by
  obtain ⟨h1, h2, _, _⟩ := AudioEngine.updateTransportPosition_playing e numSamples hplay
  rw [h1, h2]
  constructor
  · intro hp
    simp [hloop, hp]
  · intro hn
    simp [hloop, not_le.mpr hn]

/-- C4 (amended), an instance: a pending seek to 2 s, 512 samples at 44100 Hz. -/
theorem updateTransportPosition_not_looping_witness :
    (AudioEngine.updateTransportPosition
        { transport := { isPlaying := true }, nextPosition := 2 } 512).transport.position
      = 2 + ((512 : Int) : ℚ) / 44100 ∧
    (AudioEngine.updateTransportPosition
        { transport := { isPlaying := true }, nextPosition := 2 } 512).nextPosition = -1 :=
  (updateTransportPosition_not_looping
    { transport := { isPlaying := true }, nextPosition := 2 } 512 rfl rfl).1 (by norm_num)

/-- C5: while playing and looping with `loopStart < loopEnd`, the position
after a block is strictly below `loopEnd`; a block whose advanced position
(pending seek or old position, plus the block length) reaches or passes
`loopEnd` ends exactly at `loopStart`, any other block ends at the advanced
position; the loop points are not changed and the result does not depend on
`bpm`. -/
theorem updateTransportPosition_looping (e : AudioEngine) (numSamples : Int)
    (hplay : e.transport.isPlaying = true) (hloop : e.transport.isLooping = true)
    (hlt : e.transport.loopStart < e.transport.loopEnd) :
    (e.updateTransportPosition numSamples).transport.position < e.transport.loopEnd ∧
    (e.transport.loopEnd ≤
        (if 0 ≤ e.nextPosition then e.nextPosition else e.transport.position)
          + (numSamples : ℚ) / e.settings.sampleRate →
      (e.updateTransportPosition numSamples).transport.position = e.transport.loopStart) ∧
    ((if 0 ≤ e.nextPosition then e.nextPosition else e.transport.position)
          + (numSamples : ℚ) / e.settings.sampleRate < e.transport.loopEnd →
      (e.updateTransportPosition numSamples).transport.position
        = (if 0 ≤ e.nextPosition then e.nextPosition else e.transport.position)
          + (numSamples : ℚ) / e.settings.sampleRate) ∧
    (e.updateTransportPosition numSamples).transport.loopStart = e.transport.loopStart ∧
    (e.updateTransportPosition numSamples).transport.loopEnd = e.transport.loopEnd ∧
    (∀ bpm : ℚ,
      (AudioEngine.updateTransportPosition
          { e with transport := { e.transport with bpm := bpm } } numSamples).transport.position
        = (e.updateTransportPosition numSamples).transport.position) := by
  obtain ⟨h1, _, h3, h4⟩ := AudioEngine.updateTransportPosition_playing e numSamples hplay
  refine ⟨?_, ?_, ?_, h3, h4, ?_⟩
  · rw [h1]
    by_cases hle : e.transport.loopEnd ≤
        (if 0 ≤ e.nextPosition then e.nextPosition else e.transport.position)
          + (numSamples : ℚ) / e.settings.sampleRate
    · rw [if_pos ⟨hloop, hle⟩]
      exact hlt
    · rw [if_neg (fun hc => hle hc.2)]
      exact lt_of_not_le hle
  · intro hle
    rw [h1, if_pos ⟨hloop, hle⟩]
  · intro hl
    rw [h1, if_neg (fun hc => absurd hc.2 (not_le.mpr hl))]
  · intro bpm
    obtain ⟨h2, _⟩ := AudioEngine.updateTransportPosition_playing
      { e with transport := { e.transport with bpm := bpm } } numSamples hplay
    rw [h1, h2]

/-- C5, an instance: loop 0 s to 4 s, position 3.995 s, no seek pending, a block
of 512 samples at 44100 Hz passes 4 s and ends exactly at 0. -/
theorem updateTransportPosition_looping_witness :
    (AudioEngine.updateTransportPosition
        { transport :=
            { isPlaying := true, isLooping := true, position := 3995 / 1000, loopStart := 0,
              loopEnd := 4 },
          nextPosition := -1 } 512).transport.position = 0 :=
  (updateTransportPosition_looping
    { transport :=
        { isPlaying := true, isLooping := true, position := 3995 / 1000, loopStart := 0,
          loopEnd := 4 },
      nextPosition := -1 } 512 rfl rfl (by norm_num)).2.1 (by norm_num)

/-! ## Theorems: buffer mixing -/

namespace AudioBuffer

/-- One `addFrom` over the first `ns` samples of channel `ch`, on buffers that
respect their cleared flag: the region receives the scaled source, everything
else is kept. -/
theorem addFrom_spec (dest source : AudioBuffer) (ch ns : Nat) (g : ℚ)
    (hs : source.FlagSound) (hd : dest.FlagSound)
    (hcs : ch < source.numChannels) (hcd : ch < dest.numChannels)
    (hns : ns ≤ source.size) (hnd : ns ≤ dest.size) :
    (dest.addFrom ch 0 source ch 0 ns g).numChannels = dest.numChannels ∧
    (dest.addFrom ch 0 source ch 0 ns g).size = dest.size ∧
    (dest.addFrom ch 0 source ch 0 ns g).FlagSound ∧
    ∀ c n, (dest.addFrom ch 0 source ch 0 ns g).data c n =
      if c = ch ∧ n < ns then dest.data c n + source.data c n * g else dest.data c n := by
  unfold addFrom
  by_cases hguard : g ≠ 0 ∧ 0 < ns ∧ source.isClear = false
  · rw [if_pos hguard]
    by_cases hclear : dest.isClear = true
    · rw [if_pos hclear]
      refine ⟨rfl, rfl, (fun h => by cases h), ?_⟩
      intro c n
      by_cases hr : c = ch ∧ n < ns
      · have hz : dest.data c n = 0 := hd hclear c n (by omega) (by omega)
        obtain ⟨hc, hn⟩ := hr
        subst hc
        by_cases hg1 : g = 1
        · simp [hn, hg1, hz]
        · simp [hn, hg1, hz]
      · have hr2 : ¬ (c = ch ∧ 0 ≤ n ∧ n < 0 + ns) := by
          intro h
          exact hr ⟨h.1, by omega⟩
        simp only [if_neg hr, if_neg hr2]
    · rw [if_neg hclear]
      refine ⟨rfl, rfl, (fun h => absurd h hclear), ?_⟩
      intro c n
      by_cases hr : c = ch ∧ n < ns
      · obtain ⟨hc, hn⟩ := hr
        subst hc
        by_cases hg1 : g = 1
        · simp [hn, hg1]
        · simp [hn, hg1]
      · have hr2 : ¬ (c = ch ∧ 0 ≤ n ∧ n < 0 + ns) := by
          intro h
          exact hr ⟨h.1, by omega⟩
        simp only [if_neg hr, if_neg hr2]
  · rw [if_neg hguard]
    refine ⟨rfl, rfl, hd, ?_⟩
    intro c n
    by_cases hr : c = ch ∧ n < ns
    · rw [if_pos hr]
      obtain ⟨hc, hn⟩ := hr
      subst hc
      by_cases hg0 : g = 0
      · simp [hg0]
      · by_cases hn0 : 0 < ns
        · have hsc : source.isClear = true := by
            cases h : source.isClear
            · exact absurd ⟨hg0, hn0, h⟩ hguard
            · rfl
          have hz : source.data c n = 0 := hs hsc c n hcs (by omega)
          simp [hz]
        · omega
    · rw [if_neg hr]

/-- The channel loop of `mixBuffers` after `k` rounds. -/
theorem mix_loop_spec (source destination : AudioBuffer) (ns : Nat) (g : ℚ)
    (hs : source.FlagSound) (hd : destination.FlagSound)
    (hns : ns ≤ source.size) (hnd : ns ≤ destination.size) :
    ∀ k : Nat, k ≤ source.numChannels → k ≤ destination.numChannels →
      ((List.range k).foldl
          (fun dest channel => dest.addFrom channel 0 source channel 0 ns g)
          destination).numChannels = destination.numChannels ∧
      ((List.range k).foldl
          (fun dest channel => dest.addFrom channel 0 source channel 0 ns g)
          destination).size = destination.size ∧
      ((List.range k).foldl
          (fun dest channel => dest.addFrom channel 0 source channel 0 ns g)
          destination).FlagSound ∧
      ∀ c n, ((List.range k).foldl
          (fun dest channel => dest.addFrom channel 0 source channel 0 ns g)
          destination).data c n =
        if c < k ∧ n < ns then destination.data c n + source.data c n * g
        else destination.data c n := by
  intro k
  induction k with
  | zero =>
    intro _ _
    refine ⟨rfl, rfl, hd, ?_⟩
    intro c n
    simp
  | succ k ih =>
    intro hks hkd
    obtain ⟨h1, h2, h3, h4⟩ := ih (by omega) (by omega)
    rw [List.range_succ, List.foldl_append]
    simp only [List.foldl_cons, List.foldl_nil]
    obtain ⟨g1, g2, g3, g4⟩ := addFrom_spec
      ((List.range k).foldl
        (fun dest channel => dest.addFrom channel 0 source channel 0 ns g) destination)
      source k ns g hs h3 (by omega) (by rw [h1]; omega) hns (by rw [h2]; exact hnd)
    refine ⟨by rw [g1, h1], by rw [g2, h2], g3, ?_⟩
    intro c n
    rw [g4 c n, h4 c n]
    by_cases hck : c = k
    · subst hck
      by_cases hn : n < ns
      · simp [hn]
      · simp [hn]
    · by_cases hn : n < ns
      · by_cases hlt : c < k
        · have : c < k + 1 := by omega
          simp [hck, hn, hlt, this]
        · have : ¬ c < k + 1 := by omega
          simp [hck, hn, hlt, this]
      · simp [hn]

end AudioBuffer

/-- C6: for buffers that respect their cleared flag and every gain `g`, after
`MixerUtils::mixBuffers` and after `AudioUtils::mixBuffers` each destination
sample at channel `c < min(source channels, destination channels)` and index
`n < min(source samples, destination samples)` is its previous value
`+ source[c][n] * g`, every other destination sample is unchanged and the
destination keeps its shape. The source is a read-only argument of the
embedding, as it is a `const&` in the code. -/
theorem mixBuffers_adds_scaled_source (source destination : AudioBuffer) (gain : ℚ)
    (hs : source.FlagSound) (hd : destination.FlagSound) :
    (∀ c n, (MixerUtils.mixBuffers source destination gain).getSample c n =
      if c < min source.getNumChannels destination.getNumChannels ∧
          n < min source.getNumSamples destination.getNumSamples
      then destination.getSample c n + source.getSample c n * gain
      else destination.getSample c n) ∧
    (MixerUtils.mixBuffers source destination gain).getNumChannels
      = destination.getNumChannels ∧
    (MixerUtils.mixBuffers source destination gain).getNumSamples
      = destination.getNumSamples ∧
    (∀ c n, (AudioUtils.mixBuffers source destination gain).getSample c n =
      if c < min source.getNumChannels destination.getNumChannels ∧
          n < min source.getNumSamples destination.getNumSamples
      then destination.getSample c n + source.getSample c n * gain
      else destination.getSample c n) ∧
    (AudioUtils.mixBuffers source destination gain).getNumChannels
      = destination.getNumChannels ∧
    (AudioUtils.mixBuffers source destination gain).getNumSamples
      = destination.getNumSamples := by
  obtain ⟨h1, h2, _, h4⟩ := AudioBuffer.mix_loop_spec source destination
    (min source.size destination.size) gain hs hd (Nat.min_le_left _ _) (Nat.min_le_right _ _)
    (min source.numChannels destination.numChannels) (Nat.min_le_left _ _)
    (Nat.min_le_right _ _)
  exact ⟨h4, h1, h2, h4, h1, h2⟩

/-- C6, an instance: a mono source of two samples mixed at gain 1/2 into a
stereo destination of one sample. -/
theorem mixBuffers_adds_scaled_source_witness :
    (AudioBuffer.FlagSound { numChannels := 1, size := 2, data := fun _ _ => 1 }) ∧
    (AudioBuffer.FlagSound { numChannels := 2, size := 1, data := fun _ _ => 3 }) ∧
    (∀ c n,
      (MixerUtils.mixBuffers { numChannels := 1, size := 2, data := fun _ _ => 1 }
        { numChannels := 2, size := 1, data := fun _ _ => 3 } (1 / 2)).getSample c n =
      if c < min (AudioBuffer.getNumChannels { numChannels := 1, size := 2, data := fun _ _ => 1 })
            (AudioBuffer.getNumChannels { numChannels := 2, size := 1, data := fun _ _ => 3 }) ∧
          n < min (AudioBuffer.getNumSamples { numChannels := 1, size := 2, data := fun _ _ => 1 })
            (AudioBuffer.getNumSamples { numChannels := 2, size := 1, data := fun _ _ => 3 })
      then AudioBuffer.getSample { numChannels := 2, size := 1, data := fun _ _ => 3 } c n
        + AudioBuffer.getSample { numChannels := 1, size := 2, data := fun _ _ => 1 } c n * (1 / 2)
      else AudioBuffer.getSample { numChannels := 2, size := 1, data := fun _ _ => 3 } c n) :=
  ⟨(fun h => by cases h), (fun h => by cases h),
    (mixBuffers_adds_scaled_source
      { numChannels := 1, size := 2, data := fun _ _ => 1 }
      { numChannels := 2, size := 1, data := fun _ _ => 3 } (1 / 2)
      (fun h => by cases h) (fun h => by cases h)).1⟩

/-! ## Theorems: channel settings and pan law -/

/-- Every buffer that is not flagged as cleared comes out of
`applyChannelSettings` silent, whatever the channel settings. -/
theorem Mixer.applyChannelSettings_of_not_cleared (lib : CMath ℚ) (buffer : AudioBuffer)
    (channel : Channel) (h : buffer.isClear = false) (c n : Nat)
    (hc : c < buffer.numChannels) (hn : n < buffer.size) :
    (Mixer.applyChannelSettings lib buffer channel).getSample c n = 0 := by
  unfold Mixer.applyChannelSettings
  rw [if_pos (show channel.mute = true ∨ buffer.hasBeenCleared = false from Or.inr h)]
  simp [AudioBuffer.clear, AudioBuffer.getSample, h, hc, hn]

/-- C7 (the code at the failing input): an unmuted channel with volume 1/2 and
pan 0, and a stereo buffer of one sample holding 1 in both channels, not
flagged as cleared. `applyChannelSettings` leaves 0 in both channels, not
`1/2 * 1`: the test `!buffer.hasBeenCleared()` sends every buffer that holds
audio into the `clear()` branch. -/
theorem applyChannelSettings_silences_audio (lib : CMath ℚ) :
    (Mixer.applyChannelSettings lib
        { numChannels := 2, size := 1, data := fun _ _ => 1, isClear := false }
        { volume := 1 / 2, pan := 0, mute := false }).getSample 0 0 = 0 ∧
    (Mixer.applyChannelSettings lib
        { numChannels := 2, size := 1, data := fun _ _ => 1, isClear := false }
        { volume := 1 / 2, pan := 0, mute := false }).getSample 1 0 = 0 ∧
    (Mixer.applyChannelSettings lib
        { numChannels := 2, size := 1, data := fun _ _ => 1, isClear := false }
        { volume := 1 / 2, pan := 0, mute := false }).getSample 0 0
      ≠ 1 / 2 * AudioBuffer.getSample
          { numChannels := 2, size := 1, data := fun _ _ => 1, isClear := false } 0 0 := by
  refine ⟨?_, ?_, ?_⟩ <;>
    simp [Mixer.applyChannelSettings, AudioBuffer.hasBeenCleared, AudioBuffer.clear,
      AudioBuffer.getSample]

/-- C8 (the code at the failing input): over the reals, with the library cosine
and sine, `Mixer::calculatePanGain` gives the gains `(0, -1)` at pan -1 (the
claim: `(1, 0)`, both in `[0, 1]`) and `(1, 0)` at pan 0 (the claim:
`(√2/2, √2/2)`): the angle is `pan * π/2`, not `(pan + 1) * π/4`. -/
theorem calculatePanGain_at_hard_left_and_centre :
    Mixer.calculatePanGain ⟨Real.cos, Real.sin, Real.pi / 2⟩ (-1) true = 0 ∧
    Mixer.calculatePanGain ⟨Real.cos, Real.sin, Real.pi / 2⟩ (-1) false = -1 ∧
    Mixer.calculatePanGain ⟨Real.cos, Real.sin, Real.pi / 2⟩ 0 true = 1 ∧
    Mixer.calculatePanGain ⟨Real.cos, Real.sin, Real.pi / 2⟩ 0 false = 0 ∧
    Mixer.calculatePanGain ⟨Real.cos, Real.sin, Real.pi / 2⟩ (-1) true
      ≠ Real.cos ((-1 + 1) * Real.pi / 4) ∧
    ¬ (0 ≤ Mixer.calculatePanGain ⟨Real.cos, Real.sin, Real.pi / 2⟩ (-1) false) := by
  have h1 : Mixer.calculatePanGain ⟨Real.cos, Real.sin, Real.pi / 2⟩ (-1) true = 0 := by
    simp [Mixer.calculatePanGain]
  have h2 : Mixer.calculatePanGain ⟨Real.cos, Real.sin, Real.pi / 2⟩ (-1) false = -1 := by
    simp [Mixer.calculatePanGain]
  refine ⟨h1, h2, ?_, ?_, ?_, ?_⟩
  · simp [Mixer.calculatePanGain]
  · simp [Mixer.calculatePanGain]
  · rw [h1]
    simp
  · rw [h2]
    norm_num

/-- C9: over real arithmetic (library cosine and sine, `halfPi` and
`AudioUtils::PI` read as π/2 and π), the left and right pan gains satisfy
`leftGain² + rightGain² = 1` for every pan, in particular for every pan in
`[-1, 1]`, for `Mixer::calculatePanGain`, `MixerUtils::panToGain` and
`AudioUtils::panToGain`. -/
theorem pan_gains_constant_power (p : ℝ) :
    Mixer.calculatePanGain ⟨Real.cos, Real.sin, Real.pi / 2⟩ p true ^ 2
      + Mixer.calculatePanGain ⟨Real.cos, Real.sin, Real.pi / 2⟩ p false ^ 2 = 1 ∧
    MixerUtils.panToGain ⟨Real.cos, Real.sin, Real.pi / 2⟩ p true ^ 2
      + MixerUtils.panToGain ⟨Real.cos, Real.sin, Real.pi / 2⟩ p false ^ 2 = 1 ∧
    AudioUtils.panToGain Real.cos Real.pi p true ^ 2
      + AudioUtils.panToGain Real.cos Real.pi p false ^ 2 = 1 := by
  refine ⟨?_, ?_, ?_⟩
  · simp only [Mixer.calculatePanGain, if_true, Bool.false_eq_true, if_false]
    exact Real.cos_sq_add_sin_sq _
  · simp only [MixerUtils.panToGain, if_true, Bool.false_eq_true, if_false]
    exact Real.cos_sq_add_sin_sq _
  · simp only [AudioUtils.panToGain, AudioUtils.HALF_PI, if_true, Bool.false_eq_true, if_false]
    have h : Real.cos ((1 + p) * (Real.pi * (1 / 2)) * (1 / 2))
        = Real.sin ((1 - p) * (Real.pi * (1 / 2)) * (1 / 2)) := by
      rw [← Real.sin_pi_div_two_sub]
      congr 1
      ring
    rw [h]
    exact Real.cos_sq_add_sin_sq _

/-! ## Theorems: persisted state -/

namespace ValueTree

theorem lookup_setProp_same (name : String) (v : Var) (ps : List (String × Var)) :
    (setProp name v ps).lookup name = some v := by
  induction ps with
  | nil => simp [setProp, List.lookup]
  | cons kv rest ih =>
    by_cases h : kv.1 = name
    · simp [setProp, h, List.lookup]
    · have h2 : (name == kv.1) = false := by
        rw [beq_eq_false_iff_ne]
        exact fun e => h e.symm
      simp only [setProp, if_neg h, List.lookup, h2, ih]

theorem lookup_setProp_other (name other : String) (v : Var) (ps : List (String × Var))
    (hne : other ≠ name) : (setProp name v ps).lookup other = ps.lookup other := by
  induction ps with
  | nil =>
    have h2 : (other == name) = false := by
      rw [beq_eq_false_iff_ne]
      exact hne
    simp [setProp, List.lookup, h2]
  | cons kv rest ih =>
    by_cases h : kv.1 = name
    · have h2 : (other == name) = false := by
        rw [beq_eq_false_iff_ne]
        exact hne
      have h3 : (other == kv.1) = false := by
        rw [h]
        exact h2
      simp only [setProp, if_pos h, List.lookup, h2, h3]
    · simp only [setProp, if_neg h, List.lookup, ih]

theorem getPropertyOr_setProperty_same (t : ValueTree) (name : String) (v d : Var) :
    (t.setProperty name v).getPropertyOr name d = v := by
  simp [getPropertyOr, setProperty, properties, lookup_setProp_same]

theorem getPropertyOr_setProperty_other (t : ValueTree) (name other : String) (v d : Var)
    (hne : other ≠ name) :
    (t.setProperty name v).getPropertyOr other d = t.getPropertyOr other d := by
  simp [getPropertyOr, setProperty, properties, lookup_setProp_other _ _ _ _ hne]

theorem getProperty_setProperty_same (t : ValueTree) (name : String) (v : Var) :
    (t.setProperty name v).getProperty name = v := by
  simp [getProperty, setProperty, properties, lookup_setProp_same]

theorem getProperty_setProperty_other (t : ValueTree) (name other : String) (v : Var)
    (hne : other ≠ name) :
    (t.setProperty name v).getProperty other = t.getProperty other := by
  simp [getProperty, setProperty, properties, lookup_setProp_other _ _ _ _ hne]

theorem type_setProperty (t : ValueTree) (name : String) (v : Var) :
    (t.setProperty name v).type = t.type := rfl

theorem children_setProperty (t : ValueTree) (name : String) (v : Var) :
    (t.setProperty name v).children = t.children := rfl

theorem foldl_createChild {α : Type} (g : α → ValueTree) (l : List α) :
    ∀ t : ValueTree,
      l.foldl (fun n x => n.createChild (g x)) t
        = node t.type t.properties (t.children ++ l.map g) := by
  induction l with
  | nil =>
    intro t
    cases t
    simp [type, properties, children]
  | cons x xs ih =>
    intro t
    rw [List.foldl_cons, ih]
    simp [createChild, type, properties, children]

theorem find_updateOrAppend_same (name : String) (f : ValueTree → ValueTree)
    (hf : ∀ x, (f x).type = x.type) (cs : List ValueTree) :
    ∃ x, x.type = name ∧
      (updateOrAppend name f cs).find? (fun c => c.type = name) = some (f x) := by
  induction cs with
  | nil =>
    refine ⟨fresh name, rfl, ?_⟩
    have h : (f (fresh name)).type = name := by rw [hf]; rfl
    simp [updateOrAppend, List.find?, h]
  | cons c cs ih =>
    by_cases h : c.type = name
    · refine ⟨c, h, ?_⟩
      have h2 : (f c).type = name := by rw [hf, h]
      simp [updateOrAppend, h, List.find?, h2]
    · obtain ⟨x, hx, hfind⟩ := ih
      refine ⟨x, hx, ?_⟩
      simp only [updateOrAppend, if_neg h, List.find?, h, decide_False]
      exact hfind

theorem find_updateOrAppend_other (name other : String) (f : ValueTree → ValueTree)
    (hf : ∀ x, (f x).type = x.type) (hne : name ≠ other) (cs : List ValueTree) :
    (updateOrAppend name f cs).find? (fun c => c.type = other)
      = cs.find? (fun c => c.type = other) := by
  induction cs with
  | nil =>
    have h : ¬ (f (fresh name)).type = other := by
      rw [hf]
      exact hne
    simp [updateOrAppend, List.find?, h]
  | cons c cs ih =>
    by_cases h : c.type = name
    · have h2 : ¬ c.type = other := by rw [h]; exact hne
      have h3 : ¬ (f c).type = other := by rw [hf]; exact h2
      simp [updateOrAppend, h, List.find?, h3, hne]
    · simp only [updateOrAppend, if_neg h, List.find?, ih]

theorem getChildWithName_getOrCreate_same (t : ValueTree) (name : String)
    (f : ValueTree → ValueTree) (hf : ∀ x, (f x).type = x.type) :
    ∃ x, x.type = name ∧
      (t.getOrCreateChildWithName name f).getChildWithName name = some (f x) :=
  find_updateOrAppend_same name f hf t.children

theorem getChildWithName_getOrCreate_fresh (t : ValueTree) (name : String)
    (f : ValueTree → ValueTree) (hf : ∀ x, (f x).type = x.type) (ht : t.children = []) :
    (t.getOrCreateChildWithName name f).getChildWithName name = some (f (fresh name)) := by
  have h : (f (fresh name)).type = name := by rw [hf]; rfl
  cases t with
  | node ty ps cs =>
    have hcs : cs = [] := ht
    subst hcs
    simp [getOrCreateChildWithName, getChildWithName, updateOrAppend, children, h]

theorem children_fresh (name : String) : (fresh name).children = [] := rfl

theorem find_updateOrAppend_absent (name : String) (f : ValueTree → ValueTree)
    (hf : ∀ x, (f x).type = x.type) (cs : List ValueTree)
    (habs : cs.find? (fun c => c.type = name) = none) :
    (updateOrAppend name f cs).find? (fun c => c.type = name) = some (f (fresh name)) := by
  induction cs with
  | nil =>
    have h : (f (fresh name)).type = name := by rw [hf]; rfl
    simp [updateOrAppend, List.find?, h]
  | cons c cs ih =>
    by_cases h : c.type = name
    · simp [List.find?, h] at habs
    · have habs2 : cs.find? (fun c => c.type = name) = none := by
        simpa [List.find?, h] using habs
      simp only [updateOrAppend, if_neg h, List.find?, h, decide_False]
      exact ih habs2

theorem getChildWithName_getOrCreate_absent (t : ValueTree) (name : String)
    (f : ValueTree → ValueTree) (hf : ∀ x, (f x).type = x.type)
    (habs : t.getChildWithName name = none) :
    (t.getOrCreateChildWithName name f).getChildWithName name = some (f (fresh name)) :=
  find_updateOrAppend_absent name f hf t.children habs

theorem children_node (ty : String) (ps : List (String × Var)) (cs : List ValueTree) :
    (node ty ps cs).children = cs := rfl

theorem type_node (ty : String) (ps : List (String × Var)) (cs : List ValueTree) :
    (node ty ps cs).type = ty := rfl

theorem getPropertyOr_getOrCreate (t : ValueTree) (name : String) (f : ValueTree → ValueTree)
    (k : String) (d : Var) :
    (t.getOrCreateChildWithName name f).getPropertyOr k d = t.getPropertyOr k d := rfl

theorem getProperty_getOrCreate (t : ValueTree) (name : String) (f : ValueTree → ValueTree)
    (k : String) :
    (t.getOrCreateChildWithName name f).getProperty k = t.getProperty k := rfl

theorem getChildWithName_getOrCreate_other (t : ValueTree) (name other : String)
    (f : ValueTree → ValueTree) (hf : ∀ x, (f x).type = x.type) (hne : name ≠ other) :
    (t.getOrCreateChildWithName name f).getChildWithName other = t.getChildWithName other :=
  find_updateOrAppend_other name other f hf hne t.children

end ValueTree

namespace Mixer

theorem saveSend_loop (sends : List (Int × ℚ)) (t : ValueTree) :
    sends.foldl saveSend t
      = ValueTree.node t.type t.properties (t.children ++ sends.map (fun send =>
          ((ValueTree.fresh "send").setProperty "bus" (.int send.1)).setProperty "level"
            (.double send.2))) :=
  ValueTree.foldl_createChild _ sends t

theorem saveSource_loop (sources : List Int) (t : ValueTree) :
    sources.foldl saveSource t
      = ValueTree.node t.type t.properties (t.children ++ sources.map (fun source =>
          (ValueTree.fresh "source").setProperty "index" (.int source))) :=
  ValueTree.foldl_createChild _ sources t

theorem load_saved_sends (sends : List (Int × ℚ)) :
    (sends.map (fun send =>
        ((ValueTree.fresh "send").setProperty "bus" (.int send.1)).setProperty "level"
          (.double send.2))).map
      (fun sendNode =>
        ((sendNode.getProperty "bus").toInt, (sendNode.getProperty "level").toFloat))
      = sends := by
  rw [List.map_map]
  conv_rhs => rw [← List.map_id sends]
  apply List.map_congr_left
  intro send _
  simp only [Function.comp, id]
  rw [ValueTree.getProperty_setProperty_other _ _ _ _ (by decide),
    ValueTree.getProperty_setProperty_same, ValueTree.getProperty_setProperty_same]
  rfl

theorem load_saved_sources (sources : List Int) :
    (sources.map (fun source =>
        (ValueTree.fresh "source").setProperty "index" (.int source))).map
      (fun sourceNode => (sourceNode.getProperty "index").toInt)
      = sources := by
  rw [List.map_map]
  conv_rhs => rw [← List.map_id sources]
  apply List.map_congr_left
  intro source _
  simp only [Function.comp, id]
  rw [ValueTree.getProperty_setProperty_same]
  rfl

/-- The node `saveState` appends for a channel loads back as the persisted
part of that channel. -/
theorem saveChannel_spec :
    ∃ g : Channel → ValueTree,
      (∀ n c, saveChannel n c = n.createChild (g c)) ∧
      (∀ c, loadChannel (g c) = c.persisted) := by
  refine ⟨fun channel =>
    ValueTree.getOrCreateChildWithName
      (ValueTree.setProperty
        (ValueTree.setProperty
          (ValueTree.setProperty
            (ValueTree.setProperty
              (ValueTree.setProperty (ValueTree.fresh "channel") "volume"
                (.double channel.volume))
              "pan" (.double channel.pan))
            "mute" (.bool channel.mute))
          "solo" (.bool channel.solo))
        "bypass" (.bool channel.bypass))
      "sends" (fun sendsNode => channel.sends.foldl saveSend sendsNode),
    fun _ _ => rfl, ?_⟩
  intro c
  simp only [loadChannel]
  rw [ValueTree.getChildWithName_getOrCreate_fresh]
  · simp only [saveSend_loop, ValueTree.children_node, ValueTree.children_fresh,
      List.nil_append, load_saved_sends, ValueTree.getPropertyOr_getOrCreate]
    simp [ValueTree.getPropertyOr_setProperty_same, ValueTree.getPropertyOr_setProperty_other,
      Var.toFloat, Var.toBool, Channel.persisted]
  · intro x
    rw [saveSend_loop]
    rfl
  · rfl

/-- The node `saveState` appends for a bus loads back as the persisted part of
that bus. -/
theorem saveBus_spec :
    ∃ g : Bus → ValueTree,
      (∀ n b, saveBus n b = n.createChild (g b)) ∧
      (∀ b, loadBus (g b) = b.persisted) := by
  refine ⟨fun bus =>
    ValueTree.getOrCreateChildWithName
      (ValueTree.getOrCreateChildWithName
        (ValueTree.setProperty
          (ValueTree.setProperty
            (ValueTree.setProperty (ValueTree.fresh "bus") "type" (.int bus.type.val))
            "name" (.string bus.name))
          "output" (.int bus.outputBus))
        "sources" (fun sourcesNode => bus.sources.foldl saveSource sourcesNode))
      "channel" (fun channelNode =>
        (((channelNode.setProperty "volume" (.double bus.channel.volume)).setProperty "pan"
          (.double bus.channel.pan)).setProperty "mute" (.bool bus.channel.mute)).setProperty
          "bypass" (.bool bus.channel.bypass)),
    fun _ _ => rfl, ?_⟩
  intro b
  have hsrc : ∀ x : ValueTree, (b.sources.foldl saveSource x).type = x.type := by
    intro x
    rw [saveSource_loop]
    rfl
  simp only [loadBus]
  rw [ValueTree.getChildWithName_getOrCreate_other _ "channel" "sources",
    ValueTree.getChildWithName_getOrCreate_fresh _ "sources",
    ValueTree.getChildWithName_getOrCreate_absent _ "channel"]
  · simp only [saveSource_loop, ValueTree.children_node, ValueTree.children_fresh,
      List.nil_append, load_saved_sources, ValueTree.getProperty_getOrCreate]
    simp [ValueTree.getPropertyOr_setProperty_same, ValueTree.getPropertyOr_setProperty_other,
      ValueTree.getProperty_setProperty_same, ValueTree.getProperty_setProperty_other,
      Var.toFloat, Var.toBool, Var.toInt, Var.toText, Bus.persisted]
  · intro x
    rfl
  · rw [ValueTree.getChildWithName_getOrCreate_other _ "sources" "channel" _ hsrc (by decide)]
    rfl
  · exact hsrc
  · rfl
  · intro x
    rfl
  · decide

theorem updateSoloStates_some (m : Mixer)
    (h : m.channels.length ≤ m.channelSoloBuffer.length) :
    ∃ buf, m.updateSoloStates
      = some { m with soloActive := findSolo m.channels, channelSoloBuffer := buf } := by
  obtain ⟨r, hr, _, _⟩ :=
    writeSoloBuffer_spec (findSolo m.channels) m.channels 0 m.channelSoloBuffer (by omega)
  exact ⟨r, by simp only [updateSoloStates, hr]⟩

/-- Loading what `saveState` wrote: the call completes when the solo vector of
the target covers the saved channels, and the loaded mixer holds the persisted
part of every channel, of every bus and of the master strip. -/
theorem loadState_saveState (m target : Mixer) (state : ValueTree)
    (hcover : m.channels.length ≤ target.channelSoloBuffer.length) :
    ∃ loaded, target.loadState (m.saveState state) = some loaded ∧
      loaded.channels = m.channels.map Channel.persisted ∧
      loaded.buses = m.buses.map Bus.persisted ∧
      loaded.masterChannel =
        { target.masterChannel with
          volume := m.masterChannel.volume, pan := m.masterChannel.pan,
          mute := m.masterChannel.mute, bypass := m.masterChannel.bypass } := by
  obtain ⟨gC, hC1, hC2⟩ := saveChannel_spec
  obtain ⟨gB, hB1, hB2⟩ := saveBus_spec
  have hF1 : ∀ x : ValueTree, m.channels.foldl saveChannel x.removeAllChildren
      = ValueTree.node x.type x.properties (m.channels.map gC) := by
    intro x
    have e : saveChannel = fun n c => n.createChild (gC c) := by
      funext n c
      exact hC1 n c
    rw [e, ValueTree.foldl_createChild]
    rfl
  have hF2 : ∀ x : ValueTree, m.buses.foldl saveBus x.removeAllChildren
      = ValueTree.node x.type x.properties (m.buses.map gB) := by
    intro x
    have e : saveBus = fun n b => n.createChild (gB b) := by
      funext n b
      exact hB1 n b
    rw [e, ValueTree.foldl_createChild]
    rfl
  have hT1 : ∀ x : ValueTree,
      (m.channels.foldl saveChannel x.removeAllChildren).type = x.type := by
    intro x
    rw [hF1]
    rfl
  have hT2 : ∀ x : ValueTree, (m.buses.foldl saveBus x.removeAllChildren).type = x.type := by
    intro x
    rw [hF2]
    rfl
  have hch : ∃ x : ValueTree, (m.saveState state).getChildWithName "channels"
      = some (ValueTree.node x.type x.properties (m.channels.map gC)) := by
    obtain ⟨x, _, hx⟩ := ValueTree.getChildWithName_getOrCreate_same state "channels" _ hT1
    refine ⟨x, ?_⟩
    simp only [saveState]
    rw [ValueTree.getChildWithName_getOrCreate_other _ "master" "channels",
      ValueTree.getChildWithName_getOrCreate_other _ "buses" "channels", hx, hF1]
    · exact hT2
    · decide
    · intro y
      rfl
    · decide
  have hbus : ∃ x : ValueTree, (m.saveState state).getChildWithName "buses"
      = some (ValueTree.node x.type x.properties (m.buses.map gB)) := by
    obtain ⟨x, _, hx⟩ := ValueTree.getChildWithName_getOrCreate_same
      (state.getOrCreateChildWithName "channels"
        (fun channelsNode => m.channels.foldl saveChannel channelsNode.removeAllChildren))
      "buses" _ hT2
    refine ⟨x, ?_⟩
    simp only [saveState]
    rw [ValueTree.getChildWithName_getOrCreate_other _ "master" "buses", hx, hF2]
    · intro y
      rfl
    · decide
  have hmas : ∃ x : ValueTree, (m.saveState state).getChildWithName "master"
      = some ((((x.setProperty "volume" (.double m.masterChannel.volume)).setProperty "pan"
          (.double m.masterChannel.pan)).setProperty "mute"
          (.bool m.masterChannel.mute)).setProperty "bypass" (.bool m.masterChannel.bypass)) := by
    obtain ⟨x, _, hx⟩ := ValueTree.getChildWithName_getOrCreate_same
      ((state.getOrCreateChildWithName "channels"
        (fun channelsNode =>
          m.channels.foldl saveChannel channelsNode.removeAllChildren)).getOrCreateChildWithName
        "buses" (fun busesNode => m.buses.foldl saveBus busesNode.removeAllChildren))
      "master" (fun masterNode =>
        (((masterNode.setProperty "volume" (.double m.masterChannel.volume)).setProperty "pan"
          (.double m.masterChannel.pan)).setProperty "mute"
          (.bool m.masterChannel.mute)).setProperty "bypass" (.bool m.masterChannel.bypass))
      (fun _ => rfl)
    exact ⟨x, hx⟩
  obtain ⟨x1, h1⟩ := hch
  obtain ⟨x2, h2⟩ := hbus
  obtain ⟨x3, h3⟩ := hmas
  simp only [loadState, h1, h2, h3, ValueTree.children_node]
  have hmapC : (m.channels.map gC).map loadChannel = m.channels.map Channel.persisted := by
    rw [List.map_map]
    apply List.map_congr_left
    intro c _
    exact hC2 c
  have hmapB : (m.buses.map gB).map loadBus = m.buses.map Bus.persisted := by
    rw [List.map_map]
    apply List.map_congr_left
    intro b _
    exact hB2 b
  rw [hmapC, hmapB]
  obtain ⟨buf, hbuf⟩ := updateSoloStates_some
    (updateProcessingBuffers
      { target with
        channels := m.channels.map Channel.persisted
        buses := m.buses.map Bus.persisted
        masterChannel :=
          { target.masterChannel with
            volume := m.masterChannel.volume, pan := m.masterChannel.pan,
            mute := m.masterChannel.mute, bypass := m.masterChannel.bypass } })
    (by simpa [updateProcessingBuffers] using hcover)
  simp only [ValueTree.getPropertyOr_setProperty_same,
    ValueTree.getPropertyOr_setProperty_other _ "bypass" "volume" _ _ (by decide),
    ValueTree.getPropertyOr_setProperty_other _ "mute" "volume" _ _ (by decide),
    ValueTree.getPropertyOr_setProperty_other _ "pan" "volume" _ _ (by decide),
    ValueTree.getPropertyOr_setProperty_other _ "bypass" "pan" _ _ (by decide),
    ValueTree.getPropertyOr_setProperty_other _ "mute" "pan" _ _ (by decide),
    ValueTree.getPropertyOr_setProperty_other _ "bypass" "mute" _ _ (by decide),
    Var.toFloat, Var.toBool]
  rw [hbuf]
  exact ⟨_, rfl, rfl, rfl, rfl⟩

end Mixer

/-- C10: save any mixer `m` into any tree and load the result into a mixer with
the same number of channels (whose solo vector covers its channels, as it does
in every state the mixer reaches without undefined behaviour). The load
completes and reproduces, for every channel in order, the volume, pan, mute,
solo, bypass and the ordered sends; for every bus in order, the type, name,
output bus, ordered sources and the strip volume, pan, mute and bypass; and the
master volume, pan, mute and bypass. -/
theorem saveState_loadState_roundtrip (m target : Mixer) (state : ValueTree)
    (hsame : target.channels.length = m.channels.length)
    (hcover : target.channels.length ≤ target.channelSoloBuffer.length) :
    ∃ loaded, target.loadState (m.saveState state) = some loaded ∧
      loaded.channels.map (fun c => (c.volume, c.pan, c.mute, c.solo, c.bypass, c.sends))
        = m.channels.map (fun c => (c.volume, c.pan, c.mute, c.solo, c.bypass, c.sends)) ∧
      loaded.buses.map (fun b => (b.type, b.name, b.outputBus, b.sources, b.channel.volume,
          b.channel.pan, b.channel.mute, b.channel.bypass))
        = m.buses.map (fun b => (b.type, b.name, b.outputBus, b.sources, b.channel.volume,
          b.channel.pan, b.channel.mute, b.channel.bypass)) ∧
      (loaded.masterChannel.volume, loaded.masterChannel.pan, loaded.masterChannel.mute,
          loaded.masterChannel.bypass)
        = (m.masterChannel.volume, m.masterChannel.pan, m.masterChannel.mute,
          m.masterChannel.bypass) := by
  obtain ⟨loaded, h1, h2, h3, h4⟩ :=
    Mixer.loadState_saveState m target state (by rw [← hsame]; exact hcover)
  refine ⟨loaded, h1, ?_, ?_, ?_⟩
  · rw [h2, List.map_map]
    rfl
  · rw [h3, List.map_map]
    rfl
  · rw [h4]

/-- C10, an instance: the mixer with three channels, one aux bus, one send and
master volume 0.8 is saved into an empty tree and loaded into a fresh mixer
bound to a project with three tracks. -/
theorem saveState_loadState_roundtrip_witness :
    ((Mixer.init.setProject (some (Project.mk 1 3))).channels.length
      = exampleMixer.channels.length) ∧
    ((Mixer.init.setProject (some (Project.mk 1 3))).channels.length
      ≤ (Mixer.init.setProject (some (Project.mk 1 3))).channelSoloBuffer.length) ∧
    ∃ loaded, (Mixer.init.setProject (some (Project.mk 1 3))).loadState
        (exampleMixer.saveState (ValueTree.fresh "mixer")) = some loaded ∧
      loaded.channels.map (fun c => (c.volume, c.pan, c.mute, c.solo, c.bypass, c.sends))
        = exampleMixer.channels.map
          (fun c => (c.volume, c.pan, c.mute, c.solo, c.bypass, c.sends)) ∧
      loaded.buses.map (fun b => (b.type, b.name, b.outputBus, b.sources, b.channel.volume,
          b.channel.pan, b.channel.mute, b.channel.bypass))
        = exampleMixer.buses.map (fun b => (b.type, b.name, b.outputBus, b.sources,
          b.channel.volume, b.channel.pan, b.channel.mute, b.channel.bypass)) ∧
      (loaded.masterChannel.volume, loaded.masterChannel.pan, loaded.masterChannel.mute,
          loaded.masterChannel.bypass)
        = (exampleMixer.masterChannel.volume, exampleMixer.masterChannel.pan,
          exampleMixer.masterChannel.mute, exampleMixer.masterChannel.bypass) :=
  ⟨by decide, by decide,
    saveState_loadState_roundtrip exampleMixer (Mixer.init.setProject (some (Project.mk 1 3)))
      (ValueTree.fresh "mixer") (by decide) (by decide)⟩

/-! ## Theorems: CPU load and dropouts -/

theorem wrapInt32_of_range (x : Int) (hlo : -2147483648 ≤ x) (hhi : x ≤ 2147483647) :
    wrapInt32 x = x := by
  unfold wrapInt32
  omega

/-- C11 (counterexample): the xrun counter is an `int`. With the
count at `INT_MAX` = 2147483647 and the default settings (512 samples at
44100 Hz, a budget of about 11.6 ms), a block that took 100 ms is over budget,
and `updateCPUInfo` leaves the count at -2147483648: it did not grow by 1, and
it decreased. -/
theorem updateCPUInfo_xruns_wrap_at_int_max :
    ((512 : ℚ) / 44100) * 1000 < 100 ∧
    (AudioEngine.updateCPUInfo { cpuInfo := { xruns := 2147483647 } } 100).cpuInfo.xruns
      = -2147483648 ∧
    (AudioEngine.updateCPUInfo { cpuInfo := { xruns := 2147483647 } } 100).cpuInfo.xruns
      ≠ 2147483647 + 1 ∧
    (AudioEngine.updateCPUInfo { cpuInfo := { xruns := 2147483647 } } 100).cpuInfo.xruns
      < 2147483647 := by
  have h : (AudioEngine.updateCPUInfo { cpuInfo := { xruns := 2147483647 } } 100).cpuInfo.xruns
      = -2147483648 := by
    unfold AudioEngine.updateCPUInfo
    simp only []
    rw [if_pos (by norm_num)]
    decide
  rw [h]
  exact ⟨by norm_num, rfl, by decide, by decide⟩

/-- C11 (amended): while the xrun count is an `int` below `INT_MAX`,
`updateCPUInfo(processingTimeMs)` adds exactly 1 to it when
`processingTimeMs > bufferTimeMs` (`bufferTimeMs = bufferSize / sampleRate * 1000`)
and leaves it unchanged otherwise, so the count does not decrease; with a
positive budget a processing time of 1.5 times the budget adds exactly 1 and a
processing time within the budget adds 0. -/
theorem updateCPUInfo_counts_xruns (e : AudioEngine) (processingTimeMs : ℚ)
    (hmin : -2147483648 ≤ e.cpuInfo.xruns) (hmax : e.cpuInfo.xruns < 2147483647) :
    (e.updateCPUInfo processingTimeMs).cpuInfo.xruns =
      e.cpuInfo.xruns +
        (if ((e.settings.bufferSize : ℚ) / e.settings.sampleRate) * 1000 < processingTimeMs
          then 1 else 0) ∧
    e.cpuInfo.xruns ≤ (e.updateCPUInfo processingTimeMs).cpuInfo.xruns ∧
    (0 < ((e.settings.bufferSize : ℚ) / e.settings.sampleRate) * 1000 →
      (e.updateCPUInfo
          (3 / 2 * (((e.settings.bufferSize : ℚ) / e.settings.sampleRate) * 1000))).cpuInfo.xruns
        = e.cpuInfo.xruns + 1) ∧
    (processingTimeMs ≤ ((e.settings.bufferSize : ℚ) / e.settings.sampleRate) * 1000 →
      (e.updateCPUInfo processingTimeMs).cpuInfo.xruns = e.cpuInfo.xruns) := by
  have key : ∀ t : ℚ, (e.updateCPUInfo t).cpuInfo.xruns =
      e.cpuInfo.xruns +
        (if ((e.settings.bufferSize : ℚ) / e.settings.sampleRate) * 1000 < t then 1 else 0) := by
    intro t
    unfold AudioEngine.updateCPUInfo
    by_cases h : ((e.settings.bufferSize : ℚ) / e.settings.sampleRate) * 1000 < t
    · simp only [h, if_true, AudioEngine.handleXRun]
      exact wrapInt32_of_range _ (by omega) (by omega)
    · simp only [h, if_false, add_zero]
  refine ⟨key _, ?_, ?_, ?_⟩
  · rw [key]
    split <;> omega
  · intro hpos
    rw [key, if_pos (by linarith)]
  · intro hle
    rw [key, if_neg (not_lt.mpr hle), add_zero]

/-- C11 (amended), an instance: a fresh engine (count 0, budget about 11.6 ms)
counts one xrun for a block of 100 ms and none for a block of 5 ms. -/
theorem updateCPUInfo_counts_xruns_witness :
    (-2147483648 : Int) ≤ ({} : AudioEngine).cpuInfo.xruns ∧
    ({} : AudioEngine).cpuInfo.xruns < 2147483647 ∧
    (AudioEngine.updateCPUInfo {} 100).cpuInfo.xruns = 0 + 1 ∧
    (AudioEngine.updateCPUInfo {} 5).cpuInfo.xruns = 0 := by
  have h1 := (updateCPUInfo_counts_xruns {} 100 (by decide) (by decide)).1
  have h2 := (updateCPUInfo_counts_xruns {} 5 (by decide) (by decide)).2.2.2
    (by norm_num [AudioEngine.settings, Settings.bufferSize, Settings.sampleRate])
  rw [if_pos (by norm_num [AudioEngine.settings, Settings.bufferSize, Settings.sampleRate])] at h1
  exact ⟨by decide, by decide, h1, h2⟩

/-! ## Theorems: engine lifecycle and transport commands -/

namespace AudioEngine

theorem setSize_shape (b : AudioBuffer) (c n : Nat) :
    (b.setSize c n).numChannels = c ∧ (b.setSize c n).size = n := by
  unfold AudioBuffer.setSize
  split
  · exact ⟨rfl, rfl⟩
  · rename_i h
    have h1 : n = b.size := by
      by_contra hc
      exact h (Or.inl hc)
    have h2 : c = b.numChannels := by
      by_contra hc
      exact h (Or.inr hc)
    exact ⟨h2.symm, h1.symm⟩

theorem clear_shape (b : AudioBuffer) :
    b.clear.numChannels = b.numChannels ∧ b.clear.size = b.size := by
  unfold AudioBuffer.clear
  split <;> exact ⟨rfl, rfl⟩

theorem initializeBuffers_fields (e : AudioEngine) :
    e.initializeBuffers.transport = e.transport ∧
    e.initializeBuffers.initialized = e.initialized ∧
    e.initializeBuffers.settings = e.settings ∧
    e.initializeBuffers.inputBuffer.numChannels
      = (max e.settings.inputChannels e.settings.outputChannels).toNat ∧
    e.initializeBuffers.inputBuffer.size = e.settings.bufferSize.toNat ∧
    e.initializeBuffers.outputBuffer.numChannels
      = (max e.settings.inputChannels e.settings.outputChannels).toNat ∧
    e.initializeBuffers.outputBuffer.size = e.settings.bufferSize.toNat := by
  refine ⟨rfl, rfl, rfl, ?_, ?_, ?_, ?_⟩
  · simp only [initializeBuffers, clearBuffers]
    rw [(clear_shape _).1, (setSize_shape _ _ _).1]
  · simp only [initializeBuffers, clearBuffers]
    rw [(clear_shape _).2, (setSize_shape _ _ _).2]
  · simp only [initializeBuffers, clearBuffers]
    rw [(clear_shape _).1, (setSize_shape _ _ _).1]
  · simp only [initializeBuffers, clearBuffers]
    rw [(clear_shape _).2, (setSize_shape _ _ _).2]

theorem settings_eta (s : Settings) :
    { s with sampleRate := s.sampleRate, bufferSize := s.bufferSize } = s := by
  cases s
  rfl

theorem setupAudioDevice_fields (e : AudioEngine) (opened : Option AudioDevice) :
    (e.setupAudioDevice opened).1.transport = e.transport ∧
    (e.setupAudioDevice opened).1.initialized = e.initialized := by
  unfold setupAudioDevice
  split
  · exact ⟨rfl, rfl⟩
  · cases opened with
    | some device => exact ⟨rfl, rfl⟩
    | none => exact ⟨rfl, rfl⟩

/-- After a successful `setupAudioDevice` a device runs, and the stored sample
rate and buffer size are the ones it reports. -/
theorem setupAudioDevice_settings (e : AudioEngine) (opened : Option AudioDevice)
    (hok : (e.setupAudioDevice opened).2 = true) :
    ∃ d, (e.setupAudioDevice opened).1.device = some d ∧
      (e.setupAudioDevice opened).1.settings
        = { e.settings with sampleRate := d.sampleRate, bufferSize := d.bufferSize } := by
  unfold setupAudioDevice at hok ⊢
  split
  · rename_i h
    cases hd : e.device with
    | none => rw [hd] at h; exact absurd h.1 (by decide)
    | some d =>
      rw [hd] at h
      refine ⟨d, rfl, ?_⟩
      have h1 : d.sampleRate = e.settings.sampleRate := Option.some.inj h.2.1
      have h2 : d.bufferSize = e.settings.bufferSize := Option.some.inj h.2.2
      rw [h1, h2]
  · rename_i h
    rw [if_neg h] at hok
    cases opened with
    | some device =>
      refine ⟨device, rfl, ?_⟩
      simp only [audioDeviceAboutToStart]
      exact (initializeBuffers_fields _).2.2.1
    | none => cases hok

theorem play_fields (e : AudioEngine) :
    e.play.initialized = e.initialized ∧ e.play.settings = e.settings ∧
    e.play.inputBuffer = e.inputBuffer ∧ e.play.outputBuffer = e.outputBuffer ∧
    e.play.transport.isRecording = e.transport.isRecording ∧
    e.play.transport.isPlaying = (e.initialized || e.transport.isPlaying) := by
  unfold play
  split
  · rename_i h
    refine ⟨rfl, rfl, rfl, rfl, rfl, ?_⟩
    rcases h with h | h
    · cases hp : e.transport.isPlaying <;> simp [h]
    · simp [h]
  · rename_i h
    refine ⟨rfl, rfl, rfl, rfl, rfl, ?_⟩
    have h1 : e.initialized = true := by
      cases hi : e.initialized
      · exact absurd (Or.inl hi) h
      · rfl
    simp [sendChangeMessage, h1]

theorem stop_fields (e : AudioEngine) :
    e.stop.initialized = e.initialized ∧ e.stop.settings = e.settings ∧
    e.stop.inputBuffer = e.inputBuffer ∧ e.stop.outputBuffer = e.outputBuffer ∧
    e.stop.transport.isPlaying = (!e.initialized && e.transport.isPlaying) ∧
    e.stop.transport.isRecording
      = ((!e.initialized || !e.transport.isPlaying) && e.transport.isRecording) := by
  unfold stop
  split
  · rename_i h
    refine ⟨rfl, rfl, rfl, rfl, ?_, ?_⟩
    · rcases h with h | h
      · simp [h]
      · simp [h]
    · rcases h with h | h
      · simp [h]
      · simp [h]
  · rename_i h
    have h1 : e.initialized = true := by
      cases hi : e.initialized
      · exact absurd (Or.inl hi) h
      · rfl
    have h2 : e.transport.isPlaying = true := by
      cases hp : e.transport.isPlaying
      · exact absurd (Or.inr hp) h
      · rfl
    refine ⟨rfl, rfl, rfl, rfl, ?_, ?_⟩
    · simp [sendChangeMessage, h1]
    · simp [sendChangeMessage, h1, h2]

end AudioEngine

namespace AudioEngine

theorem record_fields (e : AudioEngine) (hi : e.initialized = true) :
    e.record.transport.isRecording = (!e.transport.isRecording) ∧
    e.record.transport.isPlaying = (e.transport.isPlaying || !e.transport.isRecording) := by
  unfold record
  rw [if_neg (by simp [hi])]
  simp only []
  by_cases hc : (!e.transport.isRecording) = true ∧ e.transport.isPlaying = false
  · rw [if_pos hc]
    have hp := play_fields
      { e with transport := { e.transport with isRecording := !e.transport.isRecording } }
    refine ⟨?_, ?_⟩
    · show (play _).transport.isRecording = _
      rw [hp.2.2.2.2.1]
    · show (play _).transport.isPlaying = _
      rw [hp.2.2.2.2.2]
      simp [hi, hc.1, hc.2]
  · rw [if_neg hc]
    refine ⟨rfl, ?_⟩
    show e.transport.isPlaying = _
    cases hp : e.transport.isPlaying
    · cases hr : e.transport.isRecording
      · exact absurd ⟨by simp [hr], hp⟩ hc
      · rfl
    · rfl

theorem record_not_initialized (e : AudioEngine) (hi : e.initialized = false) :
    e.record = e := by
  unfold record
  rw [if_pos hi]

theorem play_preserves (e : AudioEngine) (h : e.RecordingImpliesPlaying) :
    e.play.RecordingImpliesPlaying := by
  intro hr
  have hp := play_fields e
  rw [hp.2.2.2.2.1] at hr
  rw [hp.2.2.2.2.2, h hr]
  simp

theorem stop_preserves (e : AudioEngine) (h : e.RecordingImpliesPlaying) :
    e.stop.RecordingImpliesPlaying := by
  intro hr
  have hs := stop_fields e
  rw [hs.2.2.2.2.2] at hr
  rw [hs.2.2.2.2.1]
  have h1 : e.transport.isRecording = true := by
    cases hx : e.transport.isRecording
    · rw [hx] at hr
      simp at hr
    · rfl
  have h2 := h h1
  rw [h1, h2] at hr
  rw [h2]
  simpa using hr

theorem record_preserves (e : AudioEngine) (h : e.RecordingImpliesPlaying) :
    e.record.RecordingImpliesPlaying := by
  cases hi : e.initialized
  · rw [record_not_initialized e hi]
    exact h
  · intro hr
    obtain ⟨h1, h2⟩ := record_fields e hi
    rw [h1] at hr
    rw [h2]
    cases hx : e.transport.isRecording
    · simp
    · rw [hx] at hr
      simp at hr

/-- A step that keeps the two transport flags keeps the invariant. -/
theorem preserves_of_flags (e e1 : AudioEngine)
    (hp : e1.transport.isPlaying = e.transport.isPlaying)
    (hr : e1.transport.isRecording = e.transport.isRecording)
    (h : e.RecordingImpliesPlaying) : e1.RecordingImpliesPlaying := by
  intro h1
  rw [hp]
  exact h (by rw [← hr]; exact h1)

theorem initializeEngine_preserves (e : AudioEngine) (opened : Option AudioDevice)
    (h : e.RecordingImpliesPlaying) :
    (e.initializeEngine opened).1.RecordingImpliesPlaying := by
  unfold initializeEngine
  split
  · exact h
  · split
    · exact preserves_of_flags e _ (by rw [(setupAudioDevice_fields e opened).1])
        (by rw [(setupAudioDevice_fields e opened).1]) h
    · refine preserves_of_flags e _ ?_ ?_ h
      · show (initializeBuffers _).transport.isPlaying = _
        rw [(initializeBuffers_fields _).1, (setupAudioDevice_fields e opened).1]
      · show (initializeBuffers _).transport.isRecording = _
        rw [(initializeBuffers_fields _).1, (setupAudioDevice_fields e opened).1]

theorem shutdown_preserves (e : AudioEngine) (h : e.RecordingImpliesPlaying) :
    e.shutdown.RecordingImpliesPlaying := by
  unfold shutdown
  split
  · exact h
  · exact preserves_of_flags e.stop _ rfl rfl (stop_preserves e h)

theorem applySettings_preserves (e : AudioEngine) (newSettings : Settings) (opened : Option AudioDevice)
    (h : e.RecordingImpliesPlaying) :
    (e.applySettings newSettings opened).1.RecordingImpliesPlaying := by
  unfold applySettings
  split
  · exact h
  · simp only []
    have h1 : (if e.transport.isPlaying = true then e.stop else e).RecordingImpliesPlaying := by
      split
      · exact stop_preserves e h
      · exact h
    generalize (if e.transport.isPlaying = true then e.stop else e) = e1 at h1 ⊢
    have h2 : AudioEngine.RecordingImpliesPlaying { e1 with settings := newSettings } :=
      preserves_of_flags _ _ rfl rfl h1
    generalize ({ e1 with settings := newSettings } : AudioEngine) = e2 at h2 ⊢
    by_cases hs : (e2.setupAudioDevice opened).2 = false
    · rw [if_pos hs]
      exact preserves_of_flags _ _ (by rw [(setupAudioDevice_fields _ opened).1])
        (by rw [(setupAudioDevice_fields _ opened).1]) h2
    · rw [if_neg hs]
      have h3 : (e2.setupAudioDevice opened).1.initializeBuffers.RecordingImpliesPlaying := by
        refine preserves_of_flags _ _ ?_ ?_ h2
        · rw [(initializeBuffers_fields _).1, (setupAudioDevice_fields _ opened).1]
        · rw [(initializeBuffers_fields _).1, (setupAudioDevice_fields _ opened).1]
      refine preserves_of_flags _ _ rfl rfl ?_
      split
      · exact play_preserves _ h3
      · exact h3

theorem setProject_preserves (e : AudioEngine) (project : Option Project)
    (projectSettings : ProjectSettings) (h : e.RecordingImpliesPlaying) :
    (e.setProject project projectSettings).RecordingImpliesPlaying := by
  unfold RecordingImpliesPlaying at h ⊢
  cases hp : e.transport.isPlaying <;> cases hi : e.initialized <;>
    cases hpr : project.isSome <;> cases hr : e.transport.isRecording <;>
    simp [setProject, stop, play, sendChangeMessage, hp, hi, hpr, hr] at h ⊢

theorem updateTransportPosition_flags (e : AudioEngine) (numSamples : Int) :
    (e.updateTransportPosition numSamples).transport.isPlaying = e.transport.isPlaying ∧
    (e.updateTransportPosition numSamples).transport.isRecording = e.transport.isRecording := by
  unfold updateTransportPosition
  split
  · exact ⟨rfl, rfl⟩
  · simp only []
    split <;> split <;> exact ⟨rfl, rfl⟩

theorem updateCPUInfo_flags (e : AudioEngine) (t : ℚ) :
    (e.updateCPUInfo t).transport = e.transport := by
  unfold updateCPUInfo
  simp only []
  split <;> rfl

theorem call_preserves (e : AudioEngine) (c : EngineCall) (h : e.RecordingImpliesPlaying) :
    (e.call c).RecordingImpliesPlaying := by
  cases c with
  | initializeEngine d => exact initializeEngine_preserves e d h
  | shutdown => exact shutdown_preserves e h
  | applySettings s d => exact applySettings_preserves e s d h
  | setProject p ps => exact setProject_preserves e p ps h
  | play => exact play_preserves e h
  | stop => exact stop_preserves e h
  | record => exact record_preserves e h
  | setPosition t => exact preserves_of_flags e _ rfl rfl h
  | setLoopPoints a b => exact preserves_of_flags e _ rfl rfl h
  | setLooping b => exact preserves_of_flags e _ rfl rfl h
  | setBpm b => exact preserves_of_flags e _ rfl rfl h
  | setTimeSignature n d => exact preserves_of_flags e _ rfl rfl h
  | updateTransportPosition n =>
    exact preserves_of_flags e _ (updateTransportPosition_flags e n).1
      (updateTransportPosition_flags e n).2 h
  | updateCPUInfo t =>
    exact preserves_of_flags e _ (by show (e.updateCPUInfo t).transport.isPlaying = _
                                     rw [updateCPUInfo_flags])
      (by show (e.updateCPUInfo t).transport.isRecording = _
          rw [updateCPUInfo_flags]) h

theorem reachable_recordingImpliesPlaying (e : AudioEngine) (h : e.Reachable) :
    e.RecordingImpliesPlaying := by
  induction h with
  | init => intro hr; cases hr
  | step e c _ ih => exact call_preserves e c ih

end AudioEngine

/-- C18: on an initialized engine in a reachable state, `record()` negates
`isRecording`; when that turns recording on while the transport is stopped it
also sets `isPlaying`, and it never clears `isPlaying`; after `stop()` both
`isPlaying` and `isRecording` are false. -/
theorem record_toggles_and_stop_clears (e : AudioEngine) (hreach : e.Reachable)
    (hinit : e.initialized = true) :
    e.record.transport.isRecording = (!e.transport.isRecording) ∧
    (e.transport.isRecording = false → e.transport.isPlaying = false →
      e.record.transport.isPlaying = true) ∧
    (e.transport.isPlaying = true → e.record.transport.isPlaying = true) ∧
    e.stop.transport.isPlaying = false ∧
    e.stop.transport.isRecording = false := by
  obtain ⟨h1, h2⟩ := AudioEngine.record_fields e hinit
  have hinv := AudioEngine.reachable_recordingImpliesPlaying e hreach
  have hs := AudioEngine.stop_fields e
  refine ⟨h1, ?_, ?_, ?_, ?_⟩
  · intro hr _
    rw [h2, hr]
    simp
  · intro hp
    rw [h2, hp]
    simp
  · rw [hs.2.2.2.2.1, hinit]
    simp
  · rw [hs.2.2.2.2.2, hinit]
    cases hr : e.transport.isRecording
    · simp
    · rw [hinv hr]
      simp

/-- C18, an instance: the engine after `initialize()` with a device that opens,
where `record()` starts recording and playback and `stop()` clears both. -/
theorem record_toggles_and_stop_clears_witness :
    (AudioEngine.call {} (EngineCall.initializeEngine (some exampleDevice))).Reachable ∧
    (AudioEngine.call {} (EngineCall.initializeEngine (some exampleDevice))).initialized = true ∧
    (AudioEngine.call {} (EngineCall.initializeEngine (some exampleDevice))).record.transport.isRecording
      = (!(AudioEngine.call {} (EngineCall.initializeEngine (some exampleDevice))).transport.isRecording) ∧
    ((AudioEngine.call {} (EngineCall.initializeEngine (some exampleDevice))).transport.isRecording = false →
      (AudioEngine.call {} (EngineCall.initializeEngine (some exampleDevice))).transport.isPlaying = false →
      (AudioEngine.call {} (EngineCall.initializeEngine (some exampleDevice))).record.transport.isPlaying
        = true) ∧
    ((AudioEngine.call {} (EngineCall.initializeEngine (some exampleDevice))).transport.isPlaying = true →
      (AudioEngine.call {} (EngineCall.initializeEngine (some exampleDevice))).record.transport.isPlaying
        = true) ∧
    (AudioEngine.call {} (EngineCall.initializeEngine (some exampleDevice))).stop.transport.isPlaying = false ∧
    (AudioEngine.call {} (EngineCall.initializeEngine (some exampleDevice))).stop.transport.isRecording
      = false :=
  ⟨AudioEngine.Reachable.step _ _ AudioEngine.Reachable.init, by decide,
    record_toggles_and_stop_clears _
      (AudioEngine.Reachable.step _ _ AudioEngine.Reachable.init) (by decide)⟩

/-- C19 (the code at the failing input): an initialized, playing engine with
the default settings (44100 Hz, 512 samples) is asked for 48000 Hz and 256
samples, and the device fails to open. `applySettings` returns false, but the
stored settings are the new ones, playback has been stopped and is not
resumed, and the buffers still have the old length of 512 samples. -/
theorem applySettings_failure_leaves_new_settings :
    (((AudioEngine.initializeEngine {} (some exampleDevice)).1.play).settings.sampleRate = 44100) ∧
    (((AudioEngine.initializeEngine {} (some exampleDevice)).1.play).transport.isPlaying = true) ∧
    (((AudioEngine.initializeEngine {} (some exampleDevice)).1.play).inputBuffer.size = 512) ∧
    ((((AudioEngine.initializeEngine {} (some exampleDevice)).1.play).applySettings
        { sampleRate := 48000, bufferSize := 256 } none).2 = false) ∧
    ((((AudioEngine.initializeEngine {} (some exampleDevice)).1.play).applySettings
        { sampleRate := 48000, bufferSize := 256 } none).1.settings
      = { sampleRate := 48000, bufferSize := 256 }) ∧
    ((((AudioEngine.initializeEngine {} (some exampleDevice)).1.play).applySettings
        { sampleRate := 48000, bufferSize := 256 } none).1.transport.isPlaying = false) ∧
    ((((AudioEngine.initializeEngine {} (some exampleDevice)).1.play).applySettings
        { sampleRate := 48000, bufferSize := 256 } none).1.inputBuffer.size = 512) := by
  refine ⟨?_, ?_, ?_, ?_, ?_, ?_, ?_⟩ <;> decide

namespace AudioEngine

theorem settings_eq_iff (a b : Settings) :
    a = b ↔
      (a.sampleRate = b.sampleRate ∧ a.bufferSize = b.bufferSize ∧
        a.inputChannels = b.inputChannels ∧ a.outputChannels = b.outputChannels ∧
        a.inputDevice = b.inputDevice ∧ a.outputDevice = b.outputDevice ∧
        a.useAsioDriver = b.useAsioDriver) := by
  constructor
  · intro h
    subst h
    exact ⟨rfl, rfl, rfl, rfl, rfl, rfl, rfl⟩
  · intro h
    cases a
    cases b
    simp only [Settings.mk.injEq]
    exact h

theorem play_device (e : AudioEngine) : e.play.device = e.device := by
  unfold play
  split <;> rfl

/-- The result of `applySettings` when the new settings differ and the call
reports success. -/
theorem applySettings_changed (e : AudioEngine) (newSettings : Settings)
    (opened : Option AudioDevice) (hne : newSettings ≠ e.settings)
    (hok : (e.applySettings newSettings opened).2 = true) :
    ∃ d : AudioDevice,
      (e.applySettings newSettings opened).1.device = some d ∧
      (e.applySettings newSettings opened).1.settings
        = { newSettings with sampleRate := d.sampleRate, bufferSize := d.bufferSize } ∧
      (e.applySettings newSettings opened).1.inputBuffer.numChannels
        = (max newSettings.inputChannels newSettings.outputChannels).toNat ∧
      (e.applySettings newSettings opened).1.inputBuffer.size = d.bufferSize.toNat ∧
      (e.applySettings newSettings opened).1.outputBuffer.numChannels
        = (max newSettings.inputChannels newSettings.outputChannels).toNat ∧
      (e.applySettings newSettings opened).1.outputBuffer.size = d.bufferSize.toNat ∧
      (e.applySettings newSettings opened).1.transport.isPlaying
        = e.transport.isPlaying := by
  have hne2 := fun h => hne ((settings_eq_iff newSettings e.settings).mpr h)
  unfold applySettings at hok ⊢
  rw [if_neg hne2] at hok ⊢
  simp only [] at hok ⊢
  have hflag : (if e.transport.isPlaying = true then e.stop else e).transport.isPlaying
        = (!e.initialized && e.transport.isPlaying) ∧
      (if e.transport.isPlaying = true then e.stop else e).initialized = e.initialized := by
    split
    · exact ⟨(stop_fields e).2.2.2.2.1, (stop_fields e).1⟩
    · rename_i hp
      have : e.transport.isPlaying = false := by
        cases hx : e.transport.isPlaying
        · rfl
        · exact absurd hx hp
      exact ⟨by simp [this], rfl⟩
  generalize (if e.transport.isPlaying = true then e.stop else e) = e1 at hflag hok ⊢
  have h2 : ((AudioEngine.setupAudioDevice { e1 with settings := newSettings } opened).2 = true →
        ∃ d, (AudioEngine.setupAudioDevice { e1 with settings := newSettings }
            opened).1.device = some d ∧
          (AudioEngine.setupAudioDevice { e1 with settings := newSettings } opened).1.settings
            = { newSettings with sampleRate := d.sampleRate, bufferSize := d.bufferSize }) ∧
      (AudioEngine.setupAudioDevice { e1 with settings := newSettings }
        opened).1.transport = e1.transport ∧
      (AudioEngine.setupAudioDevice { e1 with settings := newSettings }
        opened).1.initialized = e1.initialized :=
    ⟨setupAudioDevice_settings _ opened, (setupAudioDevice_fields _ opened).1,
      (setupAudioDevice_fields _ opened).2⟩
  generalize (AudioEngine.setupAudioDevice { e1 with settings := newSettings } opened)
    = r at h2 hok ⊢
  by_cases hs : r.2 = false
  · rw [if_pos hs] at hok
    cases hok
  · rw [if_neg hs]
    have hs2 : r.2 = true := by
      cases hx : r.2
      · exact absurd hx hs
      · rfl
    obtain ⟨d, hdev, hset⟩ := h2.1 hs2
    have hb := initializeBuffers_fields r.1
    rw [hset] at hb
    obtain ⟨hb1, hb2, hb3, hb4, hb5, hb6, hb7⟩ := hb
    have hbd : r.1.initializeBuffers.device = some d := hdev
    refine ⟨d, ?_⟩
    by_cases hp : e.transport.isPlaying = true
    · simp only [hp, if_true]
      have hpl := play_fields r.1.initializeBuffers
      refine ⟨?_, ?_, ?_, ?_, ?_, ?_, ?_⟩
      · change r.1.initializeBuffers.play.device = _
        rw [play_device, hbd]
      · change r.1.initializeBuffers.play.settings = _
        rw [hpl.2.1, hb3]
      · change r.1.initializeBuffers.play.inputBuffer.numChannels = _
        rw [hpl.2.2.1, hb4]
      · change r.1.initializeBuffers.play.inputBuffer.size = _
        rw [hpl.2.2.1, hb5]
      · change r.1.initializeBuffers.play.outputBuffer.numChannels = _
        rw [hpl.2.2.2.1, hb6]
      · change r.1.initializeBuffers.play.outputBuffer.size = _
        rw [hpl.2.2.2.1, hb7]
      · change r.1.initializeBuffers.play.transport.isPlaying = _
        rw [hpl.2.2.2.2.2, hb2, hb1, h2.2.2, h2.2.1, hflag.1, hflag.2, hp]
        cases e.initialized <;> rfl
    · have hp2 : e.transport.isPlaying = false := by
        cases hx : e.transport.isPlaying
        · rfl
        · exact absurd hx hp
      simp only [hp2, Bool.false_eq_true, if_false]
      refine ⟨hbd, hb3, hb4, hb5, hb6, hb7, ?_⟩
      change r.1.initializeBuffers.transport.isPlaying = _
      rw [hb1, h2.2.1, hflag.1, hp2]
      simp

end AudioEngine

/-- C20 (counterexample): an initialized, playing engine with the
default settings (44100 Hz, 512 samples) is asked for 48000 Hz and 256 samples,
and the device that opens runs at 44100 Hz with 512 samples. `applySettings`
returns true, but the stored settings are not the requested ones: they hold
the sample rate and the buffer size of the device, and the buffers have 512
samples, not 256. -/
theorem applySettings_success_stores_device_values :
    ((((AudioEngine.initializeEngine {} (some exampleDevice)).1.play
        ).applySettings { sampleRate := 48000, bufferSize := 256 }
        (some exampleDevice)).2 = true) ∧
    ((((AudioEngine.initializeEngine {} (some exampleDevice)).1.play
        ).applySettings { sampleRate := 48000, bufferSize := 256 }
        (some exampleDevice)).1.settings
      ≠ { sampleRate := 48000, bufferSize := 256 }) ∧
    ((((AudioEngine.initializeEngine {} (some exampleDevice)).1.play
        ).applySettings { sampleRate := 48000, bufferSize := 256 }
        (some exampleDevice)).1.settings.sampleRate = 44100) ∧
    ((((AudioEngine.initializeEngine {} (some exampleDevice)).1.play
        ).applySettings { sampleRate := 48000, bufferSize := 256 }
        (some exampleDevice)).1.settings.bufferSize = 512) ∧
    ((((AudioEngine.initializeEngine {} (some exampleDevice)).1.play
        ).applySettings { sampleRate := 48000, bufferSize := 256 }
        (some exampleDevice)).1.inputBuffer.getNumSamples
      = 512) := by
  refine ⟨?_, ?_, ?_, ?_, ?_⟩ <;> decide

/-- C20 (amended): when `applySettings(newSettings)` reports success, either the
new settings equal the stored ones and the engine is exactly as before (no
state change, no notification), or afterwards a device runs, the stored
settings are `newSettings` with the sample rate and the buffer size that this
device reports (so they are `newSettings` itself when the device runs at the
requested rate and size), the input and the output buffer each have
`max(inputChannels, outputChannels)` channels of as many samples as the buffer
size of the device, and `isPlaying` has the value it had before the call. -/
theorem applySettings_success (e : AudioEngine) (newSettings : Settings)
    (opened : Option AudioDevice)
    (hok : (e.applySettings newSettings opened).2 = true) :
    (newSettings = e.settings → (e.applySettings newSettings opened).1 = e) ∧
    (newSettings ≠ e.settings →
      ∃ d : AudioDevice,
        (e.applySettings newSettings opened).1.device = some d ∧
        (e.applySettings newSettings opened).1.settings
          = { newSettings with sampleRate := d.sampleRate, bufferSize := d.bufferSize } ∧
        (d.sampleRate = newSettings.sampleRate → d.bufferSize = newSettings.bufferSize →
          (e.applySettings newSettings opened).1.settings = newSettings) ∧
        (e.applySettings newSettings opened).1.inputBuffer.getNumChannels
          = (max newSettings.inputChannels newSettings.outputChannels).toNat ∧
        (e.applySettings newSettings opened).1.inputBuffer.getNumSamples
          = d.bufferSize.toNat ∧
        (e.applySettings newSettings opened).1.outputBuffer.getNumChannels
          = (max newSettings.inputChannels newSettings.outputChannels).toNat ∧
        (e.applySettings newSettings opened).1.outputBuffer.getNumSamples
          = d.bufferSize.toNat ∧
        (e.applySettings newSettings opened).1.transport.isPlaying
          = e.transport.isPlaying) := by
  constructor
  · intro heq
    unfold AudioEngine.applySettings
    rw [if_pos ((AudioEngine.settings_eq_iff newSettings e.settings).mp heq)]
  · intro hne
    obtain ⟨d, h1, h2, h3, h4, h5, h6, h7⟩ :=
      AudioEngine.applySettings_changed e newSettings opened hne hok
    refine ⟨d, h1, h2, ?_, h3, h4, h5, h6, h7⟩
    intro hr hb
    rw [h2, hr, hb]

/-- C20 (amended), an instance: an initialized, playing engine with the default
settings is given 48000 Hz, 256 samples, 4 inputs and 2 outputs, and the
device opens at 48000 Hz with 128 samples. -/
theorem applySettings_success_witness :
    ((((AudioEngine.initializeEngine {} (some exampleDevice)).1.play
        ).applySettings { sampleRate := 48000, bufferSize := 256, inputChannels := 4 }
        (some { sampleRate := 48000, bufferSize := 128 })).2 = true) ∧
    ∃ d : AudioDevice,
      ((((AudioEngine.initializeEngine {} (some exampleDevice)).1.play
          ).applySettings { sampleRate := 48000, bufferSize := 256, inputChannels := 4 }
          (some { sampleRate := 48000, bufferSize := 128 })).1.device = some d) ∧
      ((((AudioEngine.initializeEngine {} (some exampleDevice)).1.play
          ).applySettings { sampleRate := 48000, bufferSize := 256, inputChannels := 4 }
          (some { sampleRate := 48000, bufferSize := 128 })).1.settings
        = { sampleRate := d.sampleRate, bufferSize := d.bufferSize, inputChannels := 4 }) ∧
      ((((AudioEngine.initializeEngine {} (some exampleDevice)).1.play
          ).applySettings { sampleRate := 48000, bufferSize := 256, inputChannels := 4 }
          (some { sampleRate := 48000, bufferSize := 128 })).1.inputBuffer.getNumChannels = 4) ∧
      ((((AudioEngine.initializeEngine {} (some exampleDevice)).1.play
          ).applySettings { sampleRate := 48000, bufferSize := 256, inputChannels := 4 }
          (some { sampleRate := 48000, bufferSize := 128 })).1.inputBuffer.getNumSamples
        = d.bufferSize.toNat) ∧
      ((((AudioEngine.initializeEngine {} (some exampleDevice)).1.play
          ).applySettings { sampleRate := 48000, bufferSize := 256, inputChannels := 4 }
          (some { sampleRate := 48000, bufferSize := 128 })).1.transport.isPlaying = true) := by
  obtain ⟨d, h1, h2, _, h4, h5, _, _, h8⟩ :=
    (applySettings_success
      ((AudioEngine.initializeEngine {} (some exampleDevice)).1.play)
      { sampleRate := 48000, bufferSize := 256, inputChannels := 4 }
      (some { sampleRate := 48000, bufferSize := 128 }) (by decide)).2 (by decide)
  exact ⟨by decide, d, h1, h2, h4, h5, h8⟩

/-! ## Theorems: quantisation -/

theorem stdRound_abs_sub_le (x : ℚ) : |(stdRound x : ℚ) - x| ≤ 1 / 2 := by
  unfold stdRound
  split
  · have h1 := Int.floor_le (x + 1 / 2)
    have h2 := Int.lt_floor_add_one (x + 1 / 2)
    rw [abs_le]
    constructor <;> linarith
  · have h1 := Int.floor_le (-x + 1 / 2)
    have h2 := Int.lt_floor_add_one (-x + 1 / 2)
    rw [abs_le]
    push_cast
    constructor <;> linarith

/-! ### The rounding of `double` arithmetic -/

theorem nearestEven_of_lt (x : ℚ) (m : Int) (h1 : (m : ℚ) - 1 / 2 < x) (h2 : x < m + 1 / 2) :
    nearestEven x = m := by
  unfold nearestEven
  have hf : ⌊x + 1 / 2⌋ = m := by
    rw [Int.floor_eq_iff]
    constructor <;> linarith
  rw [if_neg, hf]
  intro hc
  have h3 := Int.floor_le x
  have h4 := Int.lt_floor_add_one x
  have h6 : ((m : ℚ) - 1) < ⌊x⌋ := by linarith
  have h7 : (⌊x⌋ : ℚ) < m := by linarith
  have h8 : m - 1 < ⌊x⌋ := by exact_mod_cast h6
  have h9 : ⌊x⌋ < m := by exact_mod_cast h7
  omega

/-- A tie goes to the even neighbour. -/
theorem nearestEven_tie (x : ℚ) (f : Int) (h : x = f + 1 / 2) :
    nearestEven x = if f % 2 = 0 then f else f + 1 := by
  have hf : ⌊x⌋ = f := by
    rw [Int.floor_eq_iff]
    constructor <;> linarith
  unfold nearestEven
  rw [hf, if_pos (by linarith)]

theorem nearestEven_abs_sub_le (x : ℚ) : |(nearestEven x : ℚ) - x| ≤ 1 / 2 := by
  have h1 := Int.floor_le x
  have h2 := Int.lt_floor_add_one x
  unfold nearestEven
  split
  · rename_i ht
    split
    · rw [abs_le]
      constructor <;> linarith
    · rw [abs_le]
      push_cast
      constructor <;> linarith
  · have h3 := Int.floor_le (x + 1 / 2)
    have h4 := Int.lt_floor_add_one (x + 1 / 2)
    rw [abs_le]
    constructor <;> linarith

theorem doubleSpacing_pos (x : ℚ) : 0 < doubleSpacing x := by
  unfold doubleSpacing
  positivity

theorem log_eq_of_bounds (x : ℚ) (e : Int) (h1 : (2 : ℚ) ^ e ≤ |x|)
    (h2 : |x| < (2 : ℚ) ^ (e + 1)) : Int.log 2 |x| = e := by
  have hpos : 0 < |x| := lt_of_lt_of_le (by positivity) h1
  have a : e ≤ Int.log 2 |x| :=
    (Int.zpow_le_iff_le_log (by norm_num) hpos).mp (by exact_mod_cast h1)
  have b : Int.log 2 |x| < e + 1 :=
    (Int.lt_zpow_iff_log_lt (by norm_num) hpos).mp (by exact_mod_cast h2)
  omega

theorem doubleSpacing_eq (x : ℚ) (e : Int) (he : -1022 ≤ e) (h1 : (2 : ℚ) ^ e ≤ |x|)
    (h2 : |x| < (2 : ℚ) ^ (e + 1)) : doubleSpacing x = (2 : ℚ) ^ (e - 52) := by
  unfold doubleSpacing
  rw [log_eq_of_bounds x e h1 h2, max_eq_left he]

/-- Evaluation of `roundToDouble` at a positive number in the normal range. -/
theorem roundToDouble_of_pos (x : ℚ) (e m : Int) (he : -1022 ≤ e) (h1 : (2 : ℚ) ^ e ≤ x)
    (h2 : x < (2 : ℚ) ^ (e + 1)) (hm : nearestEven (x / (2 : ℚ) ^ (e - 52)) = m) :
    roundToDouble x = (m : ℚ) * (2 : ℚ) ^ (e - 52) := by
  have hx : 0 < x := lt_of_lt_of_le (by positivity) h1
  unfold roundToDouble
  rw [doubleSpacing_eq x e he (by rw [abs_of_pos hx]; exact h1) (by rw [abs_of_pos hx]; exact h2),
    hm]

/-- Evaluation of `roundToDouble` at a negative number in the normal range. -/
theorem roundToDouble_of_neg (x : ℚ) (e m : Int) (he : -1022 ≤ e) (h1 : (2 : ℚ) ^ e ≤ -x)
    (h2 : -x < (2 : ℚ) ^ (e + 1)) (hm : nearestEven (x / (2 : ℚ) ^ (e - 52)) = m) :
    roundToDouble x = (m : ℚ) * (2 : ℚ) ^ (e - 52) := by
  have hx : x < 0 := by
    have : (0 : ℚ) < 2 ^ e := by positivity
    linarith
  unfold roundToDouble
  rw [doubleSpacing_eq x e he (by rw [abs_of_neg hx]; exact h1) (by rw [abs_of_neg hx]; exact h2),
    hm]

theorem stdRound_of_bounds (x : ℚ) (n : Int) (h0 : 0 ≤ x) (h1 : (n : ℚ) ≤ x + 1 / 2)
    (h2 : x + 1 / 2 < n + 1) : stdRound x = n := by
  unfold stdRound
  rw [if_pos h0, Int.floor_eq_iff]
  exact ⟨h1, h2⟩

/-- C16: `shouldProcessMessage` is true exactly when the message is a note-on/off,
a controller, a program change or a pitch wheel message, and channel filtering
is off or bit `channel - 1` of `activeChannels` is set, and note filtering is
off or the message is not a note message or bit `noteNumber` of `activeNotes`
is set; a message it rejects leaves the sequencer as it was, so it is neither
added to the thru input buffer nor recorded. -/
theorem shouldProcessMessage_iff (s : MIDISequencer) (message : MidiMessage) :
    (s.shouldProcessMessage message = true ↔
      (message.isNoteOnOrOff = true ∨ message.isController = true ∨
        message.isProgramChange = true ∨ message.isPitchWheel = true) ∧
      (s.recordSettings.filterChannels = false ∨
        s.recordSettings.activeChannels.getBit (message.getChannel - 1) = true) ∧
      (s.recordSettings.filterNotes = false ∨ message.isNoteOnOrOff = false ∨
        s.recordSettings.activeNotes.getBit message.getNoteNumber = true)) ∧
    (s.shouldProcessMessage message = false →
      s.handleIncomingMidiMessage message = s ∧
      (s.handleIncomingMidiMessage message).inputBuffer = s.inputBuffer ∧
      (s.handleIncomingMidiMessage message).recordingSequence = s.recordingSequence) := by
  constructor
  · unfold MIDISequencer.shouldProcessMessage
    cases message.isNoteOnOrOff <;> cases message.isController <;>
      cases message.isProgramChange <;> cases message.isPitchWheel <;>
      cases s.recordSettings.filterChannels <;>
      cases s.recordSettings.activeChannels.getBit (message.getChannel - 1) <;>
      cases s.recordSettings.filterNotes <;>
      cases s.recordSettings.activeNotes.getBit message.getNoteNumber <;> simp
  · intro h
    have e : s.handleIncomingMidiMessage message = s := by
      unfold MIDISequencer.handleIncomingMidiMessage
      rw [if_pos h]
    rw [e]
    exact ⟨rfl, rfl, rfl⟩

theorem floor_le_roundToInt (x : ℚ) : ⌊x⌋ ≤ roundToInt x := by
  unfold roundToInt
  split
  · split <;> omega
  · exact Int.floor_mono (by linarith)

theorem floatValueToMidiByte_of_one_le (v : ℚ) (h : 1 ≤ v) :
    MidiMessage.floatValueToMidiByte v = 127 := by
  have h1 : (127 : Int) ≤ ⌊v * 127⌋ := by
    rw [Int.le_floor]
    push_cast
    linarith
  have h2 := floor_le_roundToInt (v * 127)
  unfold MidiMessage.floatValueToMidiByte jlimitInt
  rw [if_neg (by omega)]
  split
  · rfl
  · have : roundToInt (v * 127) = 127 := by omega
    rw [this]
    rfl

/-- Every note-on whose processed velocity is at least 1 is recorded with
velocity 127. -/
theorem recordedMessage_velocity_saturates (s : MIDISequencer) (m : MidiMessage) (time : ℚ)
    (hon : m.isNoteOn = true) (hlen : 2 < m.data.length)
    (hv : 1 ≤ s.processVelocity m.getVelocity) :
    (s.recordedMessage m time).getVelocity = 127 := by
  have hstep : s.recordedMessage m time =
      ((m.setVelocity ((s.processVelocity m.getVelocity : Int) : ℚ)).setTimeStamp
        (if s.recordSettings.quantizeInput = true then s.quantizeTime time else time)) := by
    unfold MIDISequencer.recordedMessage
    simp only [hon, if_true]
  rw [hstep]
  generalize s.processVelocity m.getVelocity = v at hv
  generalize (if s.recordSettings.quantizeInput = true then s.quantizeTime time else time) = t
  have hbyte : MidiMessage.floatValueToMidiByte ((v : Int) : ℚ) = 127 :=
    floatValueToMidiByte_of_one_le _ (by exact_mod_cast hv)
  have honoff : m.isNoteOnOrOff = true := by
    unfold MidiMessage.isNoteOn at hon
    unfold MidiMessage.isNoteOnOrOff
    simp only [Bool.and_eq_true] at hon
    simp [hon.1]
  obtain ⟨d, hd⟩ : ∃ d, m.data = d := ⟨_, rfl⟩
  match d, hd with
  | [], hd => rw [hd] at hlen; simp at hlen
  | [_], hd => rw [hd] at hlen; simp at hlen
  | [_, _], hd => rw [hd] at hlen; simp at hlen
  | a :: b :: c :: rest, hd =>
    have hon2 : MidiMessage.isNoteOnOrOff
        { data := a :: b :: MidiMessage.floatValueToMidiByte ((v : Int) : ℚ) :: rest,
          timeStamp := t } = true := by
      unfold MidiMessage.isNoteOnOrOff MidiMessage.byte at honoff ⊢
      rw [hd] at honoff
      simpa using honoff
    simp only [MidiMessage.setVelocity, honoff, if_true, MidiMessage.setTimeStamp, hd,
      List.set_cons_succ, List.set_cons_zero]
    unfold MidiMessage.getVelocity
    rw [hon2, if_pos rfl, hbyte]
    rfl

/-- C17 (the code at failing inputs): a note-on with velocity 64 recorded in the
"as played" mode (mode 0, scale 1) ends with velocity 127, not 64, because
`processVelocity` hands the MIDI velocity 64 to `setVelocity`, which takes a
level between 0 and 1 and stores `limit(0, 127, round(64 * 127))`; a note-on with
velocity 100 recorded in the scaled mode with factor 1/2 also ends with 127,
not 50; and in the scaled mode `processVelocity(100)` with factor 2 returns
200, outside 0..127, since it does not clamp. -/
theorem recorded_velocity_is_not_as_played :
    (MidiMessage.noteOn 1 60 64).getVelocity = 64 ∧
    MIDISequencer.processVelocity {} 64 = 64 ∧
    (MIDISequencer.recordedMessage {} (MidiMessage.noteOn 1 60 64) 0).getVelocity = 127 ∧
    (MIDISequencer.recordedMessage { recordSettings := { velocityMode := 2, velocityScale := 1 / 2 } }
      (MidiMessage.noteOn 1 60 100) 0).getVelocity = 127 ∧
    MIDISequencer.processVelocity { recordSettings := { velocityMode := 2, velocityScale := 2 } }
      100 = 200 := by
  have hscaled : MIDISequencer.processVelocity
      { recordSettings := { velocityMode := 2, velocityScale := 1 / 2 } } 100 = 50 := by
    simp only [MIDISequencer.processVelocity]
    norm_num [truncToInt]
  refine ⟨by decide, by decide, ?_, ?_, ?_⟩
  · exact recordedMessage_velocity_saturates _ _ _ (by decide) (by decide) (by decide)
  · refine recordedMessage_velocity_saturates _ _ _ (by decide) (by decide) ?_
    have hv : (MidiMessage.noteOn 1 60 100).getVelocity = 100 := by decide
    rw [hv, hscaled]
    norm_num
  · simp only [MIDISequencer.processVelocity]
    norm_num [truncToInt]

/-! ## Theorems: MIDI clock -/

namespace MIDISequencer

/-- The clock interval at 120 bpm: the `double` nearest `1 / 48`. -/
theorem clockInterval_at_120_bpm :
    Double.div 60 (Double.mul 120 24) = 6004799503160661 / 288230376151711744 := by
  have h2880 : roundToDouble (120 * 24) = 2880 := by
    rw [roundToDouble_of_pos _ 11 6333186975989760 (by norm_num) (by norm_num) (by norm_num)
      (nearestEven_of_lt _ 6333186975989760 (by norm_num) (by norm_num))]
    norm_num
  show roundToDouble (60 / roundToDouble (120 * 24)) = _
  rw [h2880]
  rw [roundToDouble_of_pos _ (-6) 6004799503160661 (by norm_num) (by norm_num) (by norm_num)
    (nearestEven_of_lt _ 6004799503160661 (by norm_num) (by norm_num))]
  norm_num

end MIDISequencer

theorem truncToInt_intCast (n : Int) : truncToInt (n : ℚ) = n := by
  simp [truncToInt]

theorem nearestEven_nonpos (x : ℚ) (h : x ≤ 0) : nearestEven x ≤ 0 := by
  have h1 := nearestEven_abs_sub_le x
  rw [abs_le] at h1
  have h2 : (nearestEven x : ℚ) < 1 := by linarith
  have h3 : nearestEven x < 1 := by exact_mod_cast h2
  omega

theorem roundToDouble_nonpos (x : ℚ) (h : x ≤ 0) : roundToDouble x ≤ 0 := by
  unfold roundToDouble
  have hs := doubleSpacing_pos x
  have hn : (nearestEven (x / doubleSpacing x) : ℚ) ≤ 0 := by
    exact_mod_cast nearestEven_nonpos _ (div_nonpos_of_nonpos_of_nonneg h (le_of_lt hs))
  exact mul_nonpos_of_nonpos_of_nonneg hn (le_of_lt hs)

/-- Every sample offset that `sendMidiClock` computes for a pulse whose
scheduled time is not later than `position` is zero or negative. -/
theorem clockOffset_nonpos (scheduled position : ℚ) (h : scheduled ≤ position) :
    truncToInt (Double.mul (Double.sub scheduled position) 44100) ≤ 0 := by
  have hsub : Double.sub scheduled position ≤ 0 := roundToDouble_nonpos _ (by linarith)
  have hx : Double.mul (Double.sub scheduled position) 44100 ≤ 0 :=
    roundToDouble_nonpos _ (mul_nonpos_of_nonpos_of_nonneg hsub (by norm_num))
  generalize Double.mul (Double.sub scheduled position) 44100 = x at hx
  unfold truncToInt
  have hnum : x.num ≤ 0 := Rat.num_nonpos.mpr hx
  have hden : (0 : Int) ≤ (x.den : Int) := Int.natCast_nonneg _
  obtain ⟨m, hm⟩ := Int.exists_eq_neg_ofNat hnum
  rw [hm, Int.neg_tdiv]
  exact Int.neg_nonpos_of_nonneg (Int.tdiv_nonneg (Int.natCast_nonneg _) hden)

/-- C15: at 120 bpm with `lastClockTime = 0`, a call for position `1/100` s puts
the pulse scheduled at time `0` at sample offset `-441`, that is
`(0 - 1/100) * 44100` truncated: the offset is negative, it is measured back from
`position` at the fixed rate 44100, and `processOutputBuffer` then hands no
clock event to the caller, since `addEvents` from sample 0 skips it. The next
pulse time is the `double` nearest `1 / 48`. -/
theorem clock_pulse_offset_is_negative :
    MIDISequencer.sendMidiClock 1 exampleClockSequencer (1 / 100)
      = some { exampleClockSequencer with
          outputBuffer := [{ samplePosition := -441, data := [0xf8] }]
          lastClockTime := 6004799503160661 / 288230376151711744 } ∧
    MIDISequencer.processOutputBuffer 1 exampleClockSequencer [] (1 / 100)
      = some ({ exampleClockSequencer with
          lastClockTime := 6004799503160661 / 288230376151711744 }, []) := by
  have hsub : roundToDouble (0 - 1 / 100) = -5764607523034235 / 576460752303423488 := by
    rw [roundToDouble_of_neg _ (-7) (-5764607523034235) (by norm_num) (by norm_num)
      (by norm_num) (nearestEven_of_lt _ (-5764607523034235) (by norm_num) (by norm_num))]
    norm_num
  have hmul : roundToDouble ((-5764607523034235 / 576460752303423488) * 44100)
      = ((-441 : Int) : ℚ) := by
    rw [roundToDouble_of_neg _ 8 (-7758154045587456) (by norm_num) (by norm_num) (by norm_num)
      (nearestEven_of_lt _ (-7758154045587456) (by norm_num) (by norm_num))]
    norm_num
  have hoff : truncToInt (Double.mul (Double.sub 0 (1 / 100)) 44100) = -441 := by
    show truncToInt (roundToDouble (roundToDouble (0 - 1 / 100) * 44100)) = -441
    rw [hsub, hmul, truncToInt_intCast]
  have hadd : Double.add 0 (6004799503160661 / 288230376151711744)
      = 6004799503160661 / 288230376151711744 := by
    show roundToDouble (0 + 6004799503160661 / 288230376151711744) = _
    rw [roundToDouble_of_pos _ (-6) 6004799503160661 (by norm_num) (by norm_num) (by norm_num)
      (nearestEven_of_lt _ 6004799503160661 (by norm_num) (by norm_num))]
    norm_num
  have hnot : ¬ ((6004799503160661 / 288230376151711744 : ℚ) ≤ 1 / 100) := by norm_num
  have hle : (0 : ℚ) ≤ 1 / 100 := by norm_num
  have hclock : MIDISequencer.sendMidiClock 1 exampleClockSequencer (1 / 100)
      = some { exampleClockSequencer with
          outputBuffer := [{ samplePosition := -441, data := [0xf8] }]
          lastClockTime := 6004799503160661 / 288230376151711744 } := by
    simp only [MIDISequencer.sendMidiClock, exampleClockSequencer,
      MIDISequencer.clockInterval_at_120_bpm, MIDISequencer.sendMidiClockLoop, if_pos hle,
      hadd, if_neg hnot, hoff, MidiBuffer.addEvent, MidiMessage.midiClock,
      MidiBuffer.insertEvent]
    norm_num
  refine ⟨hclock, ?_⟩
  unfold MIDISequencer.processOutputBuffer
  rw [if_neg (by decide), if_pos (by decide), hclock]
  simp [exampleClockSequencer, MidiBuffer.addEvents]

/-! ## Theorems: quantising a sequence -/

namespace MidiMessageSequence

theorem updateById_retime_set (T : Nat → ℚ) (id : Nat) (c : ℚ) (l : List MidiEventHolder) :
    updateById id (fun m => m.setTimeStamp c) (retime T l)
      = retime (Function.update T id c) l := by
  unfold updateById retime
  rw [List.map_map]
  apply List.map_congr_left
  intro h _
  by_cases hid : h.id = id
  · subst hid
    simp [MidiMessage.setTimeStamp]
  · simp [hid, MidiMessage.setTimeStamp, Function.update]

theorem updateById_retime_shift (T : Nat → ℚ) (p : Nat) (d : ℚ) (l : List MidiEventHolder) :
    updateById p (fun m => m.setTimeStamp (Double.add m.getTimeStamp d)) (retime T l)
      = retime (Function.update T p (Double.add (T p) d)) l := by
  unfold updateById retime
  rw [List.map_map]
  apply List.map_congr_left
  intro h _
  by_cases hid : h.id = p
  · subst hid
    simp [MidiMessage.setTimeStamp, MidiMessage.getTimeStamp]
  · simp [hid, MidiMessage.setTimeStamp, Function.update]

theorem retime_any_id (T : Nat → ℚ) (p : Nat) (l : List MidiEventHolder) :
    (retime T l).any (fun h => decide (h.id = p)) = l.any (fun h => decide (h.id = p)) := by
  unfold retime
  rw [List.any_map]
  rfl

theorem timeOf_of_mem (l : List MidiEventHolder) (hnd : (l.map (fun h => h.id)).Nodup) :
    ∀ h ∈ l, timeOf l h.id = h.message.getTimeStamp := by
  induction l with
  | nil => intro h hh; cases hh
  | cons x xs ih =>
    intro h hh
    rw [List.map_cons, List.nodup_cons] at hnd
    unfold timeOf
    rw [List.find?_cons]
    by_cases hx : x.id = h.id
    · simp only [hx, decide_True]
      rcases List.mem_cons.mp hh with rfl | hmem
      · rfl
      · exact absurd (List.mem_map.mpr ⟨h, hmem, hx.symm⟩) hnd.1
    · simp only [hx, decide_False]
      rcases List.mem_cons.mp hh with rfl | hmem
      · exact absurd rfl hx
      · exact ih hnd.2 h hmem

theorem retime_timeOf (l : List MidiEventHolder) (hnd : (l.map (fun h => h.id)).Nodup) :
    retime (timeOf l) l = l := by
  unfold retime
  conv_rhs => rw [← List.map_id l]
  apply List.map_congr_left
  intro h hh
  rw [timeOf_of_mem l hnd h hh]
  rfl

end MidiMessageSequence

namespace MIDISequencer

open MidiMessageSequence in
/-- The loop of `quantizeEvents` runs to its end when every pointer of a note-on
resolves, and acts on the time stamps as the fold of `quantizeStep`. -/
theorem quantizeEventsFrom_retime (grid : ℚ) (l0 : List MidiEventHolder)
    (hres : ∀ h ∈ l0, h.message.isNoteOn = true → ∀ p ∈ h.noteOffObject,
      ∃ o ∈ l0, o.id = p) :
    ∀ (k i : Nat) (T : Nat → ℚ), i + k = l0.length →
      quantizeEventsFrom grid k i (retime T l0)
        = some (retime ((l0.drop i).foldl (quantizeStep grid) T) l0) := by
  intro k
  induction k with
  | zero =>
    intro i T hik
    have hd : l0.drop i = [] := List.drop_eq_nil_of_le (by omega)
    rw [hd]
    rfl
  | succ k ih =>
    intro i T hik
    have hi : i < l0.length := by omega
    have hdrop : l0.drop i = l0[i] :: l0.drop (i + 1) := List.drop_eq_getElem_cons hi
    have hget : (retime T l0)[i]?
        = some { l0[i] with message := l0[i].message.setTimeStamp (T l0[i].id) } := by
      unfold retime
      rw [List.getElem?_map, List.getElem?_eq_getElem hi]
      rfl
    have hmem : l0[i] ∈ l0 := List.getElem_mem hi
    rw [hdrop, List.foldl_cons]
    generalize l0[i] = h at hget hmem
    unfold quantizeEventsFrom
    rw [hget]
    simp only []
    by_cases hon : h.message.isNoteOn = true
    · have hon2 : (h.message.setTimeStamp (T h.id)).isNoteOn = true := hon
      rw [if_pos hon2]
      cases hp : h.noteOffObject with
      | none =>
        simp only [quantizeStep, gridTime, if_pos hon, hp]
        rw [updateById_retime_set]
        exact ih (i + 1) _ (by omega)
      | some p =>
        obtain ⟨o, ho, hop⟩ := hres h hmem hon p (by rw [hp]; rfl)
        have hany : l0.any (fun h => decide (h.id = p)) = true :=
          List.any_eq_true.mpr ⟨o, ho, by simpa using hop⟩
        simp only [quantizeStep, gridTime, if_pos hon, hp]
        rw [updateById_retime_set, retime_any_id, if_pos hany, updateById_retime_shift]
        exact ih (i + 1) _ (by omega)
    · have hon2 : ¬ (h.message.setTimeStamp (T h.id)).isNoteOn = true := hon
      rw [if_neg hon2]
      simp only [quantizeStep, if_neg hon]
      exact ih (i + 1) _ (by omega)

end MIDISequencer

namespace MIDISequencer

theorem quantizeStep_untouched (grid : ℚ) (T : Nat → ℚ) (h : MidiEventHolder) (x : Nat)
    (hx : h.message.isNoteOn = true → h.id ≠ x ∧ h.noteOffObject ≠ some x) :
    quantizeStep grid T h x = T x := by
  unfold quantizeStep
  by_cases hon : h.message.isNoteOn = true
  · rw [if_pos hon]
    obtain ⟨h1, h2⟩ := hx hon
    cases hp : h.noteOffObject with
    | none => exact Function.update_noteq (Ne.symm h1) _ _
    | some p =>
      have hpx : x ≠ p := by
        intro e
        exact h2 (by rw [hp, e])
      simp only []
      rw [Function.update_noteq hpx, Function.update_noteq (Ne.symm h1)]
  · rw [if_neg hon]

theorem quantizeFold_untouched (grid : ℚ) (x : Nat) :
    ∀ (l : List MidiEventHolder) (T : Nat → ℚ),
      (∀ h ∈ l, h.message.isNoteOn = true → h.id ≠ x ∧ h.noteOffObject ≠ some x) →
      (l.foldl (quantizeStep grid) T) x = T x := by
  intro l
  induction l with
  | nil => intro T _; rfl
  | cons y ys ih =>
    intro T hx
    rw [List.foldl_cons, ih _ (fun h hh => hx h (List.mem_cons_of_mem _ hh))]
    exact quantizeStep_untouched grid T y x (hx y (List.mem_cons_self _ _))

theorem quantizeStep_noteOn (grid : ℚ) (T : Nat → ℚ) (h : MidiEventHolder)
    (hon : h.message.isNoteOn = true) (hself : h.noteOffObject ≠ some h.id) :
    quantizeStep grid T h h.id = gridTime grid (T h.id) := by
  unfold quantizeStep
  rw [if_pos hon]
  cases hp : h.noteOffObject with
  | none => exact Function.update_same _ _ _
  | some p =>
    have hpx : h.id ≠ p := by
      intro e
      exact hself (by rw [hp, e])
    simp only []
    rw [Function.update_noteq hpx, Function.update_same]

theorem quantizeStep_noteOff (grid : ℚ) (T : Nat → ℚ) (h : MidiEventHolder) (p : Nat)
    (hon : h.message.isNoteOn = true) (hp : h.noteOffObject = some p) (hne : h.id ≠ p) :
    quantizeStep grid T h p
      = Double.add (T p) (Double.sub (gridTime grid (T h.id)) (T h.id)) := by
  unfold quantizeStep
  rw [if_pos hon, hp]
  simp only []
  rw [Function.update_same, Function.update_noteq (Ne.symm hne)]

/-- What the loop of `quantizeEvents` does to the time stamps of a list in which
identities are distinct, no pointer of a note-on leads to a note-on, and no two
note-ons share a pointer: a note-on ends at its grid time, and the holder it
points to has the difference added, in `double` arithmetic. -/
theorem quantizeFold_spec (grid : ℚ) :
    ∀ (l : List MidiEventHolder), (l.map (fun h => h.id)).Nodup →
      (∀ h ∈ l, ∀ n ∈ l, h.message.isNoteOn = true → n.message.isNoteOn = true →
        n.noteOffObject ≠ some h.id) →
      (∀ h1 ∈ l, ∀ h2 ∈ l, h1.message.isNoteOn = true → h2.message.isNoteOn = true →
        ∀ p, h1.noteOffObject = some p → h2.noteOffObject = some p → h1.id = h2.id) →
      ∀ (T : Nat → ℚ), ∀ h ∈ l, h.message.isNoteOn = true →
        (l.foldl (quantizeStep grid) T) h.id = gridTime grid (T h.id) ∧
        ∀ p, h.noteOffObject = some p →
          (l.foldl (quantizeStep grid) T) p
            = Double.add (T p) (Double.sub (gridTime grid (T h.id)) (T h.id)) := by
  intro l
  induction l with
  | nil => intro _ _ _ T h hh; cases hh
  | cons x xs ih =>
    intro hnd hF2 hF3 T h hh hon
    rw [List.map_cons, List.nodup_cons] at hnd
    have hidne : ∀ y ∈ xs, y.id ≠ x.id := by
      intro y hy e
      exact hnd.1 (List.mem_map.mpr ⟨y, hy, e⟩)
    rw [List.foldl_cons]
    rcases List.mem_cons.mp hh with rfl | hmem
    · have hself : h.noteOffObject ≠ some h.id :=
        hF2 h (List.mem_cons_self _ _) h (List.mem_cons_self _ _) hon hon
      constructor
      · rw [quantizeFold_untouched grid h.id xs _ (fun y hy hyon =>
          ⟨hidne y hy, hF2 h (List.mem_cons_self _ _) y (List.mem_cons_of_mem _ hy) hon hyon⟩)]
        exact quantizeStep_noteOn grid T h hon hself
      · intro p hp
        have hne : h.id ≠ p := by
          intro e
          exact hself (by rw [hp, e])
        rw [quantizeFold_untouched grid p xs _ (fun y hy hyon =>
          ⟨fun e => hF2 y (List.mem_cons_of_mem _ hy) h (List.mem_cons_self _ _) hyon hon
              (by rw [hp, e]),
            fun e => hidne y hy (hF3 y (List.mem_cons_of_mem _ hy) h (List.mem_cons_self _ _)
              hyon hon p e hp)⟩)]
        exact quantizeStep_noteOff grid T h p hon hp hne
    · have hT : quantizeStep grid T x h.id = T h.id :=
        quantizeStep_untouched grid T x h.id (fun hxon =>
          ⟨fun e => hidne h hmem e.symm,
            hF2 h (List.mem_cons_of_mem _ hmem) x (List.mem_cons_self _ _) hon hxon⟩)
      have hrec := ih hnd.2
        (fun a ha b hb => hF2 a (List.mem_cons_of_mem _ ha) b (List.mem_cons_of_mem _ hb))
        (fun a ha b hb => hF3 a (List.mem_cons_of_mem _ ha) b (List.mem_cons_of_mem _ hb))
        (quantizeStep grid T x) h hmem hon
      rw [hT] at hrec
      refine ⟨hrec.1, ?_⟩
      intro p hp
      have hTp : quantizeStep grid T x p = T p :=
        quantizeStep_untouched grid T x p (fun hxon =>
          ⟨fun e => hF2 x (List.mem_cons_self _ _) h (List.mem_cons_of_mem _ hmem) hxon hon
              (by rw [hp, e]),
            fun e => hidne h hmem (hF3 x (List.mem_cons_self _ _) h
              (List.mem_cons_of_mem _ hmem) hxon hon p e hp).symm⟩)
      rw [hrec.2 p hp, hTp]

end MIDISequencer

namespace MidiMessageSequence

theorem findNoteOff_mem (note chan : Int) (newId : Nat) :
    ∀ (rest : List MidiEventHolder), ∀ h ∈ rest, h ∈ (findNoteOff note chan newId rest).2.1 := by
  intro rest
  induction rest with
  | nil => intro h hh; cases hh
  | cons m rest ih =>
    intro h hh
    unfold findNoteOff
    split
    · exact hh
    · split
      · exact List.mem_cons_of_mem _ hh
      · rcases List.mem_cons.mp hh with rfl | hmem
        · exact List.mem_cons_self _ _
        · exact List.mem_cons_of_mem _ (ih h hmem)

/-- The search of `updateMatchedPairs()` keeps the holders and adds at most one
new holder, with identity `newId`. -/
theorem findNoteOff_fresh (note chan : Int) (newId : Nat) :
    ∀ (rest : List MidiEventHolder), (rest.map (fun h => h.id)).Nodup →
      (∀ h ∈ rest, h.id < newId) →
      ((findNoteOff note chan newId rest).2.1.map (fun h => h.id)).Nodup ∧
      (∀ h ∈ (findNoteOff note chan newId rest).2.1,
        h.id < (if (findNoteOff note chan newId rest).2.2 = true then newId + 1 else newId)) ∧
      (∀ h ∈ (findNoteOff note chan newId rest).2.1, h ∈ rest ∨ h.id = newId) := by
  intro rest
  induction rest with
  | nil =>
    intro _ _
    refine ⟨List.nodup_nil, ?_, ?_⟩ <;> intro h hh <;> cases hh
  | cons m rest ih =>
    intro hnd hlt
    unfold findNoteOff
    split
    · exact ⟨hnd, fun h hh => by simpa using hlt h hh, fun h hh => Or.inl hh⟩
    · split
      · refine ⟨?_, ?_, ?_⟩
        · simp only [List.map_cons] at hnd ⊢
          refine List.nodup_cons.mpr ⟨?_, hnd⟩
          intro hin
          rw [← List.map_cons] at hin
          obtain ⟨y, hy, hyid⟩ := List.mem_map.mp hin
          have := hlt y hy
          omega
        · intro h hh
          simp only [if_true]
          rcases List.mem_cons.mp hh with rfl | hmem
          · exact Nat.lt_succ_self _
          · exact Nat.lt_succ_of_lt (hlt h hmem)
        · intro h hh
          rcases List.mem_cons.mp hh with rfl | hmem
          · exact Or.inr rfl
          · exact Or.inl hmem
      · rw [List.map_cons, List.nodup_cons] at hnd
        obtain ⟨h1, h2, h3⟩ := ih hnd.2 (fun h hh => hlt h (List.mem_cons_of_mem _ hh))
        refine ⟨?_, ?_, ?_⟩
        · simp only [List.map_cons]
          refine List.nodup_cons.mpr ⟨?_, h1⟩
          intro hin
          obtain ⟨y, hy, hyid⟩ := List.mem_map.mp hin
          rcases h3 y hy with hy2 | hy2
          · exact hnd.1 (List.mem_map.mpr ⟨y, hy2, hyid⟩)
          · have := hlt m (List.mem_cons_self _ _)
            omega
        · intro h hh
          rcases List.mem_cons.mp hh with rfl | hmem
          · have := hlt h (List.mem_cons_self _ _)
            split <;> omega
          · exact h2 h hmem
        · intro h hh
          rcases List.mem_cons.mp hh with rfl | hmem
          · exact Or.inl (List.mem_cons_self _ _)
          · rcases h3 h hmem with h4 | h4
            · exact Or.inl (List.mem_cons_of_mem _ h4)
            · exact Or.inr h4

/-- Every holder keeps its identity and its message across
`updateMatchedPairs()`. -/
theorem updateMatchedPairsFrom_mem :
    ∀ (fuel : Nat) (todo : List MidiEventHolder) (nextId : Nat), ∀ h ∈ todo,
      ∃ h1 ∈ (updateMatchedPairsFrom fuel todo nextId).1,
        h1.id = h.id ∧ h1.message = h.message := by
  intro fuel
  induction fuel with
  | zero =>
    intro todo nextId h hh
    exact ⟨h, hh, rfl, rfl⟩
  | succ fuel ih =>
    intro todo nextId h hh
    cases todo with
    | nil => cases hh
    | cons meh rest =>
      unfold updateMatchedPairsFrom
      split
      · simp only []
        rcases List.mem_cons.mp hh with rfl | hmem
        · exact ⟨_, List.mem_cons_self _ _, rfl, rfl⟩
        · obtain ⟨h1, hh1, e1, e2⟩ := ih _ _ h (findNoteOff_mem _ _ _ rest h hmem)
          exact ⟨h1, List.mem_cons_of_mem _ hh1, e1, e2⟩
      · rcases List.mem_cons.mp hh with rfl | hmem
        · exact ⟨_, List.mem_cons_self _ _, rfl, rfl⟩
        · obtain ⟨h1, hh1, e1, e2⟩ := ih rest nextId h hmem
          exact ⟨h1, List.mem_cons_of_mem _ hh1, e1, e2⟩

/-- Across `updateMatchedPairs()` identities stay distinct: a holder of the result
has the identity of an old holder or a newly allocated one. -/
theorem updateMatchedPairsFrom_fresh :
    ∀ (fuel : Nat) (todo : List MidiEventHolder) (nextId : Nat),
      (todo.map (fun h => h.id)).Nodup → (∀ h ∈ todo, h.id < nextId) →
      ((updateMatchedPairsFrom fuel todo nextId).1.map (fun h => h.id)).Nodup ∧
      (∀ h ∈ (updateMatchedPairsFrom fuel todo nextId).1,
        h.id < (updateMatchedPairsFrom fuel todo nextId).2) ∧
      nextId ≤ (updateMatchedPairsFrom fuel todo nextId).2 ∧
      (∀ h ∈ (updateMatchedPairsFrom fuel todo nextId).1,
        (∃ h0 ∈ todo, h0.id = h.id) ∨ nextId ≤ h.id) := by
  intro fuel
  induction fuel with
  | zero =>
    intro todo nextId hnd hlt
    exact ⟨hnd, hlt, le_refl _, fun h hh => Or.inl ⟨h, hh, rfl⟩⟩
  | succ fuel ih =>
    intro todo nextId hnd hlt
    cases todo with
    | nil =>
      refine ⟨List.nodup_nil, ?_, le_refl _, ?_⟩ <;> intro h hh <;> cases hh
    | cons meh rest =>
      have hmeh := hlt meh (List.mem_cons_self _ _)
      rw [List.map_cons, List.nodup_cons] at hnd
      have hrest : ∀ h ∈ rest, h.id < nextId := fun h hh => hlt h (List.mem_cons_of_mem _ hh)
      unfold updateMatchedPairsFrom
      split
      · simp only []
        obtain ⟨f1, f2, f3⟩ := findNoteOff_fresh meh.message.getNoteNumber
          meh.message.getChannel nextId rest hnd.2 hrest
        obtain ⟨g1, g2, g3, g4⟩ := ih _ _ f1 f2
        have hn1 : nextId ≤ (if (findNoteOff meh.message.getNoteNumber meh.message.getChannel
            nextId rest).2.2 = true then nextId + 1 else nextId) := by
          split <;> omega
        refine ⟨?_, ?_, le_trans hn1 g3, ?_⟩
        · simp only [List.map_cons]
          refine List.nodup_cons.mpr ⟨?_, g1⟩
          intro hin
          obtain ⟨y, hy, hyid⟩ := List.mem_map.mp hin
          rcases g4 y hy with ⟨y0, hy0, hy0id⟩ | hge
          · rcases f3 y0 hy0 with hy1 | hy1
            · exact hnd.1 (List.mem_map.mpr ⟨y0, hy1, by rw [hy0id, hyid]⟩)
            · have hyid2 : y.id = meh.id := hyid
              omega
          · have hyid2 : y.id = meh.id := hyid
            omega
        · intro h hh
          rcases List.mem_cons.mp hh with rfl | hmem
          · show meh.id < _
            omega
          · exact g2 h hmem
        · intro h hh
          rcases List.mem_cons.mp hh with rfl | hmem
          · exact Or.inl ⟨meh, List.mem_cons_self _ _, rfl⟩
          · rcases g4 h hmem with ⟨y0, hy0, hy0id⟩ | hge
            · rcases f3 y0 hy0 with hy1 | hy1
              · exact Or.inl ⟨y0, List.mem_cons_of_mem _ hy1, hy0id⟩
              · exact Or.inr (by omega)
            · exact Or.inr (by omega)
      · obtain ⟨g1, g2, g3, g4⟩ := ih rest nextId hnd.2 hrest
        refine ⟨?_, ?_, g3, ?_⟩
        · simp only [List.map_cons]
          refine List.nodup_cons.mpr ⟨?_, g1⟩
          intro hin
          obtain ⟨y, hy, hyid⟩ := List.mem_map.mp hin
          rcases g4 y hy with ⟨y0, hy0, hy0id⟩ | hge
          · exact hnd.1 (List.mem_map.mpr ⟨y0, hy0, by rw [hy0id, hyid]⟩)
          · omega
        · intro h hh
          rcases List.mem_cons.mp hh with rfl | hmem
          · omega
          · exact g2 h hmem
        · intro h hh
          rcases List.mem_cons.mp hh with rfl | hmem
          · exact Or.inl ⟨h, List.mem_cons_self _ _, rfl⟩
          · rcases g4 h hmem with ⟨y0, hy0, hy0id⟩ | hge
            · exact Or.inl ⟨y0, List.mem_cons_of_mem _ hy0, hy0id⟩
            · exact Or.inr hge

end MidiMessageSequence

namespace MidiMessageSequence

theorem inserted_noteOff_not_noteOn (chan note : Int) (t : ℚ) :
    ((MidiMessage.noteOff chan note).setTimeStamp t).isNoteOn = false := by
  simp [MidiMessage.isNoteOn, MidiMessage.byte, MidiMessage.noteOff, MidiMessage.setTimeStamp]

theorem findNoteOff_measure (note chan : Int) (newId : Nat) :
    ∀ (rest : List MidiEventHolder),
      (findNoteOff note chan newId rest).2.1.length
        + (findNoteOff note chan newId rest).2.1.countP (fun h => h.message.isNoteOn)
      ≤ rest.length + rest.countP (fun h => h.message.isNoteOn) + 1 := by
  intro rest
  induction rest with
  | nil => simp [findNoteOff]
  | cons m rest ih =>
    unfold findNoteOff
    split
    · show (m :: rest).length + (m :: rest).countP _ ≤ _
      omega
    · split
      · rw [List.countP_cons_of_neg]
        · simp only [List.length_cons]
          omega
        · simp [inserted_noteOff_not_noteOn]
      · simp only [List.length_cons, List.countP_cons]
        omega

/-- The step budget of `updateMatchedPairs()`: once it covers the number of
holders plus the number of note-ons, the outcome no longer depends on it. -/
theorem updateMatchedPairsFrom_fuel :
    ∀ (f1 f2 : Nat) (todo : List MidiEventHolder) (nextId : Nat),
      todo.length + todo.countP (fun h => h.message.isNoteOn) ≤ f1 →
      todo.length + todo.countP (fun h => h.message.isNoteOn) ≤ f2 →
      updateMatchedPairsFrom f1 todo nextId = updateMatchedPairsFrom f2 todo nextId := by
  intro f1
  induction f1 with
  | zero =>
    intro f2 todo nextId h1 _
    have : todo = [] := List.length_eq_zero.mp (by omega)
    subst this
    cases f2 <;> rfl
  | succ f1 ih =>
    intro f2 todo nextId h1 h2
    cases todo with
    | nil => cases f2 <;> rfl
    | cons meh rest =>
      cases f2 with
      | zero => simp only [List.length_cons] at h2; omega
      | succ f2 =>
        simp only [List.length_cons, List.countP_cons] at h1 h2
        have hm := findNoteOff_measure meh.message.getNoteNumber meh.message.getChannel
          nextId rest
        unfold updateMatchedPairsFrom
        by_cases hon : meh.message.isNoteOn = true
        · simp only [hon, if_true] at h1 h2 ⊢
          rw [ih f2 _ _ (by omega) (by omega)]
        · simp only [hon, Bool.false_eq_true, if_false, add_zero] at h1 h2 ⊢
          rw [ih f2 rest nextId (by omega) (by omega)]

theorem updateMatchedPairs_fuel (s : MidiMessageSequence) (fuel : Nat)
    (h : 2 * s.list.length ≤ fuel) :
    updateMatchedPairsFrom fuel s.list s.nextId
      = ((updateMatchedPairs s).list, (updateMatchedPairs s).nextId) := by
  have hc := List.countP_le_length (fun h : MidiEventHolder => h.message.isNoteOn) (l := s.list)
  unfold updateMatchedPairs
  exact updateMatchedPairsFrom_fuel fuel (2 * s.list.length) s.list s.nextId
    (by omega) (by omega)

end MidiMessageSequence

namespace MidiMessageSequence

theorem retime_ids (T : Nat → ℚ) (l : List MidiEventHolder) :
    (retime T l).map (fun h => h.id) = l.map (fun h => h.id) := by
  unfold retime
  rw [List.map_map]
  rfl

/-- After the loop of `quantizeEvents` and the closing `updateMatchedPairs()`,
every holder is still there with its bytes, at the time the loop gave it. -/
theorem holder_after_retime (T : Nat → ℚ) (l : List MidiEventHolder) (nextId : Nat) :
    ∀ h ∈ l, ∃ h1 ∈ (updateMatchedPairs { list := retime T l, nextId := nextId }).list,
      h1.id = h.id ∧ h1.message.data = h.message.data ∧ h1.message.getTimeStamp = T h.id := by
  intro h hh
  have hr : ({ h with message := h.message.setTimeStamp (T h.id) } : MidiEventHolder)
      ∈ retime T l :=
    List.mem_map.mpr ⟨h, hh, rfl⟩
  obtain ⟨h1, hh1, e1, e2⟩ :=
    updateMatchedPairsFrom_mem (2 * (retime T l).length) (retime T l) nextId _ hr
  refine ⟨h1, hh1, e1, ?_, ?_⟩
  · rw [e2]
    rfl
  · rw [e2]
    rfl

end MidiMessageSequence

/-- Rounding to the grid in exact arithmetic: the result is at most half a step
from the argument. -/
theorem round_to_grid (t g : ℚ) (hg : 0 < g) :
    |(stdRound (t / g) : ℚ) * g - t| ≤ g / 2 := by
  have h := stdRound_abs_sub_le (t / g)
  have e : (stdRound (t / g) : ℚ) * g - t = ((stdRound (t / g) : ℚ) - t / g) * g := by
    field_simp
  rw [e, abs_mul, abs_of_pos hg]
  calc |(stdRound (t / g) : ℚ) - t / g| * g ≤ 1 / 2 * g :=
        mul_le_mul_of_nonneg_right h (le_of_lt hg)
    _ = g / 2 := by ring

/-- What `quantizeEvents` does to a sequence that satisfies the pairing
invariant of `updateMatchedPairs()`: it returns, every holder is still in the
result with its bytes, a note-on is at its grid time, the holder its
`noteOffObject` points to has the difference added, all in `double` arithmetic,
and an event that is neither a note-on nor the match of a note-on keeps its
time stamp. -/
theorem MIDISequencer.quantizeEvents_spec (sequence : MidiMessageSequence) (grid : ℚ)
    (hwp : sequence.WellPaired) :
    ∃ result, MIDISequencer.quantizeEvents sequence grid = some result ∧
      (result.list.map (fun h => h.id)).Nodup ∧
      ∀ h ∈ sequence.list, ∃ h1 ∈ result.list,
        h1.id = h.id ∧ h1.message.data = h.message.data ∧
        (h.message.isNoteOn = true →
          h1.message.getTimeStamp
            = Double.mul (stdRound (Double.div h.message.getTimeStamp grid) : ℚ) grid ∧
          ∀ p ∈ h.noteOffObject, ∃ o ∈ sequence.list, ∃ o1 ∈ result.list,
            o.id = p ∧ o1.id = p ∧ o1.message.data = o.message.data ∧
            o1.message.getTimeStamp = Double.add o.message.getTimeStamp
              (Double.sub h1.message.getTimeStamp h.message.getTimeStamp)) ∧
        (h.message.isNoteOn = false →
          (∀ n ∈ sequence.list, n.message.isNoteOn = true → n.noteOffObject ≠ some h.id) →
          h1.message.getTimeStamp = h.message.getTimeStamp) := by
  obtain ⟨hnd, hlt, htarget, hinj⟩ := hwp
  have hF1 : ∀ a ∈ sequence.list, ∀ b ∈ sequence.list, a.id = b.id → a = b :=
    fun a ha b hb e => List.inj_on_of_nodup_map hnd ha hb e
  have hF2 : ∀ h ∈ sequence.list, ∀ n ∈ sequence.list, h.message.isNoteOn = true →
      n.message.isNoteOn = true → n.noteOffObject ≠ some h.id := by
    intro h hh n hn hon hnon e
    obtain ⟨o, ho, hoid, hoff⟩ := htarget n hn hnon h.id (Option.mem_def.mpr e)
    have hoh := hF1 o ho h hh hoid
    rw [hoh, hon] at hoff
    cases hoff
  have hF3 : ∀ h1 ∈ sequence.list, ∀ h2 ∈ sequence.list, h1.message.isNoteOn = true →
      h2.message.isNoteOn = true → ∀ p, h1.noteOffObject = some p →
      h2.noteOffObject = some p → h1.id = h2.id :=
    fun h1 hh1 h2 hh2 on1 on2 p e1 e2 =>
      hinj h1 hh1 h2 hh2 on1 on2 p (Option.mem_def.mpr e1) (Option.mem_def.mpr e2)
  have hloop := MIDISequencer.quantizeEventsFrom_retime grid sequence.list
    (fun h hh hon p hp => by
      obtain ⟨o, ho, hoid, _⟩ := htarget h hh hon p hp
      exact ⟨o, ho, hoid⟩)
    sequence.list.length 0 (MidiMessageSequence.timeOf sequence.list) (by omega)
  rw [MidiMessageSequence.retime_timeOf sequence.list hnd, List.drop_zero] at hloop
  have hT := MidiMessageSequence.timeOf_of_mem sequence.list hnd
  have hspec := MIDISequencer.quantizeFold_spec grid sequence.list hnd hF2 hF3
    (MidiMessageSequence.timeOf sequence.list)
  generalize hTf : sequence.list.foldl (MIDISequencer.quantizeStep grid)
    (MidiMessageSequence.timeOf sequence.list) = Tf at hloop hspec
  have hafter := MidiMessageSequence.holder_after_retime Tf sequence.list sequence.nextId
  refine ⟨MidiMessageSequence.updateMatchedPairs
    { list := MidiMessageSequence.retime Tf sequence.list, nextId := sequence.nextId }, ?_, ?_, ?_⟩
  · show (MIDISequencer.quantizeEventsFrom grid sequence.list.length 0 sequence.list).map _ = _
    rw [hloop]
    rfl
  · exact (MidiMessageSequence.updateMatchedPairsFrom_fresh _ _ sequence.nextId
      (by rw [MidiMessageSequence.retime_ids]; exact hnd)
      (by
        intro h hh
        obtain ⟨h0, hh0, e⟩ := List.mem_map.mp hh
        rw [← e]
        exact hlt h0 hh0)).1
  · intro h hh
    obtain ⟨h1, hh1, e1, e2, e3⟩ := hafter h hh
    refine ⟨h1, hh1, e1, e2, ?_, ?_⟩
    · intro hon
      obtain ⟨s1, s2⟩ := hspec h hh hon
      rw [hT h hh] at s1 s2
      refine ⟨by rw [e3, s1]; rfl, ?_⟩
      intro p hp
      obtain ⟨o, ho, hoid, _⟩ := htarget h hh hon p hp
      obtain ⟨o1, ho1, f1, f2, f3⟩ := hafter o ho
      have hs := s2 p (Option.mem_def.mp hp)
      rw [← hoid, hT o ho] at hs
      refine ⟨o, ho, o1, ho1, hoid, by rw [f1, hoid], f2, ?_⟩
      rw [f3, hs, e3, s1]
    · intro hoff hfree
      rw [e3, ← hTf, MIDISequencer.quantizeFold_untouched grid h.id sequence.list _
        (fun n hn hnon => ⟨(fun e => by
          have hnh := hF1 n hn h hh e
          rw [hnh, hoff] at hnon
          cases hnon), hfree n hn hnon⟩)]
      exact hT h hh

/-- C13 (counterexample): a note-on at the `double` nearest 0.13
with its matched note-off at the `double` nearest 0.23 is quantised with the
grid 0.25. The note-on moves to 0.25; the difference `0.25 - 0.13` and the sum
`0.23 + difference` are each rounded, and the note-off ends at
`3152519739159347 / 2 ^ 53`. The duration of the note is then not what it was,
neither as a real number nor as the `double` difference the code would compute
(0.09999999999999998 after, 0.1 before). -/
theorem quantizeEvents_changes_note_duration :
    roundToDouble (13 / 100) = 1170935903116329 / 9007199254740992 ∧
    roundToDouble (23 / 100) = 8286623314361713 / 36028797018963968 ∧
    exampleShortNoteSequence.WellPaired ∧
    ∃ result, MIDISequencer.quantizeEvents exampleShortNoteSequence (1 / 4) = some result ∧
      ∃ on1 ∈ result.list, ∃ off1 ∈ result.list,
        on1.id = 0 ∧ off1.id = 1 ∧
        on1.message.getTimeStamp = 1 / 4 ∧
        off1.message.getTimeStamp = 3152519739159347 / 9007199254740992 ∧
        off1.message.getTimeStamp - on1.message.getTimeStamp
          ≠ 8286623314361713 / 36028797018963968 - 1170935903116329 / 9007199254740992 ∧
        Double.sub off1.message.getTimeStamp on1.message.getTimeStamp
          ≠ Double.sub (8286623314361713 / 36028797018963968)
            (1170935903116329 / 9007199254740992) := by
  have ht : roundToDouble (13 / 100) = 1170935903116329 / 9007199254740992 := by
    rw [roundToDouble_of_pos _ (-3) 4683743612465316 (by norm_num) (by norm_num) (by norm_num)
      (nearestEven_of_lt _ 4683743612465316 (by norm_num) (by norm_num))]
    norm_num
  have hu : roundToDouble (23 / 100) = 8286623314361713 / 36028797018963968 := by
    rw [roundToDouble_of_pos _ (-3) 8286623314361713 (by norm_num) (by norm_num) (by norm_num)
      (nearestEven_of_lt _ 8286623314361713 (by norm_num) (by norm_num))]
    norm_num
  have hd : roundToDouble (1170935903116329 / 9007199254740992 / (1 / 4))
      = 1170935903116329 / 2251799813685248 := by
    rw [roundToDouble_of_pos _ (-1) 4683743612465316 (by norm_num) (by norm_num) (by norm_num)
      (nearestEven_of_lt _ 4683743612465316 (by norm_num) (by norm_num))]
    norm_num
  have hr : stdRound (1170935903116329 / 2251799813685248) = 1 :=
    stdRound_of_bounds _ 1 (by norm_num) (by norm_num) (by norm_num)
  have hm : roundToDouble (((1 : Int) : ℚ) * (1 / 4)) = 1 / 4 := by
    rw [roundToDouble_of_pos _ (-2) 4503599627370496 (by norm_num) (by norm_num) (by norm_num)
      (nearestEven_of_lt _ 4503599627370496 (by norm_num) (by norm_num))]
    norm_num
  have hs : roundToDouble (1 / 4 - 1170935903116329 / 9007199254740992)
      = 1080863910568919 / 9007199254740992 := by
    rw [roundToDouble_of_pos _ (-4) 8646911284551352 (by norm_num) (by norm_num) (by norm_num)
      (nearestEven_of_lt _ 8646911284551352 (by norm_num) (by norm_num))]
    norm_num
  have ha : roundToDouble (8286623314361713 / 36028797018963968
      + 1080863910568919 / 9007199254740992) = 3152519739159347 / 9007199254740992 := by
    rw [roundToDouble_of_pos _ (-2) 6305039478318694 (by norm_num) (by norm_num) (by norm_num)
      ((nearestEven_tie _ 6305039478318694 (by norm_num)).trans (by decide))]
    norm_num
  have hdur1 : roundToDouble (3152519739159347 / 9007199254740992 - 1 / 4)
      = 900719925474099 / 9007199254740992 := by
    rw [roundToDouble_of_pos _ (-4) 7205759403792792 (by norm_num) (by norm_num) (by norm_num)
      (nearestEven_of_lt _ 7205759403792792 (by norm_num) (by norm_num))]
    norm_num
  have hdur0 : roundToDouble (8286623314361713 / 36028797018963968
      - 1170935903116329 / 9007199254740992) = 3602879701896397 / 36028797018963968 := by
    rw [roundToDouble_of_pos _ (-4) 7205759403792794 (by norm_num) (by norm_num) (by norm_num)
      (nearestEven_of_lt _ 7205759403792794 (by norm_num) (by norm_num))]
    norm_num
  have hwp : exampleShortNoteSequence.WellPaired := by decide
  obtain ⟨result, hres, _, hall⟩ :=
    MIDISequencer.quantizeEvents_spec exampleShortNoteSequence (1 / 4) hwp
  obtain ⟨on1, hon1, i1, _, hnote, _⟩ := hall
    { id := 0
      message := { data := [0x90, 60, 100], timeStamp := 1170935903116329 / 9007199254740992 }
      noteOffObject := some 1 }
    (List.mem_cons_self _ _)
  obtain ⟨t1, hoff⟩ := hnote (by decide)
  obtain ⟨o, ho, off1, hoff1, j1, j2, _, t2⟩ := hoff 1 rfl
  have hot : o.message.getTimeStamp = 8286623314361713 / 36028797018963968 := by
    rcases List.mem_cons.mp ho with e | ho2
    · rw [e] at j1
      exact absurd j1 (by decide)
    · rcases List.mem_cons.mp ho2 with e | ho3
      · rw [e]
        rfl
      · cases ho3
  have hq : on1.message.getTimeStamp = 1 / 4 := by
    rw [t1]
    show roundToDouble (((stdRound (roundToDouble
      (1170935903116329 / 9007199254740992 / (1 / 4))) : Int) : ℚ) * (1 / 4)) = _
    rw [hd, hr, hm]
  have hn : off1.message.getTimeStamp = 3152519739159347 / 9007199254740992 := by
    rw [t2, hot, hq]
    show roundToDouble (8286623314361713 / 36028797018963968
      + roundToDouble (1 / 4 - 1170935903116329 / 9007199254740992)) = _
    rw [hs, ha]
  refine ⟨ht, hu, hwp, result, hres, on1, hon1, off1, hoff1, i1, j2, hq, hn, ?_, ?_⟩
  · rw [hn, hq]
    norm_num
  · rw [hn, hq]
    show roundToDouble (3152519739159347 / 9007199254740992 - 1 / 4)
      ≠ roundToDouble (8286623314361713 / 36028797018963968
        - 1170935903116329 / 9007199254740992)
    rw [hdur1, hdur0]
    norm_num

/-- C13 (amended): for a grid `g > 0` and a sequence that satisfies the pairing
invariant of `updateMatchedPairs()`, `quantizeEvents` returns, and every holder
is still in the result with its bytes. A note-on at time `t` is then at
`round(t / g) * g`, the quotient and the product each rounded to a `double`;
when both are exact this is a whole number of grid steps at most `g / 2` from
`t`. The holder its `noteOffObject` points to, at time `u`, is then at
`u + (round(t / g) * g - t)`, the difference and the sum each rounded to a
`double`; when both are exact the note keeps its duration. An event that is
neither a note-on nor the match of a note-on keeps its time stamp. -/
theorem quantizeEvents_moves_notes_to_grid (sequence : MidiMessageSequence) (grid : ℚ)
    (hg : 0 < grid) (hwp : sequence.WellPaired) :
    ∃ result, MIDISequencer.quantizeEvents sequence grid = some result ∧
      (result.list.map (fun h => h.id)).Nodup ∧
      ∀ h ∈ sequence.list, ∃ h1 ∈ result.list,
        h1.id = h.id ∧ h1.message.data = h.message.data ∧
        (h.message.isNoteOn = true →
          h1.message.getTimeStamp
            = Double.mul (stdRound (Double.div h.message.getTimeStamp grid) : ℚ) grid ∧
          (Double.div h.message.getTimeStamp grid = h.message.getTimeStamp / grid →
            Double.mul (stdRound (h.message.getTimeStamp / grid) : ℚ) grid
              = (stdRound (h.message.getTimeStamp / grid) : ℚ) * grid →
            h1.message.getTimeStamp = (stdRound (h.message.getTimeStamp / grid) : ℚ) * grid ∧
            |h1.message.getTimeStamp - h.message.getTimeStamp| ≤ grid / 2) ∧
          ∀ p ∈ h.noteOffObject, ∃ o ∈ sequence.list, ∃ o1 ∈ result.list,
            o.id = p ∧ o1.id = p ∧ o1.message.data = o.message.data ∧
            o1.message.getTimeStamp = Double.add o.message.getTimeStamp
              (Double.sub h1.message.getTimeStamp h.message.getTimeStamp) ∧
            (Double.sub h1.message.getTimeStamp h.message.getTimeStamp
                = h1.message.getTimeStamp - h.message.getTimeStamp →
              Double.add o.message.getTimeStamp
                  (h1.message.getTimeStamp - h.message.getTimeStamp)
                = o.message.getTimeStamp
                  + (h1.message.getTimeStamp - h.message.getTimeStamp) →
              o1.message.getTimeStamp - h1.message.getTimeStamp
                = o.message.getTimeStamp - h.message.getTimeStamp)) ∧
        (h.message.isNoteOn = false →
          (∀ n ∈ sequence.list, n.message.isNoteOn = true → n.noteOffObject ≠ some h.id) →
          h1.message.getTimeStamp = h.message.getTimeStamp) := by
  obtain ⟨result, hres, hnd, hall⟩ := MIDISequencer.quantizeEvents_spec sequence grid hwp
  refine ⟨result, hres, hnd, ?_⟩
  intro h hh
  obtain ⟨h1, hh1, e1, e2, hnote, hother⟩ := hall h hh
  refine ⟨h1, hh1, e1, e2, ?_, hother⟩
  intro hon
  obtain ⟨t1, hoff⟩ := hnote hon
  refine ⟨t1, ?_, ?_⟩
  · intro hdiv hmul
    have e : h1.message.getTimeStamp
        = (stdRound (h.message.getTimeStamp / grid) : ℚ) * grid := by
      rw [t1, hdiv, hmul]
    refine ⟨e, ?_⟩
    rw [e]
    exact round_to_grid _ grid hg
  · intro p hp
    obtain ⟨o, ho, o1, ho1, j1, j2, j3, t2⟩ := hoff p hp
    refine ⟨o, ho, o1, ho1, j1, j2, j3, t2, ?_⟩
    intro hsub hadd
    rw [t2, hsub, hadd]
    ring

/-- C13 (amended), an instance: the recorded example sequence with grid 4. -/
theorem quantizeEvents_moves_notes_to_grid_witness :
    (0 : ℚ) < 4 ∧ exampleRecordedSequence.WellPaired ∧
    exampleRecordedSequence.list =
      [{ id := 0, message := { data := [0x90, 60, 100], timeStamp := 3 },
          noteOffObject := some 1 },
        { id := 2, message := { data := [0xb0, 7, 100], timeStamp := 5 } },
        { id := 1, message := { data := [0x80, 60, 0], timeStamp := 9 } }] ∧
    ∃ result, MIDISequencer.quantizeEvents exampleRecordedSequence 4 = some result ∧
      (result.list.map (fun h => h.id)).Nodup ∧
      ∀ h ∈ exampleRecordedSequence.list, ∃ h1 ∈ result.list,
        h1.id = h.id ∧ h1.message.data = h.message.data ∧
        (h.message.isNoteOn = true →
          h1.message.getTimeStamp
            = Double.mul (stdRound (Double.div h.message.getTimeStamp 4) : ℚ) 4 ∧
          (Double.div h.message.getTimeStamp 4 = h.message.getTimeStamp / 4 →
            Double.mul (stdRound (h.message.getTimeStamp / 4) : ℚ) 4
              = (stdRound (h.message.getTimeStamp / 4) : ℚ) * 4 →
            h1.message.getTimeStamp = (stdRound (h.message.getTimeStamp / 4) : ℚ) * 4 ∧
            |h1.message.getTimeStamp - h.message.getTimeStamp| ≤ 4 / 2) ∧
          ∀ p ∈ h.noteOffObject, ∃ o ∈ exampleRecordedSequence.list, ∃ o1 ∈ result.list,
            o.id = p ∧ o1.id = p ∧ o1.message.data = o.message.data ∧
            o1.message.getTimeStamp = Double.add o.message.getTimeStamp
              (Double.sub h1.message.getTimeStamp h.message.getTimeStamp) ∧
            (Double.sub h1.message.getTimeStamp h.message.getTimeStamp
                = h1.message.getTimeStamp - h.message.getTimeStamp →
              Double.add o.message.getTimeStamp
                  (h1.message.getTimeStamp - h.message.getTimeStamp)
                = o.message.getTimeStamp
                  + (h1.message.getTimeStamp - h.message.getTimeStamp) →
              o1.message.getTimeStamp - h1.message.getTimeStamp
                = o.message.getTimeStamp - h.message.getTimeStamp)) ∧
        (h.message.isNoteOn = false →
          (∀ n ∈ exampleRecordedSequence.list, n.message.isNoteOn = true →
            n.noteOffObject ≠ some h.id) →
          h1.message.getTimeStamp = h.message.getTimeStamp) :=
  ⟨by norm_num, by decide, by decide,
    quantizeEvents_moves_notes_to_grid exampleRecordedSequence 4 (by norm_num) (by decide)⟩

/-- The example worked out: the note-on moves from 3 to 4, its note-off from 9
to 10, and the controller change stays at 5; every operation is exact. -/
theorem quantizeEvents_example :
    MIDISequencer.quantizeEvents exampleRecordedSequence 4
      = some
        { list :=
            [{ id := 0, message := { data := [0x90, 60, 100], timeStamp := 4 },
                noteOffObject := some 1 },
              { id := 2, message := { data := [0xb0, 7, 100], timeStamp := 5 } },
              { id := 1, message := { data := [0x80, 60, 0], timeStamp := 10 } }]
          nextId := 3 } := by
  have hl : exampleRecordedSequence =
      { list :=
          [{ id := 0, message := { data := [0x90, 60, 100], timeStamp := 3 },
              noteOffObject := some 1 },
            { id := 2, message := { data := [0xb0, 7, 100], timeStamp := 5 } },
            { id := 1, message := { data := [0x80, 60, 0], timeStamp := 9 } }]
        nextId := 3 } := by decide
  have e1 : roundToDouble (3 / 4) = 3 / 4 := by
    rw [roundToDouble_of_pos _ (-1) 6755399441055744 (by norm_num) (by norm_num) (by norm_num)
      (nearestEven_of_lt _ 6755399441055744 (by norm_num) (by norm_num))]
    norm_num
  have hr : stdRound ((3 : ℚ) / 4) = 1 :=
    stdRound_of_bounds _ 1 (by norm_num) (by norm_num) (by norm_num)
  have e2 : roundToDouble (((1 : Int) : ℚ) * 4) = 4 := by
    rw [roundToDouble_of_pos _ 2 4503599627370496 (by norm_num) (by norm_num) (by norm_num)
      (nearestEven_of_lt _ 4503599627370496 (by norm_num) (by norm_num))]
    norm_num
  have e3 : roundToDouble (4 - 3) = 1 := by
    rw [roundToDouble_of_pos _ 0 4503599627370496 (by norm_num) (by norm_num) (by norm_num)
      (nearestEven_of_lt _ 4503599627370496 (by norm_num) (by norm_num))]
    norm_num
  have e4 : roundToDouble (9 + 1) = 10 := by
    rw [roundToDouble_of_pos _ 3 5629499534213120 (by norm_num) (by norm_num) (by norm_num)
      (nearestEven_of_lt _ 5629499534213120 (by norm_num) (by norm_num))]
    norm_num
  have hq : Double.mul ((stdRound (Double.div 3 4) : Int) : ℚ) 4 = 4 := by
    show roundToDouble (((stdRound (roundToDouble (3 / 4)) : Int) : ℚ) * 4) = 4
    rw [e1, hr, e2]
  have hoff : Double.add 9 (Double.sub 4 3) = 10 := by
    show roundToDouble (9 + roundToDouble (4 - 3)) = 10
    rw [e3, e4]
  have b1 : (144 &&& 240 : Nat) = 144 := by decide
  have b2 : ¬ ((176 &&& 240 : Nat) = 144) := by decide
  have b3 : ¬ ((128 &&& 240 : Nat) = 144) := by decide
  have hloop : MIDISequencer.quantizeEventsFrom 4 3 0
      [{ id := 0, message := { data := [0x90, 60, 100], timeStamp := 3 },
          noteOffObject := some 1 },
        { id := 2, message := { data := [0xb0, 7, 100], timeStamp := 5 } },
        { id := 1, message := { data := [0x80, 60, 0], timeStamp := 9 } }]
      = some
        [{ id := 0, message := { data := [0x90, 60, 100], timeStamp := 4 },
            noteOffObject := some 1 },
          { id := 2, message := { data := [0xb0, 7, 100], timeStamp := 5 } },
          { id := 1, message := { data := [0x80, 60, 0], timeStamp := 10 } }] := by
    simp [MIDISequencer.quantizeEventsFrom, MidiMessageSequence.updateById,
      MidiMessage.isNoteOn, MidiMessage.byte, MidiMessage.getTimeStamp,
      MidiMessage.setTimeStamp, hq, hoff, b1, b2, b3]
  rw [hl]
  change (MIDISequencer.quantizeEventsFrom 4 3 0 _).map _ = _
  rw [hloop]
  decide

/-! ## Theorems: `updateMatchedPairs()` establishes the pairing invariant -/

namespace MidiMessageSequence

theorem isNoteOn_false_of_isNoteOff (m : MidiMessage) (h : m.isNoteOff = true) :
    m.isNoteOn = false := by
  unfold MidiMessage.isNoteOff at h
  unfold MidiMessage.isNoteOn
  by_cases h1 : (m.byte 0 &&& 0xf0) = 0x80
  · simp [h1]
  · by_cases h2 : m.byte 2 = 0
    · simp [h2]
    · simp [h1, h2] at h

theorem noteOn_channel_range (m : MidiMessage) (h : m.isNoteOn = true) :
    1 ≤ m.getChannel ∧ m.getChannel ≤ 16 := by
  unfold MidiMessage.isNoteOn at h
  have h0 : (m.byte 0 &&& 0xf0) = 0x90 := by
    simp only [Bool.and_eq_true, beq_iff_eq] at h
    exact h.1
  have hle : m.byte 0 &&& 0xf ≤ 15 := Nat.and_le_right
  unfold MidiMessage.getChannel
  rw [if_pos (by rw [h0]; decide)]
  constructor <;> push_cast <;> omega

theorem inserted_noteOff_note_chan (chan note : Int) (t : ℚ) (hc : 1 ≤ chan ∧ chan ≤ 16)
    (hn : 0 ≤ note ∧ note < 128) :
    ((MidiMessage.noteOff chan note).setTimeStamp t).getNoteNumber = note ∧
    ((MidiMessage.noteOff chan note).setTimeStamp t).getChannel = chan := by
  have b1 : ∀ k : Nat, k < 128 → k &&& 127 = k := by decide
  have b2 : ∀ k : Nat, k < 16 → ((0x80 ||| k) &&& 0xf0 ≠ 0xf0 ∧ (0x80 ||| k) &&& 0xf = k) := by
    decide
  have hl : jlimitInt 0 15 (chan - 1) = chan - 1 := by
    unfold jlimitInt
    rw [if_neg (by omega), if_neg (by omega)]
  have hk : (chan - 1).toNat < 16 := by omega
  have hnote : note.toNat < 128 := by omega
  constructor
  · show (((note.toNat &&& 127 : Nat)) : Int) = note
    rw [b1 _ hnote]
    omega
  · unfold MidiMessage.getChannel
    have hb : ((MidiMessage.noteOff chan note).setTimeStamp t).byte 0
        = 0x80 ||| (chan - 1).toNat := by
      show (0x80 ||| (jlimitInt 0 15 (chan - 1)).toNat) = _
      rw [hl]
    rw [hb, if_pos (b2 _ hk).1, (b2 _ hk).2]
    push_cast
    omega

end MidiMessageSequence

namespace MidiMessageSequence

/-- The pointer that the search of `updateMatchedPairs()` returns leads to the
first event that closes the note. -/
theorem findNoteOff_firstMatch (note chan : Int) (newId : Nat) (hc : 1 ≤ chan ∧ chan ≤ 16)
    (hn : 0 ≤ note ∧ note < 128) :
    ∀ (rest : List MidiEventHolder), ∀ p ∈ (findNoteOff note chan newId rest).1,
      FirstMatch note chan p (findNoteOff note chan newId rest).2.1 := by
  intro rest
  induction rest with
  | nil =>
    intro p hp
    cases hp
  | cons m rest ih =>
    intro p hp
    unfold findNoteOff at hp ⊢
    split at hp
    · rename_i h1
      rw [if_pos h1]
      have hpid : m.id = p := Option.some.inj (Option.mem_def.mp hp)
      exact ⟨[], m, rest, rfl, hpid, isNoteOn_false_of_isNoteOff _ h1.2.2, h1.1, h1.2.1,
        fun y hy => by cases hy⟩
    · rename_i h1
      rw [if_neg h1]
      split at hp
      · rename_i h2
        rw [if_pos h2]
        have hpid : newId = p := Option.some.inj (Option.mem_def.mp hp)
        have hx := inserted_noteOff_note_chan chan note m.message.getTimeStamp hc hn
        exact ⟨[], _, m :: rest, rfl, hpid, inserted_noteOff_not_noteOn _ _ _, hx.1, hx.2,
          fun y hy => by cases hy⟩
      · rename_i h2
        rw [if_neg h2]
        obtain ⟨mid, o, post, e, hid, hoff, hnote, hchan, hmid⟩ := ih p hp
        refine ⟨m :: mid, o, post, ?_, hid, hoff, hnote, hchan, ?_⟩
        · show m :: (findNoteOff note chan newId rest).2.1 = m :: mid ++ o :: post
          rw [e]
          rfl
        · intro y hy hyon
          rcases List.mem_cons.mp hy with rfl | hmem
          · intro hsame
            exact h2 ⟨hsame.1, hsame.2, hyon⟩
          · exact hmid y hmem hyon

/-- The search of `updateMatchedPairs()` leaves every holder in place; the one
holder it can add is not a note-on. -/
theorem findNoteOff_split (note chan : Int) (newId : Nat) (o : MidiEventHolder)
    (b : List MidiEventHolder) :
    ∀ (a : List MidiEventHolder), ∃ a1 b1,
      (findNoteOff note chan newId (a ++ o :: b)).2.1 = a1 ++ o :: b1 ∧
      ∀ y ∈ a1, y.message.isNoteOn = true → y ∈ a := by
  intro a
  induction a with
  | nil =>
    show ∃ a1 b1, (findNoteOff note chan newId (o :: b)).2.1 = a1 ++ o :: b1 ∧ _
    unfold findNoteOff
    split
    · exact ⟨[], b, rfl, fun y hy => by cases hy⟩
    · split
      · refine ⟨[_], b, rfl, ?_⟩
        intro y hy hyon
        rw [List.mem_singleton] at hy
        rw [hy, inserted_noteOff_not_noteOn] at hyon
        cases hyon
      · exact ⟨[], _, rfl, fun y hy => by cases hy⟩
  | cons m a ih =>
    obtain ⟨a1, b1, e, ha1⟩ := ih
    show ∃ a1 b1, (findNoteOff note chan newId (m :: (a ++ o :: b))).2.1 = a1 ++ o :: b1 ∧ _
    unfold findNoteOff
    split
    · exact ⟨m :: a, b, rfl, fun y hy _ => hy⟩
    · split
      · refine ⟨_ :: m :: a, b, rfl, ?_⟩
        intro y hy hyon
        rcases List.mem_cons.mp hy with rfl | hmem
        · rw [inserted_noteOff_not_noteOn] at hyon
          cases hyon
        · exact hmem
      · refine ⟨m :: a1, b1, ?_, ?_⟩
        · show m :: (findNoteOff note chan newId (a ++ o :: b)).2.1 = m :: a1 ++ o :: b1
          rw [e]
          rfl
        · intro y hy hyon
          rcases List.mem_cons.mp hy with rfl | hmem
          · exact List.mem_cons_self _ _
          · exact List.mem_cons_of_mem _ (ha1 y hmem hyon)

theorem findNoteOff_noteOn_mem (note chan : Int) (newId : Nat) :
    ∀ (rest : List MidiEventHolder), ∀ y ∈ (findNoteOff note chan newId rest).2.1,
      y.message.isNoteOn = true → y ∈ rest := by
  intro rest
  induction rest with
  | nil => intro y hy; cases hy
  | cons m rest ih =>
    intro y hy hyon
    unfold findNoteOff at hy
    split at hy
    · exact hy
    · split at hy
      · rcases List.mem_cons.mp hy with rfl | hmem
        · rw [inserted_noteOff_not_noteOn] at hyon
          cases hyon
        · exact hmem
      · rcases List.mem_cons.mp hy with rfl | hmem
        · exact List.mem_cons_self _ _
        · exact List.mem_cons_of_mem _ (ih y hmem hyon)

end MidiMessageSequence

namespace MidiMessageSequence

/-- The outer loop of `updateMatchedPairs()` leaves a holder that is not a
note-on where it is, and the note-ons before it are the ones that were there. -/
theorem updateMatchedPairsFrom_split :
    ∀ (fuel : Nat) (mid : List MidiEventHolder) (o : MidiEventHolder)
      (post : List MidiEventHolder) (nextId : Nat), o.message.isNoteOn = false →
      ∃ mid1 post1,
        (updateMatchedPairsFrom fuel (mid ++ o :: post) nextId).1 = mid1 ++ o :: post1 ∧
        ∀ y ∈ mid1, y.message.isNoteOn = true → ∃ y0 ∈ mid, y.message = y0.message := by
  intro fuel
  induction fuel with
  | zero =>
    intro mid o post nextId _
    exact ⟨mid, post, rfl, fun y hy _ => ⟨y, hy, rfl⟩⟩
  | succ fuel ih =>
    intro mid o post nextId ho
    cases mid with
    | nil =>
      show ∃ mid1 post1, (updateMatchedPairsFrom (fuel + 1) (o :: post) nextId).1
        = mid1 ++ o :: post1 ∧ _
      unfold updateMatchedPairsFrom
      rw [if_neg (by rw [ho]; decide)]
      exact ⟨[], _, rfl, fun y hy => by cases hy⟩
    | cons y mid =>
      show ∃ mid1 post1, (updateMatchedPairsFrom (fuel + 1) (y :: (mid ++ o :: post)) nextId).1
        = mid1 ++ o :: post1 ∧ _
      unfold updateMatchedPairsFrom
      by_cases hy : y.message.isNoteOn = true
      · rw [if_pos hy]
        simp only []
        obtain ⟨a1, b1, e, ha1⟩ := findNoteOff_split y.message.getNoteNumber
          y.message.getChannel nextId o post mid
        rw [e]
        obtain ⟨mid2, post2, e2, hmid2⟩ := ih a1 o b1
          (if (findNoteOff y.message.getNoteNumber y.message.getChannel nextId
            (mid ++ o :: post)).2.2 = true then nextId + 1 else nextId) ho
        rw [e2]
        refine ⟨_ :: mid2, post2, rfl, ?_⟩
        intro z hz hzon
        rcases List.mem_cons.mp hz with rfl | hmem
        · exact ⟨y, List.mem_cons_self _ _, rfl⟩
        · obtain ⟨z0, hz0, ez⟩ := hmid2 z hmem hzon
          exact ⟨z0, List.mem_cons_of_mem _ (ha1 z0 hz0 (by rw [← ez]; exact hzon)), ez⟩
      · rw [if_neg hy]
        obtain ⟨mid2, post2, e2, hmid2⟩ := ih mid o post nextId ho
        rw [e2]
        refine ⟨y :: mid2, post2, rfl, ?_⟩
        intro z hz hzon
        rcases List.mem_cons.mp hz with rfl | hmem
        · exact ⟨z, List.mem_cons_self _ _, rfl⟩
        · obtain ⟨z0, hz0, ez⟩ := hmid2 z hmem hzon
          exact ⟨z0, List.mem_cons_of_mem _ hz0, ez⟩

/-- With a sufficient step budget `updateMatchedPairs()` leaves every pointer of a
note-on at the first event after it that closes its note. -/
theorem updateMatchedPairsFrom_paired :
    ∀ (fuel : Nat) (todo : List MidiEventHolder) (nextId : Nat),
      todo.length + todo.countP (fun h => h.message.isNoteOn) ≤ fuel → ValidNotes todo →
      PairedList (updateMatchedPairsFrom fuel todo nextId).1 := by
  intro fuel
  induction fuel with
  | zero =>
    intro todo nextId h _
    have : todo = [] := List.length_eq_zero.mp (by omega)
    subst this
    exact True.intro
  | succ fuel ih =>
    intro todo nextId h hvalid
    cases todo with
    | nil => exact True.intro
    | cons meh rest =>
      simp only [List.length_cons, List.countP_cons] at h
      unfold updateMatchedPairsFrom
      by_cases hon : meh.message.isNoteOn = true
      · rw [if_pos hon]
        simp only [hon, if_true] at h ⊢
        have hm := findNoteOff_measure meh.message.getNoteNumber meh.message.getChannel
          nextId rest
        have hv2 : ValidNotes (findNoteOff meh.message.getNoteNumber meh.message.getChannel
            nextId rest).2.1 :=
          fun y hy hyon => hvalid y (List.mem_cons_of_mem _
            (findNoteOff_noteOn_mem _ _ _ rest y hy hyon)) hyon
        have hc := noteOn_channel_range meh.message hon
        have hn : 0 ≤ meh.message.getNoteNumber ∧ meh.message.getNoteNumber < 128 := by
          have := hvalid meh (List.mem_cons_self _ _) hon
          unfold MidiMessage.getNoteNumber
          constructor <;> omega
        refine ⟨?_, ih _ _ (by omega) hv2⟩
        intro _ p hp
        obtain ⟨mid, o, post, e, hid, hoff, hnote, hchan, hmid⟩ :=
          findNoteOff_firstMatch meh.message.getNoteNumber meh.message.getChannel nextId hc hn
            rest p hp
        rw [e]
        obtain ⟨mid1, post1, e1, hmid1⟩ := updateMatchedPairsFrom_split fuel mid o post
          (if (findNoteOff meh.message.getNoteNumber meh.message.getChannel nextId rest).2.2
            = true then nextId + 1 else nextId) hoff
        rw [e1]
        refine ⟨mid1, o, post1, rfl, hid, hoff, hnote, hchan, ?_⟩
        intro y hy hyon
        obtain ⟨y0, hy0, ey⟩ := hmid1 y hy hyon
        rw [ey]
        exact hmid y0 hy0 (by rw [← ey]; exact hyon)
      · rw [if_neg hon]
        simp only [hon, Bool.false_eq_true, if_false, add_zero] at h
        refine ⟨fun hc => absurd hc hon, ih rest nextId (by omega) ?_⟩
        exact fun y hy hyon => hvalid y (List.mem_cons_of_mem _ hy) hyon

end MidiMessageSequence

namespace MidiMessageSequence

theorem pairedList_suffix :
    ∀ (l : List MidiEventHolder), PairedList l → ∀ h ∈ l, h.message.isNoteOn = true →
      ∀ p ∈ h.noteOffObject, ∃ a b, l = a ++ h :: b ∧
        FirstMatch h.message.getNoteNumber h.message.getChannel p b := by
  intro l
  induction l with
  | nil => intro _ h hh; cases hh
  | cons x rest ih =>
    intro hp h hh hon p hpp
    rcases List.mem_cons.mp hh with rfl | hmem
    · exact ⟨[], rest, rfl, hp.1 hon p hpp⟩
    · obtain ⟨a, b, e, hf⟩ := ih hp.2 h hmem hon p hpp
      exact ⟨x :: a, b, by rw [e]; rfl, hf⟩

/-- A note-on that lies after another one cannot share its note-off with it. -/
theorem pairedList_no_clash (note chan : Int) (p : Nat) (rest : List MidiEventHolder)
    (hnd : (rest.map (fun h => h.id)).Nodup) (hfirst : FirstMatch note chan p rest)
    (hpaired : PairedList rest) (h2 : MidiEventHolder) (hh2 : h2 ∈ rest)
    (hon2 : h2.message.isNoteOn = true) (hp2 : p ∈ h2.noteOffObject) : False := by
  obtain ⟨mid, o, post, e, hid, hoff, hnote, hchan, hmid⟩ := hfirst
  obtain ⟨a, b, e2, mid2, o2, post2, e3, hid2, _, hnote2, hchan2, _⟩ :=
    pairedList_suffix rest hpaired h2 hh2 hon2 p hp2
  have ho : o ∈ rest := by rw [e]; simp
  have ho2 : o2 ∈ rest := by rw [e2, e3]; simp
  have hoo : o2 = o := List.inj_on_of_nodup_map hnd ho2 ho (by rw [hid, hid2])
  have hnd2 : (mid ++ o :: post).Nodup := by
    rw [← e]
    exact List.Nodup.of_map _ hnd
  have hnot := (List.nodup_cons.mp (List.nodup_middle.mp hnd2)).1
  have hsplit : mid ++ o :: post = (a ++ h2 :: mid2) ++ o2 :: post2 := by
    rw [← e, e2, e3]
    simp
  rw [hoo] at hsplit
  have hinj := (List.append_cons_inj_of_not_mem
    (fun hm => hnot (List.mem_append_left _ hm))
    (fun hm => hnot (List.mem_append_right _ hm))).mp hsplit
  have hmem : h2 ∈ mid := by rw [hinj.1]; simp
  rw [hoo] at hnote2 hchan2
  exact hmid h2 hmem hon2 ⟨by rw [← hnote2, hnote], by rw [← hchan2, hchan]⟩

theorem pairedList_injective :
    ∀ (l : List MidiEventHolder), (l.map (fun h => h.id)).Nodup → PairedList l →
      ∀ h1 ∈ l, ∀ h2 ∈ l, h1.message.isNoteOn = true → h2.message.isNoteOn = true →
        ∀ p ∈ h1.noteOffObject, p ∈ h2.noteOffObject → h1.id = h2.id := by
  intro l
  induction l with
  | nil => intro _ _ h1 hh1; cases hh1
  | cons x rest ih =>
    intro hnd hp h1 hh1 h2 hh2 on1 on2 p hp1 hp2
    rw [List.map_cons, List.nodup_cons] at hnd
    rcases List.mem_cons.mp hh1 with rfl | hm1
    · rcases List.mem_cons.mp hh2 with rfl | hm2
      · rfl
      · exact (pairedList_no_clash _ _ p rest hnd.2 (hp.1 on1 p hp1) hp.2 h2 hm2 on2 hp2).elim
    · rcases List.mem_cons.mp hh2 with rfl | hm2
      · exact (pairedList_no_clash _ _ p rest hnd.2 (hp.1 on2 p hp2) hp.2 h1 hm1 on1 hp1).elim
      · exact ih hnd.2 hp.2 h1 hm1 h2 hm2 on1 on2 p hp1 hp2

/-- Function `updateMatchedPairs()` establishes the pairing invariant: on a
sequence of distinct holders allocated before `nextId`, whose note-ons carry a
note number below 128, the result is well paired. -/
theorem updateMatchedPairs_wellPaired (s : MidiMessageSequence)
    (hnd : (s.list.map (fun h => h.id)).Nodup) (hlt : ∀ h ∈ s.list, h.id < s.nextId)
    (hvalid : ValidNotes s.list) : (updateMatchedPairs s).WellPaired := by
  have hc := List.countP_le_length (fun h : MidiEventHolder => h.message.isNoteOn) (l := s.list)
  obtain ⟨g1, g2, _, _⟩ := updateMatchedPairsFrom_fresh (2 * s.list.length) s.list s.nextId hnd hlt
  have hpaired := updateMatchedPairsFrom_paired (2 * s.list.length) s.list s.nextId
    (by omega) hvalid
  refine ⟨g1, g2, ?_, pairedList_injective _ g1 hpaired⟩
  intro h hh hon p hp
  obtain ⟨a, b, e, mid, o, post, e2, hid, hoff, _⟩ :=
    pairedList_suffix _ hpaired h hh hon p hp
  refine ⟨o, ?_, hid, hoff⟩
  show o ∈ (updateMatchedPairsFrom (2 * s.list.length) s.list s.nextId).1
  rw [e, e2]
  simp

end MidiMessageSequence

namespace MidiMessageSequence

theorem updateMatchedPairsFrom_noteOn_origin :
    ∀ (fuel : Nat) (todo : List MidiEventHolder) (nextId : Nat),
      ∀ y ∈ (updateMatchedPairsFrom fuel todo nextId).1, y.message.isNoteOn = true →
        ∃ y0 ∈ todo, y.message = y0.message := by
  intro fuel
  induction fuel with
  | zero =>
    intro todo nextId y hy _
    exact ⟨y, hy, rfl⟩
  | succ fuel ih =>
    intro todo nextId y hy hyon
    cases todo with
    | nil => cases hy
    | cons meh rest =>
      unfold updateMatchedPairsFrom at hy
      split at hy
      · simp only [] at hy
        rcases List.mem_cons.mp hy with rfl | hmem
        · exact ⟨meh, List.mem_cons_self _ _, rfl⟩
        · obtain ⟨y0, hy0, e⟩ := ih _ _ y hmem hyon
          exact ⟨y0, List.mem_cons_of_mem _
            (findNoteOff_noteOn_mem _ _ _ rest y0 hy0 (by rw [← e]; exact hyon)), e⟩
      · rcases List.mem_cons.mp hy with rfl | hmem
        · exact ⟨y, List.mem_cons_self _ _, rfl⟩
        · obtain ⟨y0, hy0, e⟩ := ih _ _ y hmem hyon
          exact ⟨y0, List.mem_cons_of_mem _ hy0, e⟩

theorem addEvent_perm (s : MidiMessageSequence) (m : MidiMessage) :
    (s.addEvent m).list.Perm ({ id := s.nextId, message := m } :: s.list) := by
  unfold addEvent
  simp only [List.append_assoc, List.singleton_append]
  refine List.perm_middle.trans ?_
  rw [List.take_append_drop]

/-- One recording step, `addEvent` followed by `updateMatchedPairs()` as in
`processRecordedMessage`, keeps the sequence well paired, provided the note-ons
carry note numbers below 128. -/
theorem recorded_sequence_wellPaired (s : MidiMessageSequence) (m : MidiMessage)
    (hnd : (s.list.map (fun h => h.id)).Nodup) (hlt : ∀ h ∈ s.list, h.id < s.nextId)
    (hvalid : ValidNotes s.list) (hm : m.isNoteOn = true → m.byte 1 < 128) :
    ((s.addEvent m).updateMatchedPairs).WellPaired ∧
    ValidNotes ((s.addEvent m).updateMatchedPairs).list := by
  have hperm := addEvent_perm s m
  have hnext : (s.addEvent m).nextId = s.nextId + 1 := rfl
  have hnd1 : ((s.addEvent m).list.map (fun h => h.id)).Nodup := by
    rw [(hperm.map _).nodup_iff, List.map_cons, List.nodup_cons]
    refine ⟨?_, hnd⟩
    intro hin
    obtain ⟨y, hy, hyid⟩ := List.mem_map.mp hin
    have := hlt y hy
    have hyid2 : y.id = s.nextId := hyid
    omega
  have hlt1 : ∀ h ∈ (s.addEvent m).list, h.id < (s.addEvent m).nextId := by
    intro h hh
    rw [hnext]
    rcases List.mem_cons.mp (hperm.mem_iff.mp hh) with rfl | hmem
    · exact Nat.lt_succ_self _
    · exact Nat.lt_succ_of_lt (hlt h hmem)
  have hvalid1 : ValidNotes (s.addEvent m).list := by
    intro h hh hon
    rcases List.mem_cons.mp (hperm.mem_iff.mp hh) with rfl | hmem
    · exact hm hon
    · exact hvalid h hmem hon
  refine ⟨updateMatchedPairs_wellPaired _ hnd1 hlt1 hvalid1, ?_⟩
  intro y hy hyon
  obtain ⟨y0, hy0, e⟩ := updateMatchedPairsFrom_noteOn_origin _ _ _ y hy hyon
  rw [e]
  exact hvalid1 y0 hy0 (by rw [← e]; exact hyon)

end MidiMessageSequence

/-! ## Theorems: channel volume, pan, sends and bus routing -/

theorem jlimit_bounds (lower upper value : ℚ) (h : lower ≤ upper) :
    lower ≤ jlimit lower upper value ∧ jlimit lower upper value ≤ upper ∧
    jlimit lower upper value = max lower (min upper value) := by
  unfold jlimit
  by_cases h1 : value < lower
  · rw [if_pos h1, min_eq_right (by linarith), max_eq_left (le_of_lt h1)]
    exact ⟨le_refl _, h, rfl⟩
  · rw [if_neg h1]
    by_cases h2 : upper < value
    · rw [if_pos h2, min_eq_left (le_of_lt h2), max_eq_right h]
      exact ⟨h, le_refl _, rfl⟩
    · rw [if_neg h2, min_eq_right (not_lt.mp h2), max_eq_right (not_lt.mp h1)]
      exact ⟨not_lt.mp h1, not_lt.mp h2, rfl⟩

namespace Mixer

theorem mem_modify {α : Type} (f : α → α) (n : Nat) (l : List α) (x : α)
    (h : x ∈ l.modify f n) : x ∈ l ∨ ∃ y ∈ l, x = f y := by
  induction l generalizing n with
  | nil => cases n <;> cases h
  | cons a as ih =>
    cases n with
    | zero =>
      rcases List.mem_cons.mp h with rfl | hm
      · exact Or.inr ⟨a, List.mem_cons_self _ _, rfl⟩
      · exact Or.inl (List.mem_cons_of_mem _ hm)
    | succ n =>
      rcases List.mem_cons.mp h with rfl | hm
      · exact Or.inl (List.mem_cons_self _ _)
      · rcases ih n hm with h1 | ⟨y, hy, e⟩
        · exact Or.inl (List.mem_cons_of_mem _ h1)
        · exact Or.inr ⟨y, List.mem_cons_of_mem _ hy, e⟩

theorem jlimit_num (lo hi x : ℚ) :
    jlimit (CFloat.num lo) (CFloat.num hi) (CFloat.num x) = CFloat.num (jlimit lo hi x) := by
  unfold jlimit
  have h1 : (CFloat.num x < CFloat.num lo) ↔ x < lo := by
    show (CFloat.lt _ _ = true) ↔ _
    simp [CFloat.lt]
  have h2 : (CFloat.num hi < CFloat.num x) ↔ hi < x := by
    show (CFloat.lt _ _ = true) ↔ _
    simp [CFloat.lt]
  by_cases a : x < lo
  · rw [if_pos (h1.mpr a), if_pos a]
  · rw [if_neg (fun h => a (h1.mp h)), if_neg a]
    by_cases b : hi < x
    · rw [if_pos (h2.mpr b), if_pos b]
    · rw [if_neg (fun h => b (h2.mp h)), if_neg b]

/-- On a float that is not NaN, `jlimit` between two finite bounds gives the
finite value between the bounds that is nearest to it. -/
theorem jlimit_float (lo hi : ℚ) (h : lo ≤ hi) (v : CFloat) (hv : v ≠ CFloat.nan) :
    ∃ q : ℚ, jlimit (CFloat.num lo) (CFloat.num hi) v = CFloat.num q ∧ lo ≤ q ∧ q ≤ hi ∧
      (∀ x, v = CFloat.num x → q = max lo (min hi x)) ∧
      (v = CFloat.negInf → q = lo) ∧ (v = CFloat.posInf → q = hi) := by
  cases v with
  | nan => exact absurd rfl hv
  | negInf =>
    refine ⟨lo, ?_, le_refl _, h, ?_, fun _ => rfl, ?_⟩
    · unfold jlimit
      rw [if_pos (show CFloat.negInf < CFloat.num lo from rfl)]
    · intro x hx
      cases hx
    · intro hx
      cases hx
  | posInf =>
    refine ⟨hi, ?_, h, le_refl _, ?_, ?_, fun _ => rfl⟩
    · unfold jlimit
      rw [if_neg (show ¬ (CFloat.posInf < CFloat.num lo) from fun hc => by cases hc),
        if_pos (show CFloat.num hi < CFloat.posInf from rfl)]
    · intro x hx
      cases hx
    · intro hx
      cases hx
  | num x =>
    have hb := jlimit_bounds lo hi x h
    refine ⟨jlimit lo hi x, jlimit_num lo hi x, hb.1, hb.2.1, ?_, ?_, ?_⟩
    · intro y hy
      cases hy
      exact hb.2.2
    · intro hx
      cases hx
    · intro hx
      cases hx

theorem setChannelVolume_of_limit (m : Mixer) (index : Int) (v : CFloat) (q : ℚ)
    (hq : jlimit (CFloat.num 0) (CFloat.num 2) v = CFloat.num q) :
    m.setChannelVolume index v =
      some (if 0 ≤ index ∧ index < m.channels.length then
        sendChangeMessage
          { m with
            channels := m.channels.modify (fun c => { c with volume := q }) index.toNat }
        else m) := by
  unfold setChannelVolume
  rw [hq]
  split <;> rfl

theorem setChannelPan_of_limit (m : Mixer) (index : Int) (p : CFloat) (q : ℚ)
    (hq : jlimit (CFloat.num (-1)) (CFloat.num 1) p = CFloat.num q) :
    m.setChannelPan index p =
      some (if 0 ≤ index ∧ index < m.channels.length then
        sendChangeMessage
          { m with
            channels := m.channels.modify (fun c => { c with pan := q }) index.toNat }
        else m) := by
  unfold setChannelPan
  rw [hq]
  split <;> rfl

theorem applyVolumePan_inRange (m : Mixer) (c : VolumePanCall) (h : m.VolumePanInRange)
    (hc : c.value ≠ CFloat.nan) :
    ∃ m1, m.applyVolumePan c = some m1 ∧ m1.VolumePanInRange := by
  cases c with
  | volume i v =>
    obtain ⟨q, hq, h0, _, _⟩ := jlimit_float 0 2 (by norm_num) v hc
    refine ⟨_, setChannelVolume_of_limit m i v q hq, ?_⟩
    split
    · intro ch hch
      rcases mem_modify _ _ _ ch hch with h1 | ⟨y, hy, e⟩
      · exact h ch h1
      · rw [e]
        exact ⟨h0, (h y hy).2⟩
    · exact h
  | pan i p =>
    obtain ⟨q, hq, h0, h1, _⟩ := jlimit_float (-1) 1 (by norm_num) p hc
    refine ⟨_, setChannelPan_of_limit m i p q hq, ?_⟩
    split
    · intro ch hch
      rcases mem_modify _ _ _ ch hch with h2 | ⟨y, hy, e⟩
      · exact h ch h2
      · rw [e]
        exact ⟨(h y hy).1, h0, h1⟩
    · exact h

theorem applyVolumePanCalls_inRange (cs : List VolumePanCall) :
    ∀ (m : Mixer), m.VolumePanInRange → (∀ c ∈ cs, c.value ≠ CFloat.nan) →
      ∃ m1, m.applyVolumePanCalls cs = some m1 ∧ m1.VolumePanInRange := by
  induction cs with
  | nil =>
    intro m h _
    exact ⟨m, rfl, h⟩
  | cons c cs ih =>
    intro m h hcs
    obtain ⟨m1, h1, h2⟩ := applyVolumePan_inRange m c h (hcs c (List.mem_cons_self _ _))
    obtain ⟨m2, h3, h4⟩ := ih m1 h2 (fun d hd => hcs d (List.mem_cons_of_mem _ hd))
    refine ⟨m2, ?_, h4⟩
    show (m.applyVolumePan c).bind _ = _
    rw [h1]
    exact h3

theorem mem_vectorResize {α : Type} (xs : List α) (n : Nat) (d x : α)
    (h : x ∈ vectorResize xs n d) : x ∈ xs ∨ x = d := by
  unfold vectorResize at h
  rcases List.mem_append.mp h with h1 | h1
  · exact Or.inl (List.mem_of_mem_take h1)
  · exact Or.inr (List.eq_of_mem_replicate h1)

theorem setProject_init_inRange (project : Option Project) :
    (Mixer.init.setProject project).VolumePanInRange := by
  unfold setProject
  split
  · intro c hc
    cases hc
  · cases project with
    | none =>
      intro c hc
      cases hc
    | some p =>
      intro c hc
      rcases mem_vectorResize _ _ _ c hc with h1 | h1
      · cases h1
      · rw [h1]
        refine ⟨?_, ?_, ?_⟩ <;> norm_num

end Mixer

/-- C25 (counterexample): a NaN passes through `jlimit`, both
comparisons being false, so `setChannelVolume(0, NaN)` and `setChannelPan(0, NaN)`
on a mixer with three channels store a NaN, which is neither `≥ 0` nor within
`[-1, 1]`; the model has no channel state for it. -/
theorem setChannelVolume_setChannelPan_store_nan :
    jlimit (CFloat.num 0) (CFloat.num 2) CFloat.nan = CFloat.nan ∧
    jlimit (CFloat.num (-1)) (CFloat.num 1) CFloat.nan = CFloat.nan ∧
    ¬ (CFloat.num 0 ≤ CFloat.nan) ∧
    ¬ (CFloat.num (-1) ≤ CFloat.nan) ∧
    ¬ (CFloat.nan ≤ CFloat.num 1) ∧
    (0 : Int) < exampleMixer.channels.length ∧
    (exampleMixer.setChannelVolume 0 CFloat.nan).isSome = false ∧
    (exampleMixer.setChannelPan 0 CFloat.nan).isSome = false := by
  refine ⟨?_, ?_, ?_, ?_, ?_, ?_, ?_, ?_⟩ <;> decide

/-- C25 (amended): for a volume `v` and a pan `p` that are not NaN, `jlimit`
gives finite values `lv` in `[0, 2]` and `lp` in `[-1, 1]` (`v` and `p` limited
to the interval; the bound on its side for an infinity); after
`setChannelVolume(i, v)` with a valid index the volume of channel `i` is `lv`
and after `setChannelPan(i, p)` its pan is `lp`, the other channels being as
before; a call with an index outside `[0, number of channels)`, with any float,
returns the mixer unchanged; and after any sequence of the two setters that
passes no NaN, on a mixer just bound to a project or on any mixer whose
channels are in range, every channel has volume `≥ 0` and pan in `[-1, 1]`. -/
theorem setChannelVolume_setChannelPan_limit (m : Mixer) (index : Int) (v p : CFloat)
    (hv : v ≠ CFloat.nan) (hp : p ≠ CFloat.nan) :
    ∃ lv lp : ℚ,
      jlimit (CFloat.num 0) (CFloat.num 2) v = CFloat.num lv ∧
      jlimit (CFloat.num (-1)) (CFloat.num 1) p = CFloat.num lp ∧
      (0 ≤ lv ∧ lv ≤ 2 ∧ (∀ x, v = CFloat.num x → lv = max 0 (min 2 x)) ∧
        (v = CFloat.negInf → lv = 0) ∧ (v = CFloat.posInf → lv = 2)) ∧
      (-1 ≤ lp ∧ lp ≤ 1 ∧ (∀ x, p = CFloat.num x → lp = max (-1) (min 1 x)) ∧
        (p = CFloat.negInf → lp = -1) ∧ (p = CFloat.posInf → lp = 1)) ∧
      ((0 ≤ index ∧ index < m.channels.length) →
        ∃ mv mp : Mixer,
          m.setChannelVolume index v = some mv ∧ m.setChannelPan index p = some mp ∧
          (mv.channels[index.toNat]?).map Channel.volume = some lv ∧
          (mp.channels[index.toNat]?).map Channel.pan = some lp ∧
          (∀ j : Nat, j ≠ index.toNat →
            mv.channels[j]? = m.channels[j]? ∧ mp.channels[j]? = m.channels[j]?)) ∧
      (¬ (0 ≤ index ∧ index < m.channels.length) →
        ∀ w : CFloat, m.setChannelVolume index w = some m ∧ m.setChannelPan index w = some m) ∧
      (∀ (project : Option Project) (calls : List VolumePanCall),
        (∀ c ∈ calls, c.value ≠ CFloat.nan) →
        ∃ m1, (Mixer.init.setProject project).applyVolumePanCalls calls = some m1 ∧
          m1.VolumePanInRange) ∧
      (m.VolumePanInRange → ∀ calls : List VolumePanCall,
        (∀ c ∈ calls, c.value ≠ CFloat.nan) →
        ∃ m1, m.applyVolumePanCalls calls = some m1 ∧ m1.VolumePanInRange) := by
  obtain ⟨lv, hlv, hv1, hv2, hv3, hv4, hv5⟩ := Mixer.jlimit_float 0 2 (by norm_num) v hv
  obtain ⟨lp, hlp, hp1, hp2, hp3, hp4, hp5⟩ := Mixer.jlimit_float (-1) 1 (by norm_num) p hp
  refine ⟨lv, lp, hlv, hlp, ⟨hv1, hv2, hv3, hv4, hv5⟩, ⟨hp1, hp2, hp3, hp4, hp5⟩, ?_, ?_, ?_, ?_⟩
  · intro hvalid
    have hlt : index.toNat < m.channels.length := by omega
    refine ⟨_, _, Mixer.setChannelVolume_of_limit m index v lv hlv,
      Mixer.setChannelPan_of_limit m index p lp hlp, ?_, ?_, ?_⟩
    · rw [if_pos hvalid]
      show ((m.channels.modify _ index.toNat)[index.toNat]?).map Channel.volume = _
      rw [List.getElem?_modify_eq, List.getElem?_eq_getElem hlt]
      rfl
    · rw [if_pos hvalid]
      show ((m.channels.modify _ index.toNat)[index.toNat]?).map Channel.pan = _
      rw [List.getElem?_modify_eq, List.getElem?_eq_getElem hlt]
      rfl
    · intro j hj
      rw [if_pos hvalid, if_pos hvalid]
      constructor
      · show (m.channels.modify _ index.toNat)[j]? = _
        rw [List.getElem?_modify_ne _ _ (Ne.symm hj)]
      · show (m.channels.modify _ index.toNat)[j]? = _
        rw [List.getElem?_modify_ne _ _ (Ne.symm hj)]
  · intro hinvalid w
    unfold Mixer.setChannelVolume Mixer.setChannelPan
    rw [if_neg hinvalid, if_neg hinvalid]
    exact ⟨rfl, rfl⟩
  · intro project calls hcalls
    exact Mixer.applyVolumePanCalls_inRange calls _ (Mixer.setProject_init_inRange project)
      hcalls
  · intro h calls hcalls
    exact Mixer.applyVolumePanCalls_inRange calls m h hcalls

/-- C25 (amended), an instance: on the mixer with three channels, channel 1 is
given the volume 3, stored as 2, and the pan minus infinity, stored as -1. -/
theorem setChannelVolume_setChannelPan_limit_witness :
    CFloat.num 3 ≠ CFloat.nan ∧ CFloat.negInf ≠ CFloat.nan ∧
    (0 : Int) ≤ 1 ∧ (1 : Int) < exampleMixer.channels.length ∧
    ((exampleMixer.setChannelVolume 1 (CFloat.num 3)).bind
      (fun m => (m.channels[1]?).map Channel.volume)) = some 2 ∧
    ((exampleMixer.setChannelPan 1 CFloat.negInf).bind
      (fun m => (m.channels[1]?).map Channel.pan)) = some (-1) := by
  obtain ⟨lv, lp, _, _, hlv, hlp, hset, _⟩ :=
    setChannelVolume_setChannelPan_limit exampleMixer 1 (CFloat.num 3) CFloat.negInf
      (by decide) (by decide)
  obtain ⟨mv, mp, h1, h2, h3, h4, _⟩ := hset ⟨by decide, by decide⟩
  have e1 : lv = 2 := by
    rw [hlv.2.2.1 3 rfl]
    norm_num
  have e2 : lp = -1 := hlp.2.2.2.1 rfl
  rw [h1, h2]
  refine ⟨by decide, by decide, by decide, by decide, ?_, ?_⟩
  · show (mv.channels[(1 : Int).toNat]?).map Channel.volume = _
    rw [h3, e1]
  · show (mp.channels[(1 : Int).toNat]?).map Channel.pan = _
    rw [h4, e2]

/-- C23 (counterexample): with two buses, both routed to master,
`setBusOutput(0, 0)` is accepted and routes bus 0 to itself, `setBusOutput(1, 7)`
is accepted and stores the index 7 that no bus has, and `setBusOutput(0, 1)`
followed by `setBusOutput(1, 0)` leaves the two buses routed to each other. -/
theorem setBusOutput_accepts_self_routing :
    exampleBusMixer.buses.map Bus.outputBus = [-1, -1] ∧
    (exampleBusMixer.setBusOutput 0 0).buses.map Bus.outputBus = [0, -1] ∧
    (exampleBusMixer.setBusOutput 1 7).buses.map Bus.outputBus = [-1, 7] ∧
    ((exampleBusMixer.setBusOutput 0 1).setBusOutput 1 0).buses.map Bus.outputBus = [1, 0] := by
  decide

/-- C23 (amended): `addBus` appends a bus routed to master (`outputBus = -1`);
`setBusOutput(index, outputBus)` with a valid bus index stores `outputBus` as
given in that bus, whatever its value, and leaves every other bus unchanged; a
call with an index outside `[0, number of buses)` returns the mixer unchanged. -/
theorem setBusOutput_stores_output (m : Mixer) (index outputBus : Int) (type : BusType)
    (name : String) :
    (m.addBus type name).1.buses = m.buses ++ [{ type := type, name := name, outputBus := -1 }] ∧
    (m.addBus type name).2 = m.buses.length ∧
    ((0 ≤ index ∧ index < m.buses.length) →
      ((m.setBusOutput index outputBus).buses[index.toNat]?).map Bus.outputBus
        = some outputBus ∧
      (m.setBusOutput index outputBus).buses.length = m.buses.length ∧
      (∀ j : Nat, j ≠ index.toNat →
        (m.setBusOutput index outputBus).buses[j]? = m.buses[j]?)) ∧
    (¬ (0 ≤ index ∧ index < m.buses.length) → m.setBusOutput index outputBus = m) := by
  refine ⟨rfl, ?_, ?_, ?_⟩
  · simp [Mixer.addBus, Mixer.sendChangeMessage, Mixer.updateProcessingBuffers]
  · intro hvalid
    have hlt : index.toNat < m.buses.length := by omega
    unfold Mixer.setBusOutput
    rw [if_pos hvalid]
    refine ⟨?_, ?_, ?_⟩
    · show ((m.buses.modify _ index.toNat)[index.toNat]?).map Bus.outputBus = _
      rw [List.getElem?_modify_eq, List.getElem?_eq_getElem hlt]
      rfl
    · show (m.buses.modify _ index.toNat).length = _
      rw [List.length_modify]
    · intro j hj
      show (m.buses.modify _ index.toNat)[j]? = _
      rw [List.getElem?_modify_ne _ _ (Ne.symm hj)]
  · intro hinvalid
    unfold Mixer.setBusOutput
    rw [if_neg hinvalid]

/-- C24 (the code at the failing input): on a mixer with one channel and one
bus, `addSend(0, 0, 5)` stores the send level 5, outside `[0, 1]`; the sibling
`setSendLevel(0, 0, 5)` on that send stores 1. -/
theorem addSend_stores_level_unchecked :
    ((exampleBusMixer.addSend 0 0 5).channels.map Channel.sends = [[(0, 5)]]) ∧
    (((exampleBusMixer.addSend 0 0 5).setSendLevel 0 0 5).channels.map Channel.sends
      = [[(0, 1)]]) ∧
    ((exampleBusMixer.addSend 0 0 (-3)).channels.map Channel.sends = [[(0, -3)]]) := by
  decide

/-- C30 (the code at the failing input): after two `addBus` calls,
`addSend(0, 1, 1)` and `removeBus(0)`, one bus is left, and channel 0 still
holds its send to bus index 1, which no bus has. -/
theorem removeBus_leaves_send_to_missing_bus :
    (exampleBusMixer.addSend 0 1 1).channels.map Channel.sends = [[(1, 1)]] ∧
    ((exampleBusMixer.addSend 0 1 1).removeBus 0).buses.length = 1 ∧
    ((exampleBusMixer.addSend 0 1 1).removeBus 0).channels.map Channel.sends = [[(1, 1)]] ∧
    (((exampleBusMixer.addSend 0 0 1).addSend 0 1 1).removeBus 0).channels.map Channel.sends
      = [[(1, 1)]] := by
  decide

/-! ## Theorems: loading a sparse tree -/

/-- C26 (the code at the failing input): a mixer bound to a one-track project
loads a tree whose only bus node has no properties. The load completes and the
channel gets the defaults (volume 1, pan 0, mute, solo and bypass false), but
the bus gets `outputBus = 0`, not the default `-1` of the struct: bus 0 is
routed to itself. -/
theorem loadState_missing_output_routes_to_bus_zero :
    ({} : Bus).outputBus = -1 ∧
    ((Mixer.init.setProject (some { addr := 1, numTracks := 1 })).loadState
      exampleSparseTree).map (fun m => m.channels) = some [{}] ∧
    ((Mixer.init.setProject (some { addr := 1, numTracks := 1 })).loadState
      exampleSparseTree).map (fun m => m.buses.map Bus.outputBus) = some [0] ∧
    ((Mixer.init.setProject (some { addr := 1, numTracks := 1 })).loadState
      exampleSparseTree).map (fun m => m.masterChannel) = some { volume := 1 } := by
  decide

/-- C27 (the code at the failing input): a newly constructed mixer, which has no
channels and an empty solo buffer, loads a tree with one channel node: the
closing `updateSoloStates` writes `channelSoloBuffer[0]` past the end of the
empty vector. A mixer bound to a three-track project that loads the same tree
ends with one channel and three solo entries. -/
theorem loadState_writes_past_solo_buffer :
    Mixer.init.channelSoloBuffer = [] ∧
    (Mixer.init.loadState exampleSparseTree).isNone = true ∧
    ((Mixer.init.setProject (some { addr := 1, numTracks := 3 })).loadState
      exampleSparseTree).map (fun m => (m.channels.length, m.channelSoloBuffer.length))
      = some (1, 3) := by
  decide

/-! ## Theorems: transport mutators and the recording invariant -/

/-- C28 (counterexample): on a newly constructed engine, whose transport holds
120 bpm, no looping, loop points 0 and 0 and the time signature 4/4, each of
`setBpm(120)`, `setLooping(false)`, `setLoopPoints(0, 0)` and
`setTimeSignature(4, 4)` leaves the transport as it is and sends a change
notification all the same. -/
theorem transport_mutators_notify_without_change :
    ({} : AudioEngine).changeMessages = 0 ∧
    (AudioEngine.setBpm {} 120).transport = ({} : AudioEngine).transport ∧
    (AudioEngine.setBpm {} 120).changeMessages = 1 ∧
    (AudioEngine.setLooping {} false).transport = ({} : AudioEngine).transport ∧
    (AudioEngine.setLooping {} false).changeMessages = 1 ∧
    (AudioEngine.setLoopPoints {} 0 0).transport = ({} : AudioEngine).transport ∧
    (AudioEngine.setLoopPoints {} 0 0).changeMessages = 1 ∧
    (AudioEngine.setTimeSignature {} 4 4).transport = ({} : AudioEngine).transport ∧
    (AudioEngine.setTimeSignature {} 4 4).changeMessages = 1 := by
  decide

/-- C28 (amended): each of `setBpm`, `setLooping`, `setLoopPoints` and
`setTimeSignature` stores its arguments in the transport state and changes
nothing else of it, so a call whose arguments equal the stored values leaves the
transport state unchanged; and every call sends exactly one change
notification, whether or not a value changed. -/
theorem transport_mutators_store_and_notify (e : AudioEngine) (newBpm startTime endTime : ℚ)
    (shouldLoop : Bool) (numerator denominator : Int) :
    ((e.setBpm newBpm).transport = { e.transport with bpm := newBpm } ∧
      (e.setBpm newBpm).changeMessages = e.changeMessages + 1 ∧
      (newBpm = e.transport.bpm → (e.setBpm newBpm).transport = e.transport)) ∧
    ((e.setLooping shouldLoop).transport = { e.transport with isLooping := shouldLoop } ∧
      (e.setLooping shouldLoop).changeMessages = e.changeMessages + 1 ∧
      (shouldLoop = e.transport.isLooping → (e.setLooping shouldLoop).transport = e.transport)) ∧
    ((e.setLoopPoints startTime endTime).transport
        = { e.transport with loopStart := startTime, loopEnd := endTime } ∧
      (e.setLoopPoints startTime endTime).changeMessages = e.changeMessages + 1 ∧
      (startTime = e.transport.loopStart → endTime = e.transport.loopEnd →
        (e.setLoopPoints startTime endTime).transport = e.transport)) ∧
    ((e.setTimeSignature numerator denominator).transport
        = { e.transport with
            timeSignature := { numerator := numerator, denominator := denominator } } ∧
      (e.setTimeSignature numerator denominator).changeMessages = e.changeMessages + 1 ∧
      (numerator = e.transport.timeSignature.numerator →
        denominator = e.transport.timeSignature.denominator →
        (e.setTimeSignature numerator denominator).transport = e.transport)) := by
  refine ⟨⟨rfl, rfl, ?_⟩, ⟨rfl, rfl, ?_⟩, ⟨rfl, rfl, ?_⟩, ⟨rfl, rfl, ?_⟩⟩
  · intro h
    show ({ e.transport with bpm := newBpm } : TransportState) = e.transport
    rw [h]
  · intro h
    show ({ e.transport with isLooping := shouldLoop } : TransportState) = e.transport
    rw [h]
  · intro h1 h2
    show ({ e.transport with loopStart := startTime, loopEnd := endTime } : TransportState)
      = e.transport
    rw [h1, h2]
  · intro h1 h2
    show ({ e.transport with
      timeSignature := { numerator := numerator, denominator := denominator } } : TransportState)
      = e.transport
    rw [h1, h2]

namespace AudioEngine

theorem reachable_calls (cs : List EngineCall) :
    ∀ (e : AudioEngine), e.Reachable → (e.calls cs).Reachable := by
  induction cs with
  | nil => intro e h; exact h
  | cons c cs ih =>
    intro e h
    exact ih _ (Reachable.step e c h)

end AudioEngine

/-- C29: after any sequence of calls on a newly constructed engine (`initialize`,
`shutdown`, `play`, `stop`, `record`, `setProject`, `applySettings` with a device
that opens or fails, and also the transport setters and the per-block updates),
a transport that is recording is playing. -/
theorem isRecording_implies_isPlaying (cs : List EngineCall)
    (h : (AudioEngine.calls {} cs).transport.isRecording = true) :
    (AudioEngine.calls {} cs).transport.isPlaying = true :=
  AudioEngine.reachable_recordingImpliesPlaying _
    (AudioEngine.reachable_calls cs _ AudioEngine.Reachable.init) h

/-- C29, an instance: after `initialize()`, `record()`, a failing
`applySettings`, and `record()` again, the transport records and plays. -/
theorem isRecording_implies_isPlaying_witness :
    (AudioEngine.calls {}
      [.initializeEngine (some exampleDevice), .record,
        .applySettings { sampleRate := 48000 } none, .record]).transport.isRecording = true ∧
    (AudioEngine.calls {}
      [.initializeEngine (some exampleDevice), .record,
        .applySettings { sampleRate := 48000 } none, .record]).transport.isPlaying = true :=
  ⟨by decide, isRecording_implies_isPlaying _ (by decide)⟩

/-! ## Theorems: the device callback -/

theorem floatVectorClear_block (dest : List ℚ) (numSamples : Int)
    (h : (dest.length : Int) = numSamples) :
    floatVectorClear dest numSamples = some (List.replicate numSamples.toNat 0) := by
  unfold floatVectorClear
  by_cases h0 : numSamples ≤ 0
  · rw [if_pos h0]
    have hl : dest.length = 0 := by omega
    have hn : numSamples.toNat = 0 := by omega
    rw [List.length_eq_zero.mp hl, hn]
    rfl
  · rw [if_neg h0, if_neg (by omega)]
    have hn : numSamples.toNat = dest.length := by omega
    rw [hn, List.drop_length, List.append_nil]

namespace AudioEngine

/-- The clearing loop of `processAudioBlock` on channel arrays of the block
length: it returns, and every channel it visits is all zeros. -/
theorem clearOutputFrom_block (numSamples : Int) :
    ∀ (k channel : Nat) (out : List (List ℚ)), channel + k = out.length →
      (∀ ch ∈ out.drop channel, (ch.length : Int) = numSamples) →
      clearOutputFrom numSamples k channel out
        = some (out.take channel ++ List.replicate k (List.replicate numSamples.toNat 0)) := by
  intro k
  induction k with
  | zero =>
    intro channel out hlen _
    have : out.take channel = out := List.take_of_length_le (by omega)
    simp [clearOutputFrom, this]
  | succ k ih =>
    intro channel out hlen hall
    have hlt : channel < out.length := by omega
    have hdrop : out.drop channel = out[channel] :: out.drop (channel + 1) :=
      List.drop_eq_getElem_cons hlt
    have hd : (out[channel].length : Int) = numSamples :=
      hall _ (by rw [hdrop]; exact List.mem_cons_self _ _)
    unfold clearOutputFrom
    rw [List.getElem?_eq_getElem hlt]
    simp only [floatVectorClear_block _ _ hd, Option.some_bind]
    rw [ih (channel + 1) _ (by rw [List.length_set]; omega)]
    · congr 1
      have htake : (out.set channel (List.replicate numSamples.toNat 0)).take channel
          = out.take channel := by
        apply List.ext_getElem?
        intro i
        simp only [List.getElem?_take]
        split
        · rw [List.getElem?_set_ne (by omega)]
        · rfl
      rw [List.take_succ, htake, List.getElem?_set_self hlt, List.replicate_succ]
      simp
    · intro ch hch
      rw [List.drop_set_of_lt _ _ (Nat.lt_succ_self _)] at hch
      exact hall ch (by rw [hdrop]; exact List.mem_cons_of_mem _ hch)

end AudioEngine

/-- C21: a device callback with `numOutputChannels` output arrays of `numSamples`
samples each, made while the transport is not playing or no project is bound,
returns, and afterwards every output array holds `numSamples` zeros, whatever the
inputs and the previous output contents were. -/
theorem idle_callback_outputs_silence (e : AudioEngine) (inputChannelData : List (List ℚ))
    (numInputChannels : Int) (outputChannelData : List (List ℚ))
    (numOutputChannels numSamples : Int) (processTimeMs : ℚ)
    (hidle : e.transport.isPlaying = false ∨ e.currentProject = none)
    (hchannels : (outputChannelData.length : Int) = numOutputChannels)
    (hsamples : ∀ ch ∈ outputChannelData, (ch.length : Int) = numSamples) :
    ∃ e1 out,
      e.audioDeviceIOCallback inputChannelData numInputChannels outputChannelData
        numOutputChannels numSamples processTimeMs = some (e1, out) ∧
      out.length = outputChannelData.length ∧
      (∀ ch ∈ out, ch = List.replicate numSamples.toNat 0) ∧
      (∀ channel sample : Nat, channel < out.length → sample < numSamples.toNat →
        (out.getD channel []).getD sample 1 = 0) := by
  have hk : numOutputChannels.toNat = outputChannelData.length := by omega
  have hclear := AudioEngine.clearOutputFrom_block numSamples numOutputChannels.toNat 0
    outputChannelData (by omega) (by simpa using hsamples)
  have hidle2 : e.transport.isPlaying = false ∨ e.currentProject.isNone = true := by
    rcases hidle with h | h
    · exact Or.inl h
    · exact Or.inr (by rw [h]; rfl)
  refine ⟨((e.processMidiBlock numSamples).updateTransportPosition numSamples).updateCPUInfo
      processTimeMs,
    List.replicate numOutputChannels.toNat (List.replicate numSamples.toNat 0), ?_, ?_, ?_, ?_⟩
  · unfold AudioEngine.audioDeviceIOCallback AudioEngine.processAudioBlock
    rw [hclear]
    simp only [List.take_zero, List.nil_append, Option.some_bind, if_pos hidle2, Option.map_some']
  · rw [List.length_replicate, hk]
  · intro ch hch
    exact List.eq_of_mem_replicate hch
  · intro channel sample hc hs
    rw [List.length_replicate] at hc
    simp [List.getD_eq_getElem?_getD, List.getElem?_replicate, hc, hs]

/-- C21, an instance: a stopped engine gets two output channels of three samples
that hold old values; afterwards both hold zeros. -/
theorem idle_callback_outputs_silence_witness :
    ∃ e1 out,
      AudioEngine.audioDeviceIOCallback {} [[1, 2, 3], [4, 5, 6]] 2 [[7, 8, 9], [1, 1, 1]] 2 3 1
        = some (e1, out) ∧
      out.length = [[(7 : ℚ), 8, 9], [1, 1, 1]].length ∧
      (∀ ch ∈ out, ch = List.replicate (3 : Int).toNat 0) ∧
      (∀ channel sample : Nat, channel < out.length → sample < (3 : Int).toNat →
        (out.getD channel []).getD sample 1 = 0) :=
  idle_callback_outputs_silence {} [[1, 2, 3], [4, 5, 6]] 2 [[7, 8, 9], [1, 1, 1]] 2 3 1
    (Or.inl rfl) (by decide) (by decide)

/-! ## Theorems: starting and stopping a recording -/

namespace MidiMessageSequence

theorem findNoteOff_target (note chan : Int) (newId : Nat) :
    ∀ (rest : List MidiEventHolder), ∀ p ∈ (findNoteOff note chan newId rest).1,
      ∃ o ∈ (findNoteOff note chan newId rest).2.1, o.id = p := by
  intro rest
  induction rest with
  | nil => intro p hp; cases hp
  | cons m rest ih =>
    intro p hp
    unfold findNoteOff at hp ⊢
    split at hp
    · rename_i h1
      rw [if_pos h1]
      exact ⟨m, List.mem_cons_self _ _, Option.some.inj (Option.mem_def.mp hp)⟩
    · rename_i h1
      rw [if_neg h1]
      split at hp
      · rename_i h2
        rw [if_pos h2]
        exact ⟨_, List.mem_cons_self _ _, Option.some.inj (Option.mem_def.mp hp)⟩
      · rename_i h2
        rw [if_neg h2]
        obtain ⟨o, ho, hid⟩ := ih p hp
        exact ⟨o, List.mem_cons_of_mem _ ho, hid⟩

/-- With a sufficient step budget `updateMatchedPairs()` leaves no dangling
`noteOffObject`. -/
theorem updateMatchedPairsFrom_resolved :
    ∀ (fuel : Nat) (todo : List MidiEventHolder) (nextId : Nat),
      todo.length + todo.countP (fun h => h.message.isNoteOn) ≤ fuel →
      Resolved (updateMatchedPairsFrom fuel todo nextId).1 := by
  intro fuel
  induction fuel with
  | zero =>
    intro todo nextId h
    have : todo = [] := List.length_eq_zero.mp (by omega)
    subst this
    intro x hx
    cases hx
  | succ fuel ih =>
    intro todo nextId h
    cases todo with
    | nil =>
      intro x hx
      cases hx
    | cons meh rest =>
      simp only [List.length_cons, List.countP_cons] at h
      unfold updateMatchedPairsFrom
      by_cases hon : meh.message.isNoteOn = true
      · rw [if_pos hon]
        simp only [hon, if_true] at h ⊢
        have hm := findNoteOff_measure meh.message.getNoteNumber meh.message.getChannel
          nextId rest
        have hrec := ih (findNoteOff meh.message.getNoteNumber meh.message.getChannel
          nextId rest).2.1
          (if (findNoteOff meh.message.getNoteNumber meh.message.getChannel nextId rest).2.2
            = true then nextId + 1 else nextId) (by omega)
        intro x hx hxon p hp
        rcases List.mem_cons.mp hx with rfl | hmem
        · obtain ⟨o, ho, hid⟩ := findNoteOff_target _ _ _ rest p hp
          obtain ⟨o1, ho1, e1, _⟩ := updateMatchedPairsFrom_mem fuel _
            (if (findNoteOff meh.message.getNoteNumber meh.message.getChannel nextId rest).2.2
              = true then nextId + 1 else nextId) o ho
          exact ⟨o1, List.mem_cons_of_mem _ ho1, by rw [e1, hid]⟩
        · obtain ⟨o, ho, hid⟩ := hrec x hmem hxon p hp
          exact ⟨o, List.mem_cons_of_mem _ ho, hid⟩
      · rw [if_neg hon]
        simp only [hon, Bool.false_eq_true, if_false, add_zero] at h
        have hrec := ih rest nextId (by omega)
        intro x hx hxon p hp
        rcases List.mem_cons.mp hx with rfl | hmem
        · exact absurd hxon hon
        · obtain ⟨o, ho, hid⟩ := hrec x hmem hxon p hp
          exact ⟨o, List.mem_cons_of_mem _ ho, hid⟩

end MidiMessageSequence

namespace MIDISequencer

/-- Function `quantizeEvents` returns on a sequence of distinct holders without
dangling pointers. -/
theorem quantizeEvents_returns (sequence : MidiMessageSequence) (grid : ℚ)
    (hnd : (sequence.list.map (fun h => h.id)).Nodup)
    (hres : MidiMessageSequence.Resolved sequence.list) :
    ∃ result, quantizeEvents sequence grid = some result := by
  have hloop := quantizeEventsFrom_retime grid sequence.list hres sequence.list.length 0
    (MidiMessageSequence.timeOf sequence.list) (by omega)
  rw [MidiMessageSequence.retime_timeOf sequence.list hnd] at hloop
  have hq : quantizeEvents sequence grid
      = (quantizeEventsFrom grid sequence.list.length 0 sequence.list).map
        (fun l => MidiMessageSequence.updateMatchedPairs { sequence with list := l }) := rfl
  rw [hq, hloop]
  exact ⟨_, rfl⟩

theorem finalizeRecording_returns (s : MIDISequencer) (h : s.RecorderSound) :
    ∃ s1, s.finalizeRecording = some s1 ∧ s1.currentProject = s.currentProject := by
  unfold finalizeRecording
  split
  · exact ⟨s, rfl, rfl⟩
  · split
    · obtain ⟨r, hr⟩ := quantizeEvents_returns s.recordingSequence s.recordSettings.quantizeGrid
        h.2.1 h.2.2.2
      rw [hr]
      exact ⟨_, rfl, rfl⟩
    · exact ⟨s, rfl, rfl⟩

/-- Function `stopRecording` returns, and leaves the recorder idle with its
bookkeeping reset. -/
theorem stopRecording_spec (s : MIDISequencer) (h : s.RecorderSound) :
    ∃ s1, s.stopRecording = some s1 ∧ s1.recording = false ∧ s1.recordingTrack = none ∧
      s1.recordingSequence.list = [] ∧ s1.recordingStartTime = 0 ∧
      s1.currentProject = s.currentProject := by
  unfold stopRecording
  by_cases hr : s.recording = false
  · rw [if_pos hr]
    obtain ⟨h1, h2, h3⟩ := h.1 hr
    exact ⟨s, rfl, hr, h1, h2, h3, rfl⟩
  · rw [if_neg hr]
    obtain ⟨s1, hs1, hp⟩ := finalizeRecording_returns s h
    rw [hs1]
    exact ⟨_, rfl, rfl, rfl, rfl, rfl, hp⟩

theorem recorderSound_of_empty (s : MIDISequencer) (h : s.recordingSequence.list = [])
    (hidle : s.recording = false → s.recordingTrack = none ∧ s.recordingStartTime = 0) :
    s.RecorderSound := by
  refine ⟨fun hr => ⟨(hidle hr).1, h, (hidle hr).2⟩, ?_, ?_, ?_⟩
  · rw [h]
    exact List.nodup_nil
  · rw [h]
    intro x hx
    cases hx
  · rw [h]
    intro x hx
    cases hx

end MIDISequencer

namespace MIDISequencer

theorem recorderSound_of_same (s s1 : MIDISequencer) (h : s.SameRecorder s1)
    (hs : s.RecorderSound) : s1.RecorderSound := by
  obtain ⟨h1, h2, h3, h4⟩ := h
  unfold RecorderSound
  rw [h1, h2, h3, h4]
  exact hs

theorem sendMidiClockLoop_same (clockInterval position : ℚ) :
    ∀ (fuel : Nat) (s s1 : MIDISequencer),
      sendMidiClockLoop clockInterval position fuel s = some s1 → s.SameRecorder s1 := by
  intro fuel
  induction fuel with
  | zero =>
    intro s s1 h
    unfold sendMidiClockLoop at h
    split at h
    · cases h
    · cases h
      exact ⟨rfl, rfl, rfl, rfl⟩
  | succ fuel ih =>
    intro s s1 h
    unfold sendMidiClockLoop at h
    split at h
    · have h2 := ih _ _ h
      exact ⟨h2.1, h2.2.1, h2.2.2.1, h2.2.2.2⟩
    · cases h
      exact ⟨rfl, rfl, rfl, rfl⟩

theorem sendMidiTimeCodeLoop_same (frameRate : Int) (position : ℚ) :
    ∀ (fuel : Nat) (s s1 : MIDISequencer),
      sendMidiTimeCodeLoop frameRate position fuel s = some s1 → s.SameRecorder s1 := by
  intro fuel
  induction fuel with
  | zero =>
    intro s s1 h
    unfold sendMidiTimeCodeLoop at h
    split at h
    · cases h
    · cases h
      exact ⟨rfl, rfl, rfl, rfl⟩
  | succ fuel ih =>
    intro s s1 h
    unfold sendMidiTimeCodeLoop at h
    split at h
    · have h2 := ih _ _ h
      exact ⟨h2.1, h2.2.1, h2.2.2.1, h2.2.2.2⟩
    · cases h
      exact ⟨rfl, rfl, rfl, rfl⟩

theorem sameRecorder_trans (a b c : MIDISequencer) (h1 : a.SameRecorder b)
    (h2 : b.SameRecorder c) : a.SameRecorder c :=
  ⟨h2.1.trans h1.1, h2.2.1.trans h1.2.1, h2.2.2.1.trans h1.2.2.1, h2.2.2.2.trans h1.2.2.2⟩

theorem processOutputBuffer_same (fuel : Nat) (s : MIDISequencer) (buffer : MidiBuffer)
    (position : ℚ) (r : MIDISequencer × MidiBuffer)
    (h : s.processOutputBuffer fuel buffer position = some r) : s.SameRecorder r.1 := by
  unfold processOutputBuffer at h
  split at h
  · cases h
    exact ⟨rfl, rfl, rfl, rfl⟩
  · have hclock : ∀ a, (if s.playbackSettings.sendClock = true then sendMidiClock fuel s position
        else some s) = some a → s.SameRecorder a := by
      intro a ha
      split at ha
      · unfold sendMidiClock at ha
        cases hp : s.currentProject with
        | none => rw [hp] at ha; cases ha
        | some p =>
          rw [hp] at ha
          exact sendMidiClockLoop_same _ _ _ _ _ ha
      · cases ha
        exact ⟨rfl, rfl, rfl, rfl⟩
    have hmtc : ∀ a b, (if a.playbackSettings.sendMTC = true then sendMidiTimeCode fuel a position
        else some a) = some b → a.SameRecorder b := by
      intro a b hb
      split at hb
      · exact sendMidiTimeCodeLoop_same _ _ _ _ _ hb
      · cases hb
        exact ⟨rfl, rfl, rfl, rfl⟩
    cases h1 : (if s.playbackSettings.sendClock = true then sendMidiClock fuel s position
        else some s) with
    | none => rw [h1] at h; cases h
    | some a =>
      rw [h1] at h
      simp only [Option.some_bind] at h
      cases h2 : (if a.playbackSettings.sendMTC = true then sendMidiTimeCode fuel a position
          else some a) with
      | none => rw [h2] at h; cases h
      | some b =>
        rw [h2] at h
        simp only [Option.some_bind] at h
        cases h
        exact sameRecorder_trans s a _ (hclock a h1)
          (sameRecorder_trans a b _ (hmtc a b h2) ⟨rfl, rfl, rfl, rfl⟩)

/-- One recording step keeps the pending sequence free of clashes and of
dangling pointers. -/
theorem recordStep_sound (sequence : MidiMessageSequence) (m : MidiMessage)
    (hnd : (sequence.list.map (fun h => h.id)).Nodup)
    (hlt : ∀ h ∈ sequence.list, h.id < sequence.nextId) :
    (((sequence.addEvent m).updateMatchedPairs).list.map (fun h => h.id)).Nodup ∧
    (∀ h ∈ ((sequence.addEvent m).updateMatchedPairs).list,
      h.id < ((sequence.addEvent m).updateMatchedPairs).nextId) ∧
    MidiMessageSequence.Resolved ((sequence.addEvent m).updateMatchedPairs).list := by
  have hperm := MidiMessageSequence.addEvent_perm sequence m
  have hnext : (sequence.addEvent m).nextId = sequence.nextId + 1 := rfl
  have hnd1 : ((sequence.addEvent m).list.map (fun h => h.id)).Nodup := by
    rw [(hperm.map _).nodup_iff, List.map_cons, List.nodup_cons]
    refine ⟨?_, hnd⟩
    intro hin
    obtain ⟨y, hy, hyid⟩ := List.mem_map.mp hin
    have := hlt y hy
    have hyid2 : y.id = sequence.nextId := hyid
    omega
  have hlt1 : ∀ h ∈ (sequence.addEvent m).list, h.id < (sequence.addEvent m).nextId := by
    intro h hh
    rw [hnext]
    rcases List.mem_cons.mp (hperm.mem_iff.mp hh) with rfl | hmem
    · exact Nat.lt_succ_self _
    · exact Nat.lt_succ_of_lt (hlt h hmem)
  have hc := List.countP_le_length (fun h : MidiEventHolder => h.message.isNoteOn)
    (l := (sequence.addEvent m).list)
  obtain ⟨g1, g2, _, _⟩ := MidiMessageSequence.updateMatchedPairsFrom_fresh
    (2 * (sequence.addEvent m).list.length) _ _ hnd1 hlt1
  exact ⟨g1, g2, MidiMessageSequence.updateMatchedPairsFrom_resolved _ _ _ (by omega)⟩

end MIDISequencer

namespace MIDISequencer

/-- Function `startRecording` with a MIDI track returns, and leaves the recorder
recording on that track with an empty pending sequence. -/
theorem startRecording_spec (s : MIDISequencer) (h : s.RecorderSound) (t : Track)
    (ht : t.type = TrackType.MIDI) :
    ∃ s1, s.startRecording (some t) = some s1 ∧ s1.recording = true ∧
      s1.recordingTrack = some t ∧ s1.recordingSequence.list = [] ∧
      s1.recordingStartTime =
        (match s.currentProject with
          | some p => p.transportPosition
          | none => 0) ∧
      s1.currentProject = s.currentProject := by
  obtain ⟨s0, hs0, _, _, _, _, hp⟩ := stopRecording_spec s h
  unfold startRecording
  simp only []
  rw [if_neg (by rw [ht]; exact fun hne => hne rfl), hs0]
  refine ⟨_, rfl, rfl, rfl, rfl, ?_, hp⟩
  show (match s0.currentProject with
    | some p => p.transportPosition
    | none => 0) = _
  rw [hp]

theorem handleIncomingMidiMessage_sound (s : MIDISequencer) (message : MidiMessage)
    (h : s.RecorderSound) : (s.handleIncomingMidiMessage message).RecorderSound := by
  unfold handleIncomingMidiMessage
  split
  · exact h
  · simp only []
    have hthru : s.SameRecorder (if s.playbackSettings.midiThru = true then
        { s with inputBuffer := MidiBuffer.addEvent s.inputBuffer message 0 } else s) := by
      split <;> exact ⟨rfl, rfl, rfl, rfl⟩
    have h1 := recorderSound_of_same _ _ hthru h
    generalize (if s.playbackSettings.midiThru = true then
        { s with inputBuffer := MidiBuffer.addEvent s.inputBuffer message 0 } else s) = s1 at h1
    split
    · rename_i hrec
      unfold processRecordedMessage
      split
      · exact h1
      · obtain ⟨g1, g2, g3⟩ := recordStep_sound s1.recordingSequence
          (s1.recordedMessage message (message.getTimeStamp - s1.recordingStartTime)) h1.2.1
          h1.2.2.1
        refine ⟨?_, g1, g2, g3⟩
        intro hidle
        have hidle2 : s1.recording = false := hidle
        rw [hrec.1] at hidle2
        cases hidle2
    · exact h1

/-- Every call keeps the bookkeeping of the recorder sound. -/
theorem call_sound (s s1 : MIDISequencer) (c : SequencerCall) (h : s.RecorderSound)
    (hc : s.call c = some s1) : s1.RecorderSound := by
  cases c with
  | setProject project =>
    have hc2 : s.setProject project = some s1 := hc
    unfold setProject at hc2
    by_cases hr : s.recording = true
    · rw [if_pos hr] at hc2
      obtain ⟨s0, hs0, r1, r2, r3, r4, _⟩ := stopRecording_spec s h
      rw [hs0] at hc2
      cases hc2
      exact recorderSound_of_empty _ r3 (fun _ => ⟨r2, r4⟩)
    · rw [if_neg hr] at hc2
      cases hc2
      exact recorderSound_of_same s _ ⟨rfl, rfl, rfl, rfl⟩ h
  | setRecordingSettings settings =>
    cases hc
    exact recorderSound_of_same s _ ⟨rfl, rfl, rfl, rfl⟩ h
  | setPlaybackSettings settings =>
    cases hc
    exact recorderSound_of_same s _ ⟨rfl, rfl, rfl, rfl⟩ h
  | startRecording track =>
    have hc2 : s.startRecording track = some s1 := hc
    cases track with
    | none =>
      cases hc2
      exact h
    | some t =>
      by_cases ht : t.type = TrackType.MIDI
      · obtain ⟨s2, hs2, _, _, r3, _, _⟩ := startRecording_spec s h t ht
        rw [hs2] at hc2
        cases hc2
        rename_i r1 r2 r4 r5
        exact recorderSound_of_empty _ r3 (fun hidle => by rw [r1] at hidle; cases hidle)
      · unfold startRecording at hc2
        simp only [] at hc2
        rw [if_pos ht] at hc2
        cases hc2
        exact h
  | stopRecording =>
    have hc2 : s.stopRecording = some s1 := hc
    obtain ⟨s0, hs0, _, r2, r3, r4, _⟩ := stopRecording_spec s h
    rw [hs0] at hc2
    cases hc2
    exact recorderSound_of_empty _ r3 (fun _ => ⟨r2, r4⟩)
  | handleIncomingMidiMessage message =>
    cases hc
    exact handleIncomingMidiMessage_sound s message h
  | processInputBuffer buffer =>
    cases hc
    refine recorderSound_of_same s _ ?_ h
    unfold processInputBuffer
    split <;> exact ⟨rfl, rfl, rfl, rfl⟩
  | processOutputBuffer fuel buffer position =>
    have hc2 : (s.processOutputBuffer fuel buffer position).map (fun r => r.1) = some s1 := hc
    cases hr : s.processOutputBuffer fuel buffer position with
    | none => rw [hr] at hc2; cases hc2
    | some r =>
      rw [hr] at hc2
      cases hc2
      exact recorderSound_of_same s _ (processOutputBuffer_same fuel s buffer position r hr) h
  | projectAdvanced settings transportPosition =>
    cases hc
    exact recorderSound_of_same s _ ⟨rfl, rfl, rfl, rfl⟩ h

theorem reachable_recorderSound (s : MIDISequencer) (h : s.Reachable) : s.RecorderSound := by
  induction h with
  | init => exact recorderSound_of_empty _ rfl (fun _ => ⟨rfl, rfl⟩)
  | step s s1 c _ hc ih => exact call_sound s s1 c ih hc

end MIDISequencer

namespace MIDISequencer

theorem reachable_of_calls (cs : List SequencerCall) :
    ∀ (s s1 : MIDISequencer), s.Reachable → s.calls cs = some s1 → s1.Reachable := by
  induction cs with
  | nil =>
    intro s s1 h hc
    cases hc
    exact h
  | cons c cs ih =>
    intro s s1 h hc
    unfold calls at hc
    cases h1 : s.call c with
    | none => rw [h1] at hc; cases hc
    | some s2 =>
      rw [h1] at hc
      exact ih s2 s1 (Reachable.step s s2 c h h1) hc

end MIDISequencer

namespace MIDISequencer

theorem calls_append (a b : List SequencerCall) :
    ∀ (s : MIDISequencer), s.calls (a ++ b) = (s.calls a).bind (fun s1 => s1.calls b) := by
  induction a with
  | nil => intro s; rfl
  | cons c a ih =>
    intro s
    show (s.call c).bind (fun s1 => s1.calls (a ++ b)) = _
    cases h : s.call c with
    | none => simp [calls, h]
    | some s1 => simp [calls, h, ih]

/-- While a recording runs, an accepted message is recorded at its time stamp
relative to the start of the recording. -/
theorem handleIncomingMidiMessage_recording (s : MIDISequencer) (message : MidiMessage)
    (relative : ℚ) (h1 : s.shouldProcessMessage message = true) (h2 : s.recording = true)
    (h3 : s.recordingTrack.isSome = true) (h4 : s.playbackSettings.midiThru = true)
    (h5 : message.getTimeStamp - s.recordingStartTime = relative) :
    s.handleIncomingMidiMessage message
      = processRecordedMessage
          { s with inputBuffer := MidiBuffer.addEvent s.inputBuffer message 0 } message
          relative := by
  unfold handleIncomingMidiMessage
  rw [if_neg (by rw [h1]; decide)]
  simp only [h4, if_true]
  rw [if_pos ⟨h2, h3⟩]
  show processRecordedMessage _ message (message.getTimeStamp - s.recordingStartTime) = _
  rw [h5]

/-- The example session leads to the example state. -/
theorem exampleRecordingCalls_reach :
    MIDISequencer.calls {} exampleRecordingCalls = some exampleRecordingSequencer := by
  have hstart : MIDISequencer.calls {}
      [.setProject (some { project := { addr := 1, numTracks := 1 }, transportPosition := 5 }),
        .setRecordingSettings { autoQuantize := true, quantizeGrid := 4 },
        .startRecording (some { addr := 7, type := TrackType.MIDI })]
      = some { exampleRecordingSequencer with recordingSequence := {}, inputBuffer := [] } := by
    decide
  have hfirst : handleIncomingMidiMessage
      { exampleRecordingSequencer with recordingSequence := {}, inputBuffer := [] }
      { data := [0xb0, 7, 100], timeStamp := 8 }
      = { exampleRecordingSequencer with
          recordingSequence :=
            { list := [{ id := 0, message := { data := [0xb0, 7, 100], timeStamp := 3 } }]
              nextId := 1 }
          inputBuffer := [{ samplePosition := 0, data := [0xb0, 7, 100] }] } := by
    rw [handleIncomingMidiMessage_recording _ _ 3 (by decide) (by decide) (by decide) (by decide)
      (by norm_num [MidiMessage.getTimeStamp, exampleRecordingSequencer])]
    decide
  have hsecond : handleIncomingMidiMessage
      { exampleRecordingSequencer with
        recordingSequence :=
          { list := [{ id := 0, message := { data := [0xb0, 7, 100], timeStamp := 3 } }]
            nextId := 1 }
        inputBuffer := [{ samplePosition := 0, data := [0xb0, 7, 100] }] }
      ((MidiMessage.noteOff 1 60).setTimeStamp 14)
      = exampleRecordingSequencer := by
    rw [handleIncomingMidiMessage_recording _ _ 9 (by decide) (by decide) (by decide) (by decide)
      (by norm_num [MidiMessage.getTimeStamp, MidiMessage.setTimeStamp,
        exampleRecordingSequencer])]
    decide
  have hsplit : exampleRecordingCalls
      = [.setProject (some { project := { addr := 1, numTracks := 1 }, transportPosition := 5 }),
          .setRecordingSettings { autoQuantize := true, quantizeGrid := 4 },
          .startRecording (some { addr := 7, type := TrackType.MIDI })]
        ++ [.handleIncomingMidiMessage { data := [0xb0, 7, 100], timeStamp := 8 },
          .handleIncomingMidiMessage ((MidiMessage.noteOff 1 60).setTimeStamp 14)] := rfl
  rw [hsplit, calls_append, hstart]
  simp only [Option.some_bind, calls, call, hfirst, hsecond]

end MIDISequencer

/-- C22: in every state `s` the sequencer reaches from its construction through
calls of its public interface, `startRecording` with a null or a non-MIDI track
returns `s` unchanged; `startRecording` with a MIDI track returns and leaves the
sequencer recording on that track, with an empty pending sequence and
`recordingStartTime` equal to the transport position of the bound project (0
when no project is bound); and `stopRecording` returns and leaves it idle, with
no recording track, an empty pending sequence and start time 0. -/
theorem startRecording_stopRecording_bookkeeping (cs : List SequencerCall) (s : MIDISequencer)
    (hreach : MIDISequencer.calls {} cs = some s) :
    s.startRecording none = some s ∧
    (∀ t : Track, t.type ≠ TrackType.MIDI → s.startRecording (some t) = some s) ∧
    (∀ t : Track, t.type = TrackType.MIDI →
      ∃ s1, s.startRecording (some t) = some s1 ∧ s1.recording = true ∧
        s1.recordingTrack = some t ∧ s1.recordingSequence.getNumEvents = 0 ∧
        s1.recordingStartTime =
          (match s.currentProject with
            | some p => p.transportPosition
            | none => 0)) ∧
    (∃ s2, s.stopRecording = some s2 ∧ s2.recording = false ∧ s2.recordingTrack = none ∧
      s2.recordingSequence.getNumEvents = 0 ∧ s2.recordingStartTime = 0) := by
  have hsound := MIDISequencer.reachable_recorderSound s
    (MIDISequencer.reachable_of_calls cs _ s MIDISequencer.Reachable.init hreach)
  refine ⟨rfl, ?_, ?_, ?_⟩
  · intro t ht
    unfold MIDISequencer.startRecording
    simp only []
    rw [if_pos ht]
  · intro t ht
    obtain ⟨s1, h1, h2, h3, h4, h5, _⟩ := MIDISequencer.startRecording_spec s hsound t ht
    refine ⟨s1, h1, h2, h3, ?_, h5⟩
    show s1.recordingSequence.list.length = 0
    rw [h4]
    rfl
  · obtain ⟨s2, h1, h2, h3, h4, h5, _⟩ := MIDISequencer.stopRecording_spec s hsound
    refine ⟨s2, h1, h2, h3, ?_, h5⟩
    show s2.recordingSequence.list.length = 0
    rw [h4]
    rfl

/-- C22, an instance: the sequencer that is recording on track 7 with two events
pending. -/
theorem startRecording_stopRecording_bookkeeping_witness :
    MIDISequencer.calls {} exampleRecordingCalls = some exampleRecordingSequencer ∧
    exampleRecordingSequencer.startRecording none = some exampleRecordingSequencer ∧
    (∀ t : Track, t.type ≠ TrackType.MIDI →
      exampleRecordingSequencer.startRecording (some t) = some exampleRecordingSequencer) ∧
    (∀ t : Track, t.type = TrackType.MIDI →
      ∃ s1, exampleRecordingSequencer.startRecording (some t) = some s1 ∧ s1.recording = true ∧
        s1.recordingTrack = some t ∧ s1.recordingSequence.getNumEvents = 0 ∧
        s1.recordingStartTime =
          (match exampleRecordingSequencer.currentProject with
            | some p => p.transportPosition
            | none => 0)) ∧
    (∃ s2, exampleRecordingSequencer.stopRecording = some s2 ∧ s2.recording = false ∧
      s2.recordingTrack = none ∧ s2.recordingSequence.getNumEvents = 0 ∧
      s2.recordingStartTime = 0) :=
  ⟨MIDISequencer.exampleRecordingCalls_reach,
    startRecording_stopRecording_bookkeeping exampleRecordingCalls exampleRecordingSequencer
      MIDISequencer.exampleRecordingCalls_reach⟩
